import Mathlib

/-!
# The daemon TCP transport (`daemon/DaemonTCPTransport.cc`)

A shallow embedding of the listen-spec normalisation, the link-timeout
computation and the listener bookkeeping of `ajn::DaemonTCPTransport`, and what
is proved of them.

Library routines whose code is outside the two source files (the argument
parser of the transport base class, `qcc::IPAddress`, the string/number
conversions, the socket layer) are parameters of the embedding, collected in
`Env`; `refEnv` is one concrete choice of them.
-/

set_option maxRecDepth 100000

namespace ajn

/-! ## Status codes and the argument map -/

/-- The `QStatus` values that the transport returns or tests for. -/
inductive QStatus where
  | ER_OK
  | ER_FAIL
  | ER_OS_ERROR
  | ER_WOULDBLOCK
  | ER_AUTH_FAIL
  | ER_BUS_BAD_TRANSPORT_ARGS
  | ER_BUS_ALREADY_LISTENING
  | ER_BUS_TRANSPORT_NOT_STARTED
  | ER_BUS_BUS_ALREADY_STARTED
  deriving DecidableEq, Repr

open QStatus

/-- The `std::map<qcc::String, qcc::String>` that holds the parsed arguments:
a list of key/value entries in which a key is looked up by its first entry. -/
abbrev ArgMap := List (String × String)

/-- The value stored under `k` (`argMap.find(k)`), `none` for `argMap.end()`. -/
def ArgMap.find : ArgMap → String → Option String
  | [], _ => none
  | (key, v) :: rest, k => if key = k then some v else ArgMap.find rest k

/-- The assignment `argMap[k] = v` (also `iter->second = v` for an iterator at
`k`): the entry of `k` is overwritten, or a new entry is added. -/
def ArgMap.set : ArgMap → String → String → ArgMap
  | [], k, v => [(k, v)]
  | (key, val) :: rest, k, v =>
    if key = k then (k, v) :: rest else (key, val) :: ArgMap.set rest k v

/-! ## The library routines used by the transport -/

/-- The value of a `qcc::IPAddress`: its address bytes, 4 for an IPv4 address
and 16 for an IPv6 address. -/
structure IPAddress where
  addr : List Nat
  deriving DecidableEq, Repr

instance : Inhabited IPAddress := ⟨⟨[]⟩⟩

/-- The test `IPAddress::IsIPv6()`: the address has the IPv6 size. -/
def IPAddress.IsIPv6 (a : IPAddress) : Bool := a.addr.length == 16

/-- The routines and constants that `DaemonTCPTransport.cc` uses and whose
code is outside it.

* `ParseArguments name args argMap` is `Transport::ParseArguments`, returning
  the status and the argument map it filled;
* `SetAddress s` is `IPAddress::SetAddress(s, false)`, `none` when it does not
  return `ER_OK`;
* `ToString` is `IPAddress::ToString`;
* `StringToU32` and `U32ToString` are the `qcc` conversions;
* `PORT_DEFAULT` is the platform constant (0 under `QCC_OS_ANDROID`, otherwise
  9955). -/
structure Env where
  ParseArguments : String → String → ArgMap → QStatus × ArgMap
  SetAddress : String → Option IPAddress
  ToString : IPAddress → String
  StringToU32 : String → Nat
  U32ToString : Nat → String
  PORT_DEFAULT : Nat

/-- The default IPv4 listen address (`INADDR_ANY`). -/
def ADDR4_DEFAULT : String := "0.0.0.0"

/-- The default IPv6 listen address. -/
def ADDR6_DEFAULT : String := "0::0"

/-! ## Listen-spec and connect-spec normalisation -/

/-- The last part of `NormalizeListenSpec` (from `argMap["family"] = family`
to the end): stores the family, appends it to the output, then validates the
port or takes the default one. -/
def NormalizeListenSpec.familyPort (e : Env) (family outSpec : String) (argMap : ArgMap) :
    QStatus × String × ArgMap :=
  let argMap := argMap.set "family" family
  let outSpec := outSpec ++ ",family=" ++ family
  match argMap.find "port" with
  | none =>
    let portString := e.U32ToString (e.PORT_DEFAULT % 65536)
    (ER_OK, outSpec ++ ",port=" ++ portString, argMap.set "port" portString)
  | some v =>
    let port := e.StringToU32 v % 4294967296
    if 0 < port ∧ port ≤ 65535 then
      let portString := e.U32ToString port
      (ER_OK, outSpec ++ ",port=" ++ portString, argMap.set "port" portString)
    else
      (ER_BUS_BAD_TRANSPORT_ARGS, outSpec, argMap)

/-- The method `DaemonTCPTransport::NormalizeListenSpec(inSpec, outSpec, argMap)`.
The two reference parameters are passed in and returned next to the status, so
that what a failing call leaves in them is part of the result. -/
def NormalizeListenSpec (e : Env) (inSpec outSpec : String) (argMap : ArgMap) :
    QStatus × String × ArgMap :=
  let parsed := e.ParseArguments "tcp" inSpec argMap
  let argMap := parsed.2
  if parsed.1 ≠ ER_OK then (parsed.1, outSpec, argMap)
  else
    let family := (argMap.find "family").getD ""
    match argMap.find "addr" with
    | none =>
      let family := if family = "" then "ipv4" else family
      let addrString := if family = "ipv6" then ADDR6_DEFAULT else ADDR4_DEFAULT
      NormalizeListenSpec.familyPort e family ("tcp:addr=" ++ addrString)
        (argMap.set "addr" addrString)
    | some a =>
      match e.SetAddress a with
      | some addr =>
        if family = "" then
          NormalizeListenSpec.familyPort e (if addr.IsIPv6 then "ipv6" else "ipv4")
            ("tcp:addr=" ++ e.ToString addr) (argMap.set "addr" (e.ToString addr))
        else if addr.IsIPv6 ≠ decide (family = "ipv6") then
          (ER_BUS_BAD_TRANSPORT_ARGS, outSpec, argMap)
        else
          NormalizeListenSpec.familyPort e family
            ("tcp:addr=" ++ e.ToString addr) (argMap.set "addr" (e.ToString addr))
      | none => (ER_BUS_BAD_TRANSPORT_ARGS, outSpec, argMap)

/-- The method `DaemonTCPTransport::NormalizeTransportSpec`: a listen spec whose
address is not one of the two default (wildcard) addresses. -/
def NormalizeTransportSpec (e : Env) (inSpec outSpec : String) (argMap : ArgMap) :
    QStatus × String × ArgMap :=
  let r := NormalizeListenSpec e inSpec outSpec argMap
  if r.1 ≠ ER_OK then r
  else
    match r.2.2.find "addr" with
    | none => r
    | some a =>
      if a = ADDR4_DEFAULT ∨ a = ADDR6_DEFAULT then (ER_BUS_BAD_TRANSPORT_ARGS, r.2.1, r.2.2)
      else (ER_OK, r.2.1, r.2.2)

/-! ## The link timeout of an endpoint -/

/-- The number of keepalive probes. -/
def TCP_LINK_TIMEOUT_PROBE_ATTEMPTS : Nat := 1

/-- The delay allowed for the answer to a probe. -/
def TCP_LINK_TIMEOUT_PROBE_RESPONSE_DELAY : Nat := 10

/-- The smallest link timeout that is installed. -/
def TCP_LINK_TIMEOUT_MIN_LINK_TIMEOUT : Nat := 40

/-- What a call of `DaemonTCPEndpoint::SetLinkTimeout` leaves behind: the
returned status, the value of the reference parameter `linkTimeout` on return,
and the three arguments it passed to `RemoteEndpoint::SetLinkTimeout`. -/
structure LinkTimeoutResult where
  status : QStatus
  linkTimeout : Nat
  installed : Nat × Nat × Nat
  deriving DecidableEq, Repr

/-- The method `DaemonTCPEndpoint::SetLinkTimeout(uint32_t& linkTimeout)`. The
routine `base` is `RemoteEndpoint::SetLinkTimeout` of the endpoint base class;
the arithmetic is that of `uint32_t`; `to0` and `to1` are the local `to` before
and after the subtraction. -/
def DaemonTCPEndpoint.SetLinkTimeout (base : Nat → Nat → Nat → QStatus) (linkTimeout : Nat) :
    LinkTimeoutResult :=
  let margin := (TCP_LINK_TIMEOUT_PROBE_RESPONSE_DELAY * TCP_LINK_TIMEOUT_PROBE_ATTEMPTS) % 4294967296
  if 0 < linkTimeout then
    let to0 := max linkTimeout TCP_LINK_TIMEOUT_MIN_LINK_TIMEOUT
    let to1 := (to0 + 4294967296 - margin) % 4294967296
    let status := base to1 TCP_LINK_TIMEOUT_PROBE_RESPONSE_DELAY TCP_LINK_TIMEOUT_PROBE_ATTEMPTS
    { status := status
      linkTimeout := if status = ER_OK ∧ 0 < to1 then (to1 + margin) % 4294967296 else linkTimeout
      installed := (to1, TCP_LINK_TIMEOUT_PROBE_RESPONSE_DELAY, TCP_LINK_TIMEOUT_PROBE_ATTEMPTS) }
  else
    { status := ER_OK, linkTimeout := linkTimeout, installed := (0, 0, 0) }

/-! ## The transport and its listeners -/

/-- A socket descriptor (`qcc::SocketFd`), -1 when there is none. -/
abbrev SocketFd := Int

/-- The address family passed to `qcc::Socket`. -/
inductive AddressFamily where
  | QCC_AF_INET
  | QCC_AF_INET6
  deriving DecidableEq, Repr

/-- One entry of `qcc::IfConfig`: the interface name, its address as text, and
the two bits of `m_flags` that the transport tests. -/
structure IfConfigEntry where
  m_name : String
  m_addr : String
  UP : Bool
  LOOPBACK : Bool := false
  deriving DecidableEq, Repr

/-- The outcomes of the calls into the socket layer, the name service, the
configuration database and the endpoint base class. A call that creates a
socket is given the descriptor that the new socket would get. -/
structure Os where
  interfaces : String
  OpenInterface : String → QStatus
  Socket : AddressFamily → SocketFd → QStatus
  SetReuseAddress : SocketFd → QStatus
  Bind : SocketFd → IPAddress → Nat → QStatus
  GetLocalAddress : SocketFd → Nat → Nat
  Listen : SocketFd → QStatus
  IfConfig : QStatus × List IfConfigEntry
  SetNagle : SocketFd → QStatus
  Connect : SocketFd → IPAddress → Nat → QStatus
  Send : SocketFd → QStatus
  Establish : SocketFd → QStatus
  Start : SocketFd → QStatus

/-- The authentication state of an endpoint. -/
inductive AuthState where
  | ILLEGAL
  | INITIALIZED
  | AUTHENTICATING
  | FAILED
  | AVORTED
  | SUCCEEDED
  deriving DecidableEq, Repr

/-- An endpoint record (`DaemonTCPEndpoint`). The field `sock` is the socket of
its stream and identifies the record; `stopped` records a call of `Stop`. -/
structure DaemonTCPEndpoint where
  incoming : Bool
  connectSpec : String
  sock : SocketFd
  m_ipAddr : IPAddress
  m_port : Nat
  m_state : AuthState := AuthState.INITIALIZED
  m_tStart : Nat := 0
  m_wasSuddenDisconnect : Bool
  isBusToBus : Bool := false
  hasListener : Bool := false
  authThreadRunning : Bool := false
  stopped : Bool := false
  deriving DecidableEq, Repr

/-- The request code of a queued listen request. -/
inductive RequestOp where
  | START_LISTEN
  | STOP_LISTEN
  deriving DecidableEq, Repr

/-- A queued request to the accept thread. -/
structure ListenRequest where
  m_request : RequestOp
  m_listenSpec : String
  deriving DecidableEq, Repr

/-- What the transport has told its name service. -/
structure NameService where
  initialized : Bool := false
  callback : Bool := false
  stopped : Bool := false
  opened : List String := []
  port : Nat := 0
  advertised : List String := []
  located : List String := []
  cancelled : List String := []
  deriving DecidableEq, Repr

/-- The state of a `DaemonTCPTransport`. Besides the member variables it holds
what the transport did to the outside: `openSockets` are the descriptors it
created and has not closed, `nextFd` the descriptor of the next socket,
`alerts` counts the calls of `Alert`, `listenFdsLockHeld` says whether
`m_listenFdsLock` is held, `assertFailed` whether an `assert` was violated,
`lost` lists the `BusConnectionLost` notifications sent up, and `created`,
`deleted` and `aborted` list, by their sockets, the endpoint records made with
`new`, destroyed with `delete`, and asked to `Abort`. -/
structure DaemonTCPTransport where
  isRunning : Bool := false
  m_stopping : Bool := false
  m_ns : Option NameService := none
  m_listener : Bool := false
  m_authList : List DaemonTCPEndpoint := []
  m_endpointList : List DaemonTCPEndpoint := []
  m_listenSpecs : List String := []
  m_listenRequests : List ListenRequest := []
  m_listenFds : List (String × SocketFd) := []
  openSockets : List SocketFd := []
  nextFd : SocketFd := 3
  alerts : Nat := 0
  listenFdsLockHeld : Bool := false
  assertFailed : Bool := false
  lost : List String := []
  created : List SocketFd := []
  deleted : List SocketFd := []
  aborted : List SocketFd := []
  deriving DecidableEq, Repr

/-- An `assert(cond)`: a violated assertion is recorded. -/
def DaemonTCPTransport.assert (t : DaemonTCPTransport) (cond : Bool) : DaemonTCPTransport :=
  if cond then t else { t with assertFailed := true }

/-- The call `qcc::Close(fd)` (after `qcc::Shutdown` where the source has it). -/
def DaemonTCPTransport.Close (t : DaemonTCPTransport) (fd : SocketFd) : DaemonTCPTransport :=
  { t with openSockets := t.openSockets.erase fd }

/-- The statement `delete ep`. Modelled from the spec: the destructor of an
endpoint record is not in the source files; by section 5 of the spec the socket
of a connection is closed by the destructor of its record. -/
def DaemonTCPTransport.delete (t : DaemonTCPTransport) (ep : DaemonTCPEndpoint) :
    DaemonTCPTransport :=
  { t with deleted := t.deleted ++ [ep.sock], openSockets := t.openSockets.erase ep.sock }

/-- The method `DaemonTCPTransport::QueueStartListen`. -/
def QueueStartListen (t : DaemonTCPTransport) (normSpec : String) : DaemonTCPTransport :=
  { t with
    m_listenRequests := t.m_listenRequests ++ [⟨RequestOp.START_LISTEN, normSpec⟩]
    alerts := t.alerts + 1 }

/-- The method `DaemonTCPTransport::QueueStopListen`. -/
def QueueStopListen (t : DaemonTCPTransport) (normSpec : String) : DaemonTCPTransport :=
  { t with
    m_listenRequests := t.m_listenRequests ++ [⟨RequestOp.STOP_LISTEN, normSpec⟩]
    alerts := t.alerts + 1 }

/-- The method `DaemonTCPTransport::StartListen`. -/
def StartListen (e : Env) (t : DaemonTCPTransport) (listenSpec : String) :
    QStatus × DaemonTCPTransport :=
  if t.isRunning = false ∨ t.m_stopping = true then (ER_BUS_TRANSPORT_NOT_STARTED, t)
  else
    let t := t.assert t.m_ns.isSome
    let r := NormalizeListenSpec e listenSpec "" []
    if r.1 ≠ ER_OK then (r.1, t)
    else if r.2.1 ∈ t.m_listenSpecs then (ER_BUS_ALREADY_LISTENING, t)
    else (ER_OK, QueueStartListen t r.2.1)

/-- The method `DaemonTCPTransport::StopListen`. -/
def StopListen (e : Env) (t : DaemonTCPTransport) (listenSpec : String) :
    QStatus × DaemonTCPTransport :=
  if t.isRunning = false ∨ t.m_stopping = true then (ER_BUS_TRANSPORT_NOT_STARTED, t)
  else
    let t := t.assert t.m_ns.isSome
    let r := NormalizeListenSpec e listenSpec "" []
    if r.1 ≠ ER_OK then (r.1, t)
    else if r.2.1 ∈ t.m_listenSpecs then
      (ER_OK, QueueStopListen { t with m_listenSpecs := t.m_listenSpecs.erase r.2.1 } r.2.1)
    else (ER_OK, t)

/-- The default of the name-service interface list: every interface. -/
def INTERFACES_DEFAULT : String := "*"

/-- The loop `while (interfaces.size())` of `DoStartListen`: the successive
values of `currentInterface`, cut at each comma. The first argument is the
part of the current name read so far (`none` at the head of the loop). -/
def interfaceNames : Option (List Char) → List Char → List String
  | none, [] => []
  | some acc, [] => [String.mk acc.reverse]
  | none, c :: rest =>
    if c = ',' then "" :: interfaceNames none rest else interfaceNames (some [c]) rest
  | some acc, c :: rest =>
    if c = ',' then String.mk acc.reverse :: interfaceNames none rest
    else interfaceNames (some (c :: acc)) rest

/-- The constructor `IPAddress(const qcc::String&)` applied to a text. -/
def Env.IPAddress (e : Env) (s : String) : IPAddress := (e.SetAddress s).getD default

/-- The family selected by `argMap["family"] == "ipv6" ? QCC_AF_INET6 : QCC_AF_INET`. -/
def familyOf (argMap : ArgMap) : AddressFamily :=
  if (argMap.find "family").getD "" = "ipv6" then AddressFamily.QCC_AF_INET6
  else AddressFamily.QCC_AF_INET

/-- The method `DaemonTCPTransport::DoStartListen`, run by the accept thread. -/
def DoStartListen (e : Env) (os : Os) (t : DaemonTCPTransport) (normSpec : String) :
    DaemonTCPTransport :=
  let t := t.assert t.m_ns.isSome
  let r := NormalizeListenSpec e normSpec "" []
  let t := t.assert (r.1 = ER_OK)
  let argMap := r.2.2
  let t := { t with listenFdsLockHeld := true }
  let listenAddr := e.IPAddress ((argMap.find "addr").getD "")
  let listenPort := e.StringToU32 ((argMap.find "port").getD "") % 65536
  let family := familyOf argMap
  let interfaces := if os.interfaces = "" then INTERFACES_DEFAULT else os.interfaces
  let t := { t with
    m_ns := t.m_ns.map (fun (ns : NameService) =>
      { ns with opened := ns.opened ++ interfaceNames none interfaces.data }) }
  if os.Socket family t.nextFd ≠ ER_OK then { t with listenFdsLockHeld := false }
  else
    let listenFd := t.nextFd
    let t := { t with openSockets := t.openSockets ++ [listenFd], nextFd := t.nextFd + 1 }
    if os.SetReuseAddress listenFd ≠ ER_OK then t.Close listenFd
    else
      let bound := os.Bind listenFd listenAddr listenPort
      let listenPort :=
        if bound = ER_OK then os.GetLocalAddress listenFd listenPort % 65536 else listenPort
      let status := if bound = ER_OK then os.Listen listenFd else bound
      let t :=
        if status = ER_OK then
          { t with
            m_listenFds := t.m_listenFds ++
              [("tcp:addr=" ++ (argMap.find "addr").getD "" ++ ",port=" ++ e.U32ToString listenPort,
                listenFd)] }
        else t
      let t := { t with
        m_ns := t.m_ns.map (fun (ns : NameService) => { ns with port := listenPort })
        listenFdsLockHeld := false }
      if status = ER_OK then { t with alerts := t.alerts + 1 } else t

/-- The search loop of `DoStopListen`: the descriptor of the first entry whose
spec is `normSpec`, and the list without that entry. -/
def DoStopListen.remove (normSpec : String) :
    List (String × SocketFd) → Option SocketFd × List (String × SocketFd)
  | [] => (none, [])
  | p :: rest =>
    if p.1 = normSpec then (some p.2, rest)
    else ((DoStopListen.remove normSpec rest).1, p :: (DoStopListen.remove normSpec rest).2)

/-- The method `DaemonTCPTransport::DoStopListen`, run by the accept thread. -/
def DoStopListen (t : DaemonTCPTransport) (normSpec : String) : DaemonTCPTransport :=
  let t := t.assert t.m_ns.isSome
  match DoStopListen.remove normSpec t.m_listenFds with
  | (some stopFd, rest) => ({ t with m_listenFds := rest }).Close stopFd
  | (none, _) => t

/-- The loop `while (m_listenRequests.empty() == false)` at the end of an
iteration of `DaemonTCPTransport::Run`; the first argument bounds the number
of requests taken off the queue. -/
def Run.listenRequests (e : Env) (os : Os) : Nat → DaemonTCPTransport → DaemonTCPTransport
  | 0, t => t
  | n + 1, t =>
    match t.m_listenRequests with
    | [] => t
    | listenRequest :: rest =>
      let t := { t with m_listenRequests := rest }
      match listenRequest.m_request with
      | RequestOp.START_LISTEN =>
        Run.listenRequests e os n (DoStartListen e os t listenRequest.m_listenSpec)
      | RequestOp.STOP_LISTEN =>
        Run.listenRequests e os n (DoStopListen t listenRequest.m_listenSpec)

/-- The accept thread drains the request queue: the loop run for as many
requests as are queued. -/
def Run.drain (e : Env) (os : Os) (t : DaemonTCPTransport) : DaemonTCPTransport :=
  Run.listenRequests e os t.m_listenRequests.length t

/-- The text that `Connect` formats into `char anyspec[40]` with `snprintf`:
at most 39 characters are kept. -/
def Connect.anyspec (family : AddressFamily) (port : Nat) : String :=
  let text :=
    match family with
    | AddressFamily.QCC_AF_INET => "tcp:addr=0.0.0.0,port=" ++ Nat.repr port ++ ",family=ipv4"
    | AddressFamily.QCC_AF_INET6 => "tcp:addr=0::0,port=" ++ Nat.repr port ++ ",family=ipv6"
  String.mk (text.data.take 39)

/-- The walk over `m_listenFds` in `Connect`: `none` when an entry equals the
connect spec (the walk returns `ER_BUS_ALREADY_LISTENING`), otherwise the final
value of `anyEncountered`. -/
def Connect.checkListeners (normSpec normAnySpec : String) :
    List (String × SocketFd) → Bool → Option Bool
  | [], anyEncountered => some anyEncountered
  | p :: rest, anyEncountered =>
    if p.1 = normSpec then none
    else Connect.checkListeners normSpec normAnySpec rest
      (if p.1 = normAnySpec then true else anyEncountered)

/-- The walk over the interface entries in `Connect`: whether an interface that
is UP has the address that is being connected to. -/
def Connect.isLocal (e : Env) (ipAddr : IPAddress) : List IfConfigEntry → Bool
  | [] => false
  | entry :: rest =>
    if entry.UP = true ∧ e.IPAddress entry.m_addr = ipAddr then true
    else Connect.isLocal e ipAddr rest

/-- The second half of `DaemonTCPTransport::Connect`, after the checks for a
connection to ourself: the socket is created and connected, the endpoint record
is put on `m_endpointList` and brought up. -/
def Connect.bringUp (os : Os) (t : DaemonTCPTransport) (normSpec : String) (ipAddr : IPAddress)
    (port : Nat) (family : AddressFamily) :
    QStatus × Option DaemonTCPEndpoint × DaemonTCPTransport :=
  let created := os.Socket family t.nextFd
  let sockFd : SocketFd := if created = ER_OK then t.nextFd else -1
  let t :=
    if created = ER_OK then
      { t with openSockets := t.openSockets ++ [sockFd], nextFd := t.nextFd + 1 }
    else t
  let status := if created = ER_OK then os.SetNagle sockFd else created
  let connected := if status = ER_OK then os.Connect sockFd ipAddr port else status
  let isConnected : Bool := status = ER_OK ∧ connected = ER_OK
  let status := if isConnected then os.Send sockFd else connected
  if status = ER_OK then
    let conn : DaemonTCPEndpoint :=
      { incoming := false, connectSpec := normSpec, sock := sockFd, m_ipAddr := ipAddr,
        m_port := port, m_wasSuddenDisconnect := true, isBusToBus := true }
    let t := { t with created := t.created ++ [sockFd] }
    let established := os.Establish sockFd
    let status := if established = ER_OK then os.Start sockFd else established
    if status = ER_OK then
      let conn := { conn with hasListener := true }
      (ER_OK, some conn, { t with m_endpointList := t.m_endpointList ++ [conn] })
    else
      let t := { t with m_endpointList := (t.m_endpointList ++ [conn]).erase conn }
      let t := t.delete conn
      (status, none, if 0 ≤ sockFd then t.Close sockFd else t)
  else
    (status, none, if 0 ≤ sockFd then t.Close sockFd else t)

/-- The method `DaemonTCPTransport::Connect`: the status, the endpoint stored
through `newep`, and the transport afterwards. -/
def Connect (e : Env) (os : Os) (t : DaemonTCPTransport) (connectSpec : String) :
    QStatus × Option DaemonTCPEndpoint × DaemonTCPTransport :=
  if t.isRunning = false ∨ t.m_stopping = true then (ER_BUS_TRANSPORT_NOT_STARTED, none, t)
  else
    let t := t.assert t.m_ns.isSome
    let r := NormalizeTransportSpec e connectSpec "" []
    if r.1 ≠ ER_OK then (r.1, none, t)
    else
      let normSpec := r.2.1
      let argMap := r.2.2
      let ipAddr := e.IPAddress ((argMap.find "addr").getD "")
      let port := e.StringToU32 ((argMap.find "port").getD "") % 65536
      let family := familyOf argMap
      let ra := NormalizeListenSpec e (Connect.anyspec family port) "" []
      if ra.1 ≠ ER_OK then (ra.1, none, t)
      else
        match Connect.checkListeners normSpec ra.2.1 t.m_listenFds false with
        | none => (ER_BUS_ALREADY_LISTENING, none, t)
        | some anyEncountered =>
          if anyEncountered = true ∧ os.IfConfig.1 = ER_OK ∧
              Connect.isLocal e ipAddr os.IfConfig.2 = true then
            (ER_BUS_ALREADY_LISTENING, none, t)
          else Connect.bringUp os t normSpec ipAddr port family

/-! ## The life cycle of the transport and of its endpoints -/

/-- The outcomes of the calls into the thread layer and the name service, and
the constants of the transport mask. The three `TRANSPORT_` fields are the mask
bits of that name; `GetEndpoints ns` is what `NameService::GetEndpoints`
reports: the IPv4 address, the IPv6 address and the port; `AuthStart sock` is
the start of the authentication thread of the record with that socket, and
`EndpointStop sock` is `RemoteEndpoint::Stop` of that record. -/
structure Sys where
  Init : QStatus
  ThreadStart : QStatus
  ThreadStop : QStatus
  ThreadJoin : QStatus
  Locate : String → QStatus
  Advertise : String → QStatus
  Cancel : String → QStatus
  GetEndpoints : NameService → String × String × Nat
  AuthStart : SocketFd → QStatus
  EndpointStop : SocketFd → QStatus
  TRANSPORT_WLAN : Nat
  TRANSPORT_WWAN : Nat
  TRANSPORT_LAN : Nat

/-- The three limits that `Run` reads from the configuration database (or takes
from the defaults) before it enters its loop. -/
structure Limits where
  tTimeout : Nat
  maxAuth : Nat
  maxConn : Nat
  deriving DecidableEq, Repr

/-- The method `DaemonTCPTransport::Start`. -/
def Start (sys : Sys) (t : DaemonTCPTransport) : QStatus × DaemonTCPTransport :=
  if t.isRunning = true then (ER_BUS_BUS_ALREADY_STARTED, t)
  else if t.m_ns.isSome = true then (ER_BUS_BUS_ALREADY_STARTED, t)
  else
    let t := { t with m_ns := some {}, m_stopping := false }
    if sys.Init ≠ ER_OK then (sys.Init, t)
    else
      let t := { t with m_ns := some { initialized := true, callback := true } }
      (sys.ThreadStart, if sys.ThreadStart = ER_OK then { t with isRunning := true } else t)

/-- The method `DaemonTCPTransport::Stop`. -/
def Stop (sys : Sys) (t : DaemonTCPTransport) : QStatus × DaemonTCPTransport :=
  let t := { t with
    m_stopping := true
    m_ns := t.m_ns.map (fun (ns : NameService) => { ns with callback := false }) }
  if sys.ThreadStop ≠ ER_OK then (sys.ThreadStop, t)
  else
    (ER_OK, { t with
      aborted := t.aborted ++ t.m_authList.map (fun (ep : DaemonTCPEndpoint) => ep.sock)
      m_endpointList :=
        t.m_endpointList.map (fun (ep : DaemonTCPEndpoint) => { ep with stopped := true })
      m_ns := t.m_ns.map (fun (ns : NameService) => { ns with stopped := true }) })

/-- What `DaemonTCPTransport::Run` does after it has left its loop: every
listening socket is shut down and closed and `m_listenFds` is cleared. -/
def Run.cleanup (t : DaemonTCPTransport) : DaemonTCPTransport :=
  { t with
    openSockets := t.m_listenFds.foldl (fun l p => l.erase p.2) t.openSockets
    m_listenFds := [] }

/-- The method `DaemonTCPTransport::Join`. It waits, so it has a result only in
some states: `Thread::Join` returns once the accept thread has left `Run`,
which a running thread does when it has been asked to stop, and what `Run` does
on its way out is done by then; the two loops that sleep end when
`m_authList` and `m_endpointList` are empty. In the other states the call
does not return (`none`). -/
def Join (sys : Sys) (t : DaemonTCPTransport) : Option (QStatus × DaemonTCPTransport) :=
  if t.isRunning = true ∧ t.m_stopping = false then none
  else if sys.ThreadJoin ≠ ER_OK then some (sys.ThreadJoin, t)
  else
    let t := if t.isRunning = true then Run.cleanup t else t
    let t := { t with isRunning := false }
    if t.m_authList ≠ [] then none
    else if t.m_endpointList ≠ [] then none
    else some (ER_OK, { t with m_ns := none, m_stopping := false })

/-- The walk of `Disconnect` over `m_endpointList`: the first record with the
given peer port and address, and the list in which that record has
`SetSuddenDisconnect(false)` applied and `Stop` called. -/
def Disconnect.walk (ipAddr : IPAddress) (port : Nat) :
    List DaemonTCPEndpoint → Option (DaemonTCPEndpoint × List DaemonTCPEndpoint)
  | [] => none
  | ep :: rest =>
    if ep.m_port = port ∧ ep.m_ipAddr = ipAddr then
      some (ep, { ep with m_wasSuddenDisconnect := false, stopped := true } :: rest)
    else (Disconnect.walk ipAddr port rest).map (fun r => (r.1, ep :: r.2))

/-- The method `DaemonTCPTransport::Disconnect`. -/
def Disconnect (e : Env) (sys : Sys) (t : DaemonTCPTransport) (connectSpec : String) :
    QStatus × DaemonTCPTransport :=
  if t.isRunning = false ∨ t.m_stopping = true then (ER_BUS_TRANSPORT_NOT_STARTED, t)
  else
    let t := t.assert t.m_ns.isSome
    let r := NormalizeTransportSpec e connectSpec "" []
    if r.1 ≠ ER_OK then (r.1, t)
    else
      let ipAddr := e.IPAddress ((r.2.2.find "addr").getD "")
      let port := e.StringToU32 ((r.2.2.find "port").getD "") % 65536
      match Disconnect.walk ipAddr port t.m_endpointList with
      | some found => (sys.EndpointStop found.1.sock, { t with m_endpointList := found.2 })
      | none => (ER_BUS_BAD_TRANSPORT_ARGS, t)

/-- The method `DaemonTCPTransport::EnableDiscovery`. -/
def EnableDiscovery (t : DaemonTCPTransport) (namePrefix : String) : DaemonTCPTransport :=
  if t.isRunning = false ∨ t.m_stopping = true then t
  else
    let t := t.assert t.m_ns.isSome
    { t with
      m_ns := t.m_ns.map (fun (ns : NameService) =>
        { ns with located := ns.located ++ [namePrefix ++ "*"] }) }

/-- The method `DaemonTCPTransport::EnableAdvertisement`. -/
def EnableAdvertisement (sys : Sys) (t : DaemonTCPTransport) (advertiseName : String) :
    QStatus × DaemonTCPTransport :=
  if t.isRunning = false ∨ t.m_stopping = true then (ER_BUS_TRANSPORT_NOT_STARTED, t)
  else
    let t := t.assert t.m_ns.isSome
    (sys.Advertise advertiseName,
      { t with
        m_ns := t.m_ns.map (fun (ns : NameService) =>
          { ns with advertised := ns.advertised ++ [advertiseName] }) })

/-- The method `DaemonTCPTransport::DisableAdvertisement`. -/
def DisableAdvertisement (t : DaemonTCPTransport) (advertiseName : String)
    (_nameListEmpty : Bool) : DaemonTCPTransport :=
  if t.isRunning = false ∨ t.m_stopping = true then t
  else
    let t := t.assert t.m_ns.isSome
    { t with
      m_ns := t.m_ns.map (fun (ns : NameService) =>
        { ns with cancelled := ns.cancelled ++ [advertiseName] }) }

/-- The traffic types of `SessionOpts`. -/
inductive TrafficType where
  | TRAFFIC_MESSAGES
  | TRAFFIC_RAW_UNRELIABLE
  | TRAFFIC_RAW_RELIABLE
  deriving DecidableEq, Repr

/-- The two fields of `SessionOpts` that `GetListenAddresses` reads. -/
structure SessionOpts where
  traffic : TrafficType
  transports : Nat
  deriving DecidableEq, Repr

/-- The loop of `GetListenAddresses` over the interface entries of the system,
for one value of `currentInterface`. -/
def GetListenAddresses.entries (e : Env) (sys : Sys) (ns : NameService) (haveWildcard : Bool)
    (currentInterface : String) : List IfConfigEntry → List String → List String
  | [], busAddrs => busAddrs
  | entry :: rest, busAddrs =>
    let port := (sys.GetEndpoints ns).2.2 % 65536
    let busAddrs :=
      if (entry.UP = true ∧ entry.LOOPBACK = false) ∧
          (haveWildcard = true ∨ entry.m_name = currentInterface) ∧ port ≠ 0 then
        let busAddrs :=
          if (sys.GetEndpoints ns).1 ≠ "" then
            busAddrs ++
              ["tcp:addr=" ++ entry.m_addr ++ ",port=" ++ e.U32ToString port ++ ",family=ipv4"]
          else busAddrs
        if (sys.GetEndpoints ns).2.1 ≠ "" then
          busAddrs ++
            ["tcp:addr=" ++ entry.m_addr ++ ",port=" ++ e.U32ToString port ++ ",family=ipv6"]
        else busAddrs
      else busAddrs
    GetListenAddresses.entries e sys ns haveWildcard currentInterface rest busAddrs

/-- The loop of `GetListenAddresses` over the configured interface names. -/
def GetListenAddresses.names (e : Env) (sys : Sys) (ns : NameService) (haveWildcard : Bool)
    (entries : List IfConfigEntry) : List String → List String → List String
  | [], busAddrs => busAddrs
  | currentInterface :: rest, busAddrs =>
    GetListenAddresses.names e sys ns haveWildcard entries rest
      (GetListenAddresses.entries e sys ns haveWildcard currentInterface entries busAddrs)

/-- The method `DaemonTCPTransport::GetListenAddresses`: the status and the
vector `busAddrs` on return. -/
def GetListenAddresses (e : Env) (os : Os) (sys : Sys) (t : DaemonTCPTransport)
    (opts : SessionOpts) (busAddrs : List String) : QStatus × List String :=
  if opts.traffic ≠ TrafficType.TRAFFIC_MESSAGES ∧
      opts.traffic ≠ TrafficType.TRAFFIC_RAW_RELIABLE then (ER_OK, busAddrs)
  else if opts.transports &&& (sys.TRANSPORT_WLAN ||| sys.TRANSPORT_WWAN ||| sys.TRANSPORT_LAN)
      = 0 then (ER_OK, busAddrs)
  else
    match t.m_ns with
    | none => (ER_BUS_TRANSPORT_NOT_STARTED, busAddrs)
    | some ns =>
      if os.IfConfig.1 ≠ ER_OK then (os.IfConfig.1, busAddrs)
      else
        let interfaces := if os.interfaces = "" then INTERFACES_DEFAULT else os.interfaces
        let haveWildcard : Bool := decide ('*' ∈ interfaces.data)
        let interfaces := if haveWildcard = true then "*" else interfaces
        (ER_OK, GetListenAddresses.names e sys ns haveWildcard os.IfConfig.2
          (interfaceNames none interfaces.data) busAddrs)

/-- The list without its first record with the given socket: `erase` at the
position that `find` returns for a record. -/
def eraseEndpoint : List DaemonTCPEndpoint → SocketFd → List DaemonTCPEndpoint
  | [], _ => []
  | ep :: rest, sock => if ep.sock = sock then rest else ep :: eraseEndpoint rest sock

/-- The method `DaemonTCPTransport::Authenticated`, called by the authentication
thread of `conn`. When `Start` fails the source erases from `m_authList`,
through the position that `find` returned in `m_endpointList`; the call is
taken by the list it names, so the record stays on `m_endpointList`. -/
def Authenticated (os : Os) (t : DaemonTCPTransport) (conn : DaemonTCPEndpoint) :
    DaemonTCPTransport :=
  let t := t.assert (decide (conn.sock ∈ t.m_authList.map (fun ep => ep.sock)))
  let t := { t with
    m_authList := eraseEndpoint t.m_authList conn.sock
    m_endpointList := t.m_endpointList ++ [{ conn with hasListener := true }] }
  if os.Start conn.sock ≠ ER_OK then
    ({ t with m_authList := eraseEndpoint t.m_authList conn.sock }).delete conn
  else t

/-- The method `DaemonTCPTransport::EndpointExit`, called by the last thread of
the record `tep`. -/
def EndpointExit (t : DaemonTCPTransport) (tep : DaemonTCPEndpoint) : DaemonTCPTransport :=
  let t := { t with m_endpointList := eraseEndpoint t.m_endpointList tep.sock }
  let t :=
    if t.m_listener = true ∧ tep.m_wasSuddenDisconnect = true then
      { t with lost := t.lost ++ [tep.connectSpec] }
    else t
  t.delete tep

/-- The record as the accept thread reads it: its authentication thread may
have changed `m_state` and may have stopped running in the meantime. -/
def observe (seen : Option (AuthState × Bool)) (ep : DaemonTCPEndpoint) : DaemonTCPEndpoint :=
  match seen with
  | none => ep
  | some change => { ep with m_state := change.1, authThreadRunning := change.2 }

/-- The loop of `Run` over `m_authList` that scavenges failed and slow
authenticators, from the position `j` on: the entries kept, the sockets of the
records deleted, and the sockets of the records aborted. The first argument
bounds the number of passes through the loop body, the second counts them, and
`w k sock` is what the authentication thread of a record has changed when the
body reads the record in pass `k`. A pass that calls `Abort` leaves `j` where
it is. Without enough passes there is no result. -/
def Run.scavenge (tTimeout tNow : Nat) (w : Nat → SocketFd → Option (AuthState × Bool)) :
    Nat → Nat → List DaemonTCPEndpoint →
      Option (List DaemonTCPEndpoint × List DaemonTCPEndpoint × List SocketFd)
  | _, _, [] => some ([], [], [])
  | 0, _, _ :: _ => none
  | n + 1, k, j :: rest =>
    let ep := observe (w k j.sock) j
    if ep.m_state = AuthState.FAILED ∧ ep.authThreadRunning = false then
      (Run.scavenge tTimeout tNow w n (k + 1) rest).map
        (fun r => (r.1, ep :: r.2.1, r.2.2))
    else if ep.m_tStart + tTimeout < tNow then
      (Run.scavenge tTimeout tNow w n (k + 1) (ep :: rest)).map
        (fun r => (r.1, r.2.1, ep.sock :: r.2.2))
    else
      (Run.scavenge tTimeout tNow w n (k + 1) rest).map
        (fun r => (ep :: r.1, r.2.1, r.2.2))

/-- The scavenging loop applied to the transport. -/
def Run.scavengeAuthList (lim : Limits) (w : Nat → SocketFd → Option (AuthState × Bool))
    (fuel tNow : Nat) (t : DaemonTCPTransport) : Option DaemonTCPTransport :=
  (Run.scavenge lim.tTimeout tNow w fuel 0 t.m_authList).map (fun r =>
    r.2.1.foldl (fun (s : DaemonTCPTransport) ep => s.delete ep)
      { t with m_authList := r.1, aborted := t.aborted ++ r.2.2 })

/-- The end of the handling of an accepted connection in `Run`, after the
scavenging loop: the connection is given a record on `m_authList` if there is
a slot, and is closed if not. `tNow` is the time read for the start time. -/
def Run.newConnection (lim : Limits) (sys : Sys) (tNow : Nat) (t : DaemonTCPTransport)
    (newSock : SocketFd) (remoteAddr : IPAddress) (remotePort : Nat) : DaemonTCPTransport :=
  if t.m_authList.length < lim.maxAuth ∧
      t.m_authList.length + t.m_endpointList.length < lim.maxConn then
    let conn : DaemonTCPEndpoint :=
      { incoming := true, connectSpec := "", sock := newSock, m_ipAddr := remoteAddr,
        m_port := remotePort, m_wasSuddenDisconnect := false, m_tStart := tNow }
    let t := { t with created := t.created ++ [newSock], m_authList := conn :: t.m_authList }
    if sys.AuthStart newSock ≠ ER_OK then
      ({ t with m_authList := t.m_authList.tail }).delete
        { conn with m_state := AuthState.FAILED }
    else
      { t with m_authList := { conn with authThreadRunning := true } :: t.m_authList.tail }
  else t.Close newSock

/-- The handling in `Run` of one signalled listening socket on which `Accept`
returned `ER_OK`: the new socket, the assertion on the two lists, the
scavenging loop and the admission. `tNow` is the time read before scavenging
and `tStart` the time read for the new record. -/
def Run.accepted (lim : Limits) (sys : Sys) (w : Nat → SocketFd → Option (AuthState × Bool))
    (fuel tNow tStart : Nat) (t : DaemonTCPTransport) (remoteAddr : IPAddress)
    (remotePort : Nat) : Option DaemonTCPTransport :=
  let newSock := t.nextFd
  let t := { t with openSockets := t.openSockets ++ [newSock], nextFd := t.nextFd + 1 }
  let t := t.assert (decide (t.m_authList.length + t.m_endpointList.length ≤ lim.maxConn))
  (Run.scavengeAuthList lim w fuel tNow t).map (fun s =>
    Run.newConnection lim sys tStart s newSock remoteAddr remotePort)

/-- A step of the authentication thread of the record with the given socket:
it writes `m_state`, and it may have stopped running. -/
def authStep (t : DaemonTCPTransport) (sock : SocketFd) (state : AuthState) (running : Bool) :
    DaemonTCPTransport :=
  { t with
    m_authList := t.m_authList.map (fun (ep : DaemonTCPEndpoint) =>
      if ep.sock = sock then { ep with m_state := state, authThreadRunning := running }
      else ep) }

/-- The states that a transport reaches from one without endpoint records by
inbound admission (with its scavenging), steps of authentication threads,
`Authenticated` of a record on `m_authList`, `Connect`, `Disconnect`, and
`EndpointExit` of a record on `m_endpointList`. -/
inductive Reachable (e : Env) (os : Os) (sys : Sys) (lim : Limits) :
    DaemonTCPTransport → Prop where
  | init (t : DaemonTCPTransport) :
      t.m_authList = [] → t.m_endpointList = [] → t.created = [] → t.deleted = [] →
      Reachable e os sys lim t
  | accepted (t s : DaemonTCPTransport) (w : Nat → SocketFd → Option (AuthState × Bool))
      (fuel tNow tStart : Nat) (remoteAddr : IPAddress) (remotePort : Nat) :
      Reachable e os sys lim t →
      Run.accepted lim sys w fuel tNow tStart t remoteAddr remotePort = some s →
      Reachable e os sys lim s
  | authStep (t : DaemonTCPTransport) (sock : SocketFd) (state : AuthState) (running : Bool) :
      Reachable e os sys lim t → Reachable e os sys lim (authStep t sock state running)
  | authenticated (t : DaemonTCPTransport) (conn : DaemonTCPEndpoint) :
      Reachable e os sys lim t → conn ∈ t.m_authList →
      Reachable e os sys lim (Authenticated os t conn)
  | connect (t : DaemonTCPTransport) (connectSpec : String) :
      Reachable e os sys lim t → Reachable e os sys lim (Connect e os t connectSpec).2.2
  | disconnect (t : DaemonTCPTransport) (connectSpec : String) :
      Reachable e os sys lim t → Reachable e os sys lim (Disconnect e sys t connectSpec).2
  | endpointExit (t : DaemonTCPTransport) (tep : DaemonTCPEndpoint) :
      Reachable e os sys lim t → tep ∈ t.m_endpointList →
      Reachable e os sys lim (EndpointExit t tep)

/-! ## The authentication thread and the loop of the accept thread -/

/-- What a run of the authentication thread of a record leaves behind: the
value of `conn->m_state` when it returns, whether it closed the stream of the
record, whether it called `Authenticated` on the transport, and the value it
returned. -/
structure AuthThread.Outcome where
  m_state : AuthState
  streamClosed : Bool
  calledAuthenticated : Bool
  returned : QStatus
  deriving DecidableEq, Repr

/-- The method `DaemonTCPEndpoint::AuthThread::Run`. The first argument is what
`PullBytes(&byte, 1, nbytes)` gave (its status, `nbytes`, and the byte, a
`uint8_t`), the second is the status of `Establish("ANONYMOUS", ...)`. The
thread writes `AUTHENTICATING` to `m_state` first and then one of `FAILED` and
`SUCCEEDED`. -/
def AuthThread.Run (pulled : QStatus × Nat × Nat) (established : QStatus) : AuthThread.Outcome :=
  let conn : AuthThread.Outcome :=
    { m_state := AuthState.AUTHENTICATING, streamClosed := false, calledAuthenticated := false,
      returned := ER_OK }
  if pulled.1 ≠ ER_OK ∨ pulled.2.1 ≠ 1 ∨ pulled.2.2 % 256 ≠ 0 then
    { conn with streamClosed := true, m_state := AuthState.FAILED, returned := ER_FAIL }
  else if established ≠ ER_OK then
    { conn with streamClosed := true, m_state := AuthState.FAILED, returned := established }
  else
    { conn with
      m_state := AuthState.SUCCEEDED, calledAuthenticated := true, returned := established }

/-- One signalled event of an iteration of `Run`: the stop event, or a
listening socket, with what `Accept` on it gave (the status and the peer) and
the times read before the scavenging loop and for the new record. -/
inductive Run.Signal where
  | stopEvent
  | listener (accepted : QStatus) (remoteAddr : IPAddress) (remotePort : Nat)
      (tNow tStart : Nat)
  deriving DecidableEq, Repr

/-- What the accept thread meets in one iteration of the loop of `Run`: the
value of `IsStopping()` at the head of the loop, the status of `Event::Wait`,
and the signalled events. -/
structure Run.Pass where
  isStopping : Bool
  waited : QStatus
  signaled : List Run.Signal
  deriving DecidableEq, Repr

/-- The two ways in which `Run` leaves its loop: the condition of the `while`,
and the `break` after `Event::Wait`. -/
inductive Run.Exit where
  | stopping
  | waitFailed
  deriving DecidableEq, Repr

/-- The loop of `Run` over the signalled events of one iteration, on the
variable `status` and the transport. There is no result when a scavenging loop
does not end within the passes allowed. -/
def Run.signaled (lim : Limits) (sys : Sys) (w : Nat → SocketFd → Option (AuthState × Bool))
    (fuel : Nat) : List Run.Signal → QStatus × DaemonTCPTransport →
      Option (QStatus × DaemonTCPTransport)
  | [], r => some r
  | Run.Signal.stopEvent :: rest, r => Run.signaled lim sys w fuel rest r
  | Run.Signal.listener accepted remoteAddr remotePort tNow tStart :: rest, r =>
    if accepted = ER_OK then
      let t := r.2
      let newSock := t.nextFd
      let t := { t with openSockets := t.openSockets ++ [newSock], nextFd := t.nextFd + 1 }
      let t := t.assert (decide (t.m_authList.length + t.m_endpointList.length ≤ lim.maxConn))
      match Run.scavengeAuthList lim w fuel tNow t with
      | none => none
      | some s =>
        let status :=
          if s.m_authList.length < lim.maxAuth ∧
              s.m_authList.length + s.m_endpointList.length < lim.maxConn then
            sys.AuthStart newSock
          else ER_AUTH_FAIL
        Run.signaled lim sys w fuel rest
          (status, Run.newConnection lim sys tStart s newSock remoteAddr remotePort)
    else
      Run.signaled lim sys w fuel rest (if accepted = ER_WOULDBLOCK then ER_OK else accepted, r.2)

/-- The loop `while (!IsStopping())` of `Run`, for the iterations given: how
the loop was left (`none` when the thread is still in the loop after the last
iteration given), the variable `status`, and the transport. -/
def Run.loop (e : Env) (os : Os) (lim : Limits) (sys : Sys)
    (w : Nat → SocketFd → Option (AuthState × Bool)) (fuel : Nat) :
    List Run.Pass → QStatus × DaemonTCPTransport →
      Option (Option Run.Exit × QStatus × DaemonTCPTransport)
  | [], r => some (none, r)
  | pass :: rest, r =>
    if pass.isStopping = true then some (some Run.Exit.stopping, r)
    else
      let t := r.2.assert r.2.m_ns.isSome
      if pass.waited ≠ ER_OK then some (some Run.Exit.waitFailed, pass.waited, t)
      else
        match Run.signaled lim sys w fuel pass.signaled (pass.waited, t) with
        | none => none
        | some r => Run.loop e os lim sys w fuel rest (r.1, Run.drain e os r.2)

/-- The method `DaemonTCPTransport::Run` for the iterations given: once the
loop is left the listening sockets are closed and `Run` returns `status`. The
thread is then in its state STOPPING, in which `IsRunning()` is still true,
until it is joined. -/
def Run (e : Env) (os : Os) (lim : Limits) (sys : Sys)
    (w : Nat → SocketFd → Option (AuthState × Bool)) (fuel : Nat) (passes : List Run.Pass)
    (t : DaemonTCPTransport) : Option (Option Run.Exit × QStatus × DaemonTCPTransport) :=
  (Run.loop e os lim sys w fuel passes (ER_OK, t.assert t.m_ns.isSome)).map (fun r =>
    match r.1 with
    | none => r
    | some reason => (some reason, r.2.1, Run.cleanup r.2.2))

/-! ## A reference environment

One concrete choice of the library routines, used to run the transport on
concrete specs. -/

/-- The pieces of a character list between occurrences of `sep`. -/
def splitOn (sep : Char) : List Char → List (List Char)
  | [] => [[]]
  | c :: cs =>
    if c = sep then [] :: splitOn sep cs
    else
      match splitOn sep cs with
      | [] => [[c]]
      | p :: ps => (c :: p) :: ps

/-- The text before and after the first `=` of a piece, if it has one. -/
def splitFirstEq : List Char → Option (List Char × List Char)
  | [] => none
  | c :: cs =>
    if c = '=' then some ([], cs)
    else (splitFirstEq cs).map (fun kv => (c :: kv.1, kv.2))

/-- Enters each `key=value` piece into the map; `none` if a piece has no `=`. -/
def parsePairs : List (List Char) → ArgMap → Option ArgMap
  | [], m => some m
  | p :: ps, m =>
    match splitFirstEq p with
    | some kv => parsePairs ps (m.set (String.mk kv.1) (String.mk kv.2))
    | none => none

/-- Modelled from the spec: `Transport::ParseArguments`, whose code is not in
the source files. The spec (section 6) gives the grammar: the transport name
and a colon as a prefix, then comma-separated `key=value` pairs, every key
being kept in the map. A spec without the prefix, or with a piece that is not a
`key=value` pair, is malformed and gets `ER_BUS_BAD_TRANSPORT_ARGS` (section 7). -/
def refParseArguments (name args : String) (argMap : ArgMap) : QStatus × ArgMap :=
  let pre := name.data ++ [':']
  if List.isPrefixOf pre args.data then
    let rest := args.data.drop pre.length
    if rest = [] then (ER_OK, argMap)
    else
      match parsePairs (splitOn ',' rest) argMap with
      | some m => (ER_OK, m)
      | none => (ER_BUS_BAD_TRANSPORT_ARGS, argMap)
  else (ER_BUS_BAD_TRANSPORT_ARGS, argMap)

/-- The value of a digit in base 16 (`none` for any other character). -/
def hexValue (c : Char) : Option Nat :=
  if '0' ≤ c ∧ c ≤ '9' then some (c.toNat - 48)
  else if 'a' ≤ c ∧ c ≤ 'f' then some (c.toNat - 87)
  else if 'A' ≤ c ∧ c ≤ 'F' then some (c.toNat - 55)
  else none

/-- The value of a numeral in the given base, `none` if a character is not a
digit of that base. -/
def numeralValue (base : Nat) : List Char → Nat → Option Nat
  | [], acc => some acc
  | c :: cs, acc =>
    match hexValue c with
    | some d => if d < base then numeralValue base cs (acc * base + d) else none
    | none => none

/-- Modelled from the spec: `qcc::StringToU32` with its default bad value 0.
The spec (section 6) has ports written in decimal; a text that is not a
decimal numeral of a 32-bit value yields the bad value. -/
def refStringToU32 (s : String) : Nat :=
  if s.data = [] then 0
  else
    match numeralValue 10 s.data 0 with
    | some n => if n < 4294967296 then n else 0
    | none => 0

/-- Modelled from the spec: `qcc::U32ToString`, the decimal rendering. -/
def refU32ToString (n : Nat) : String := Nat.repr n

/-- All the values of a list of optional values, if none is missing. -/
def allSome {α : Type} : List (Option α) → Option (List α)
  | [] => some []
  | none :: _ => none
  | some a :: rest => (allSome rest).map (fun l => a :: l)

/-- One decimal octet of a dotted IPv4 literal. -/
def parseOctet (cs : List Char) : Option Nat :=
  if cs = [] ∨ 3 < cs.length then none
  else
    match numeralValue 10 cs 0 with
    | some n => if n ≤ 255 then some n else none
    | none => none

/-- A dotted IPv4 literal: four decimal octets. -/
def parseIPv4 (cs : List Char) : Option IPAddress :=
  match allSome ((splitOn '.' cs).map parseOctet) with
  | some [a, b, c, d] => some ⟨[a, b, c, d]⟩
  | _ => none

/-- One group of an IPv6 literal: one to four hexadecimal digits. -/
def parseGroup (cs : List Char) : Option Nat :=
  if cs = [] ∨ 4 < cs.length then none else numeralValue 16 cs 0

/-- The groups of a colon-separated run of an IPv6 literal (none for the empty
run). -/
def parseGroups (cs : List Char) : Option (List Nat) :=
  if cs = [] then some [] else allSome ((splitOn ':' cs).map parseGroup)

/-- The text before and after the first `::` of an IPv6 literal, if any. -/
def splitDoubleColon : List Char → Option (List Char × List Char)
  | [] => none
  | [_] => none
  | c :: d :: cs =>
    if c = ':' ∧ d = ':' then some ([], cs)
    else (splitDoubleColon (d :: cs)).map (fun lr => (c :: lr.1, lr.2))

/-- The sixteen bytes of eight 16-bit groups. -/
def groupBytes (gs : List Nat) : List Nat :=
  gs.flatMap (fun g => [g / 256, g % 256])

/-- An IPv6 literal: eight groups, or fewer around one `::`. -/
def parseIPv6 (cs : List Char) : Option IPAddress :=
  match splitDoubleColon cs with
  | some lr =>
    match parseGroups lr.1, parseGroups lr.2 with
    | some gl, some gr =>
      if gl.length + gr.length ≤ 7 then
        some ⟨groupBytes (gl ++ List.replicate (8 - (gl.length + gr.length)) 0 ++ gr)⟩
      else none
    | _, _ => none
  | none =>
    match parseGroups cs with
    | some gs => if gs.length = 8 then some ⟨groupBytes gs⟩ else none
    | none => none

/-- Modelled from the spec: `IPAddress::SetAddress(text, false)`. The spec
(section 6) takes an IPv4 dotted literal or an IPv6 literal; host names are not
looked up. -/
def refSetAddress (s : String) : Option IPAddress :=
  match parseIPv4 s.data with
  | some a => some a
  | none => parseIPv6 s.data

/-- The 16-bit groups of a list of bytes, taken in pairs. -/
def byteGroups : List Nat → List Nat
  | hi :: lo :: rest => (hi * 256 + lo) :: byteGroups rest
  | _ => []

/-- Modelled from the spec: `IPAddress::ToString`, one canonical text for an
address: dotted decimal octets for IPv4, colon-separated hexadecimal groups for
IPv6. -/
def refToString (a : IPAddress) : String :=
  if a.IsIPv6 then
    String.intercalate ":" ((byteGroups a.addr).map (fun g => String.mk (Nat.toDigits 16 g)))
  else
    String.intercalate "." (a.addr.map Nat.repr)

/-- The reference environment for a platform with the given default port. -/
def refEnv (portDefault : Nat) : Env where
  ParseArguments := refParseArguments
  SetAddress := refSetAddress
  ToString := refToString
  StringToU32 := refStringToU32
  U32ToString := refU32ToString
  PORT_DEFAULT := portDefault

/-- A socket layer in which every call succeeds, with the given interface
entries; a listener bound to port 0 is given port 49152. -/
def refOs (entries : List IfConfigEntry) : Os where
  interfaces := ""
  OpenInterface := fun _ => ER_OK
  Socket := fun _ _ => ER_OK
  SetReuseAddress := fun _ => ER_OK
  Bind := fun _ _ _ => ER_OK
  GetLocalAddress := fun _ port => if port = 0 then 49152 else port
  Listen := fun _ => ER_OK
  IfConfig := (ER_OK, entries)
  SetNagle := fun _ => ER_OK
  Connect := fun _ _ _ => ER_OK
  Send := fun _ => ER_OK
  Establish := fun _ => ER_OK
  Start := fun _ => ER_OK

/-- A transport that has been started: the accept thread runs, the name service
exists, nothing is listened on and no endpoint exists. -/
def startedTransport : DaemonTCPTransport :=
  { isRunning := true, m_ns := some { initialized := true, callback := true } }

/-- One interface that is up, with the address 192.0.2.5. -/
def localInterfaces : List IfConfigEntry :=
  [{ m_name := "eth0", m_addr := "192.0.2.5", UP := true }]

/-- A thread layer and a name service in which every call succeeds; the name
service reports the IPv4 address 192.0.2.5 and the port it was last given, and
the mask bits are 4, 8 and 16. -/
def refSys : Sys where
  Init := ER_OK
  ThreadStart := ER_OK
  ThreadStop := ER_OK
  ThreadJoin := ER_OK
  Locate := fun _ => ER_OK
  Advertise := fun _ => ER_OK
  Cancel := fun _ => ER_OK
  GetEndpoints := fun ns => ("192.0.2.5", "", ns.port)
  AuthStart := fun _ => ER_OK
  EndpointStop := fun _ => ER_OK
  TRANSPORT_WLAN := 4
  TRANSPORT_WWAN := 8
  TRANSPORT_LAN := 16

/-- The thread layer of `refSys` with a name service whose `Init` fails. -/
def initFailsSys : Sys := { refSys with Init := ER_FAIL }

/-- The socket layer of `refOs` in which `Bind` fails. -/
def bindFailsOs : Os := { refOs [] with Bind := fun _ _ _ => ER_OS_ERROR }

/-- An authentication thread that is never seen to have changed its record. -/
def noChange : Nat → SocketFd → Option (AuthState × Bool) := fun _ _ => none

/-- A started transport with an upper-layer listener registered. -/
def listenedTransport : DaemonTCPTransport := { startedTransport with m_listener := true }

/-- The record that admission makes for the socket 3 of the peer 192.0.2.9:4000
at time 7, once its authentication thread runs. -/
def inboundRecord : DaemonTCPEndpoint :=
  { incoming := true, connectSpec := "", sock := 3, m_ipAddr := ⟨[192, 0, 2, 9]⟩,
    m_port := 4000, m_wasSuddenDisconnect := false, m_tStart := 7, authThreadRunning := true }

/-- The limits 10, 2 and 8. -/
def refLimits : Limits := { tTimeout := 10, maxAuth := 2, maxConn := 8 }

/-- The limits 10, 2 and 1: at most one connection. -/
def oneConnection : Limits := { tTimeout := 10, maxAuth := 2, maxConn := 1 }

/-- The transport `listenedTransport` after it accepted the connection of
`inboundRecord`. -/
def admittedTransport : DaemonTCPTransport :=
  { listenedTransport with
    m_authList := [inboundRecord], openSockets := [3], nextFd := 4, created := [3] }

/-- The transport `admittedTransport` after the authentication of its record
succeeded and `Authenticated` was called for it. -/
def inboundActive : DaemonTCPTransport :=
  Authenticated (refOs []) (authStep admittedTransport 3 AuthState.SUCCEEDED true)
    { inboundRecord with m_state := AuthState.SUCCEEDED }

/-- A started transport after `Connect` to 192.0.2.5 and to 192.0.2.6. -/
def twoConnects : DaemonTCPTransport :=
  (Connect (refEnv 9955) (refOs [])
    (Connect (refEnv 9955) (refOs []) startedTransport "tcp:addr=192.0.2.5,port=9955").2.2
    "tcp:addr=192.0.2.6,port=9955").2.2

/-- A transport that was started, asked to listen on 192.0.2.5:9955, whose accept
thread enacted the request with `Bind` failing, and that was then stopped. -/
def stoppedAfterBindFailure : DaemonTCPTransport :=
  (Stop refSys
    (Run.drain (refEnv 9955) bindFailsOs
      (StartListen (refEnv 9955) (Start refSys {}).2 "tcp:addr=192.0.2.5,port=9955").2)).2

/-- The socket layer of `refOs` in which `Socket` fails. -/
def socketFailsOs : Os := { refOs [] with Socket := fun _ _ => ER_OS_ERROR }

/-- The socket layer of `refOs` in which `SetReuseAddress` fails. -/
def reuseFailsOs : Os := { refOs [] with SetReuseAddress := fun _ => ER_OS_ERROR }

/-- The socket layer of `refOs` in which `Listen` fails. -/
def listenFailsOs : Os := { refOs [] with Listen := fun _ => ER_OS_ERROR }

/-- The thread layer of `refSys` in which no authentication thread starts. -/
def authStartFailsSys : Sys := { refSys with AuthStart := fun _ => ER_OS_ERROR }

/-- A record on `m_authList` whose authentication began at time 0 and is still
going on: socket 3, peer 192.0.2.9:4000. -/
def slowRecord : DaemonTCPEndpoint :=
  { incoming := true, connectSpec := "", sock := 3, m_ipAddr := ⟨[192, 0, 2, 9]⟩,
    m_port := 4000, m_state := AuthState.AUTHENTICATING, m_wasSuddenDisconnect := false,
    m_tStart := 0, authThreadRunning := true }

/-- A record on `m_authList` whose authentication began at time 15 and is
still going on: socket 4, peer 192.0.2.10:4001. -/
def freshRecord : DaemonTCPEndpoint :=
  { incoming := true, connectSpec := "", sock := 4, m_ipAddr := ⟨[192, 0, 2, 10]⟩,
    m_port := 4001, m_state := AuthState.AUTHENTICATING, m_wasSuddenDisconnect := false,
    m_tStart := 15, authThreadRunning := true }

/-- An authentication thread of the record with socket 3 that is seen, from the
third reading of the record on, to have failed and ended. -/
def failsAtThird : Nat → SocketFd → Option (AuthState × Bool) :=
  fun k sock => if sock = 3 ∧ 2 ≤ k then some (AuthState.FAILED, false) else none

/-- Two iterations of `Run` without a stop and with the wait succeeding: in the
first `Accept` fails on the signalled listener, in the second the stop event
is signalled (an alert) and a connection from 192.0.2.9:4000 is accepted. -/
def errorPasses : List Run.Pass :=
  [{ isStopping := false, waited := ER_OK,
      signaled := [Run.Signal.listener ER_OS_ERROR ⟨[]⟩ 0 20 20] },
    { isStopping := false, waited := ER_OK,
      signaled := [Run.Signal.stopEvent, Run.Signal.listener ER_OK ⟨[192, 0, 2, 9]⟩ 4000 20 20] }]

/-- The listen spec `tcp:addr=192.0.2.5,family=ipv4,port=9955`, normalised. -/
def refListenSpec : String := "tcp:addr=192.0.2.5,family=ipv4,port=9955"

/-- The transport `inboundActive` after a `Connect` to 192.0.2.5:9955 and then
`Stop`: it is stopping, and its inbound record (socket 3) and its outbound record
(socket 4) have been asked to stop without `Disconnect` being called for
either. -/
def stoppingTransport : DaemonTCPTransport :=
  (Stop refSys
    (Connect (refEnv 9955) (refOs []) inboundActive "tcp:addr=192.0.2.5,port=9955").2.2).2

/-! ## The terms in which the normalised spec is described -/

/-- The family that a parsed spec gives: the value of the key `family` when the
key is present with a non-empty value (the code tests `family.empty()`, so an
empty value counts as no family). -/
def givenFamily (m : ArgMap) : Option String :=
  match m.find "family" with
  | some f => if f = "" then none else some f
  | none => none

/-- The numeric value of a port text, as the 32-bit result of `StringToU32`. -/
def Env.portValue (e : Env) (v : String) : Nat := e.StringToU32 v % 4294967296

/-- The three ways in which a parsed spec is rejected: (i) `addr` is present
and is not a valid IP literal; (ii) `addr` is valid, a family is given, and
the address being IPv6 disagrees with the family being `ipv6`; (iii) `port` is
present and its numeric value is not in 1..65535. -/
def ListenSpecRejected (e : Env) (m : ArgMap) : Prop :=
  (∃ a, m.find "addr" = some a ∧ e.SetAddress a = none) ∨
  (∃ a addr f, m.find "addr" = some a ∧ e.SetAddress a = some addr ∧
    givenFamily m = some f ∧ ¬ (addr.IsIPv6 = true ↔ f = "ipv6")) ∨
  (∃ v, m.find "port" = some v ∧ ¬ (1 ≤ e.portValue v ∧ e.portValue v ≤ 65535))

/-- The address text `A` of a normalised spec: the canonical text of the given
`addr`, or else the default, `0::0` when `family=ipv6` was given and `0.0.0.0`
otherwise. -/
def Env.expectedAddr (e : Env) (m : ArgMap) : String :=
  match m.find "addr" with
  | some a => e.ToString (e.IPAddress a)
  | none => if givenFamily m = some "ipv6" then "0::0" else "0.0.0.0"

/-- The family text `F` of a normalised spec: the given family, or else the
one derived from `addr`, `ipv6` for an IPv6 literal and `ipv4` otherwise. -/
def Env.expectedFamily (e : Env) (m : ArgMap) : String :=
  match givenFamily m with
  | some f => f
  | none =>
    match m.find "addr" with
    | some a => if (e.IPAddress a).IsIPv6 = true then "ipv6" else "ipv4"
    | none => "ipv4"

/-- The port text `P` of a normalised spec: the decimal rendering of the given
port, or else of the default port. -/
def Env.expectedPort (e : Env) (m : ArgMap) : String :=
  match m.find "port" with
  | some v => e.U32ToString (e.portValue v)
  | none => e.U32ToString (e.PORT_DEFAULT % 65536)

/-- The peer address that `Disconnect` reads from a connect spec. -/
def Env.peerAddr (e : Env) (connectSpec : String) : ajn.IPAddress :=
  e.IPAddress (((NormalizeTransportSpec e connectSpec "" []).2.2.find "addr").getD "")

/-- The peer port that `Disconnect` reads from a connect spec. -/
def Env.peerPort (e : Env) (connectSpec : String) : Nat :=
  e.StringToU32 (((NormalizeTransportSpec e connectSpec "" []).2.2.find "port").getD "") % 65536

/-- The sockets of the records of a list, which identify them. -/
def socks (l : List DaemonTCPEndpoint) : List SocketFd := l.map (fun ep => ep.sock)

/-- What holds of the two endpoint lists in every reachable state: the sockets
of the records are below the next descriptor and no socket occurs twice; a
record that was made and not destroyed is on a list; `m_authList` is within
`maxAuth`; and a record that was not stopped has its flag for a sudden
disconnect as its constructor set it. -/
def ListsInv (lim : Limits) (t : DaemonTCPTransport) : Prop :=
  (∀ sock ∈ socks (t.m_authList ++ t.m_endpointList), sock < t.nextFd) ∧
  (socks (t.m_authList ++ t.m_endpointList)).Nodup ∧
  (∀ sock ∈ t.created, sock ∉ t.deleted → sock ∈ socks (t.m_authList ++ t.m_endpointList)) ∧
  t.m_authList.length ≤ lim.maxAuth ∧
  (∀ ep ∈ t.m_authList ++ t.m_endpointList, ep.stopped = false →
    ep.m_wasSuddenDisconnect = !ep.incoming)

/-- An entry that the scavenging loop removes: its state is `FAILED` and its
authentication thread is no longer running. -/
def Reapable (ep : DaemonTCPEndpoint) : Prop :=
  ep.m_state = AuthState.FAILED ∧ ep.authThreadRunning = false

instance (ep : DaemonTCPEndpoint) : Decidable (Reapable ep) :=
  inferInstanceAs (Decidable (ep.m_state = AuthState.FAILED ∧ ep.authThreadRunning = false))

/-- An entry whose authentication has timed out: its start time plus the
timeout is before the time read. -/
def TimedOut (tTimeout tNow : Nat) (ep : DaemonTCPEndpoint) : Prop :=
  ep.m_tStart + tTimeout < tNow

instance (tTimeout tNow : Nat) (ep : DaemonTCPEndpoint) :
    Decidable (TimedOut tTimeout tNow ep) :=
  inferInstanceAs (Decidable (ep.m_tStart + tTimeout < tNow))

/-- A list of iterations of `Run` in which the stop is never seen and
`Event::Wait` never fails. -/
def Run.Undisturbed (passes : List Run.Pass) : Prop :=
  ∀ pass ∈ passes, pass.isStopping = false ∧ pass.waited = ER_OK

instance (passes : List Run.Pass) : Decidable (Run.Undisturbed passes) :=
  inferInstanceAs (Decidable (∀ pass ∈ passes, pass.isStopping = false ∧ pass.waited = ER_OK))

/-- The socket of the record for which a call of `Disconnect` is made: the one
on which it calls `SetSuddenDisconnect(false)` and `Stop`, the first record of
`m_endpointList` with the peer port and address of the connect spec. The list is
empty when the call returns before its walk or finds no record. -/
def Disconnect.target (e : Env) (t : DaemonTCPTransport) (connectSpec : String) :
    List SocketFd :=
  if t.isRunning = false ∨ t.m_stopping = true then []
  else
    let r := NormalizeTransportSpec e connectSpec "" []
    if r.1 ≠ ER_OK then []
    else
      let ipAddr := e.IPAddress ((r.2.2.find "addr").getD "")
      let port := e.StringToU32 ((r.2.2.find "port").getD "") % 65536
      match Disconnect.walk ipAddr port t.m_endpointList with
      | some found => [found.1.sock]
      | none => []

/-- The history of a transport: `History e os sys lim d t` says that `t` is
reached from a transport without endpoint records by the steps of `Reachable`
and by `Stop`, `Start`, `Join`, `StartListen`, `StopListen` and the listen
requests enacted by the accept thread, and that `d` lists the sockets of the
records for which `Disconnect` was called on the way. -/
inductive History (e : Env) (os : Os) (sys : Sys) (lim : Limits) :
    List SocketFd → DaemonTCPTransport → Prop where
  | init (t : DaemonTCPTransport) :
      t.m_authList = [] → t.m_endpointList = [] → t.created = [] → t.deleted = [] →
      History e os sys lim [] t
  | accepted (d : List SocketFd) (t s : DaemonTCPTransport)
      (w : Nat → SocketFd → Option (AuthState × Bool))
      (fuel tNow tStart : Nat) (remoteAddr : IPAddress) (remotePort : Nat) :
      History e os sys lim d t →
      Run.accepted lim sys w fuel tNow tStart t remoteAddr remotePort = some s →
      History e os sys lim d s
  | authStep (d : List SocketFd) (t : DaemonTCPTransport) (sock : SocketFd) (state : AuthState)
      (running : Bool) :
      History e os sys lim d t → History e os sys lim d (authStep t sock state running)
  | authenticated (d : List SocketFd) (t : DaemonTCPTransport) (conn : DaemonTCPEndpoint) :
      History e os sys lim d t → conn ∈ t.m_authList →
      History e os sys lim d (Authenticated os t conn)
  | connect (d : List SocketFd) (t : DaemonTCPTransport) (connectSpec : String) :
      History e os sys lim d t → History e os sys lim d (Connect e os t connectSpec).2.2
  | disconnect (d : List SocketFd) (t : DaemonTCPTransport) (connectSpec : String) :
      History e os sys lim d t →
      History e os sys lim (d ++ Disconnect.target e t connectSpec)
        (Disconnect e sys t connectSpec).2
  | endpointExit (d : List SocketFd) (t : DaemonTCPTransport) (tep : DaemonTCPEndpoint) :
      History e os sys lim d t → tep ∈ t.m_endpointList →
      History e os sys lim d (EndpointExit t tep)
  | stop (d : List SocketFd) (t : DaemonTCPTransport) :
      History e os sys lim d t → History e os sys lim d (Stop sys t).2
  | start (d : List SocketFd) (t : DaemonTCPTransport) :
      History e os sys lim d t → History e os sys lim d (Start sys t).2
  | join (d : List SocketFd) (t s : DaemonTCPTransport) (status : QStatus) :
      History e os sys lim d t → Join sys t = some (status, s) → History e os sys lim d s
  | startListen (d : List SocketFd) (t : DaemonTCPTransport) (listenSpec : String) :
      History e os sys lim d t → History e os sys lim d (StartListen e t listenSpec).2
  | stopListen (d : List SocketFd) (t : DaemonTCPTransport) (listenSpec : String) :
      History e os sys lim d t → History e os sys lim d (StopListen e t listenSpec).2
  | listenRequests (d : List SocketFd) (t : DaemonTCPTransport) (n : Nat) :
      History e os sys lim d t → History e os sys lim d (Run.listenRequests e os n t)

/-- Every record on a list for which `Disconnect` was not called has the flag
for a sudden disconnect that its constructor gave it, `!incoming`. -/
def FlagInv (d : List SocketFd) (t : DaemonTCPTransport) : Prop :=
  ∀ ep ∈ t.m_authList ++ t.m_endpointList, ep.sock ∉ d →
    ep.m_wasSuddenDisconnect = !ep.incoming

/-- A step from `t` to `s` that leaves the two endpoint lists and the records
made and destroyed as they are and does not lower the next descriptor. -/
def Frame (t s : DaemonTCPTransport) : Prop :=
  s.m_authList = t.m_authList ∧ s.m_endpointList = t.m_endpointList ∧ t.nextFd ≤ s.nextFd ∧
    s.created = t.created ∧ s.deleted = t.deleted

/-! ## Theorems: the argument map -/

theorem ArgMap.find_set_self (m : ArgMap) (k v : String) : (m.set k v).find k = some v := by
  induction m with
  | nil => simp [ArgMap.set, ArgMap.find]
  | cons p rest ih =>
    obtain ⟨key, val⟩ := p
    by_cases h : key = k
    · simp [ArgMap.set, ArgMap.find, h]
    · simp [ArgMap.set, ArgMap.find, h, ih]

theorem ArgMap.find_set_ne (m : ArgMap) (k v j : String) (h : j ≠ k) :
    (m.set k v).find j = m.find j := by
  induction m with
  | nil => simp [ArgMap.set, ArgMap.find, Ne.symm h]
  | cons p rest ih =>
    obtain ⟨key, val⟩ := p
    by_cases hk : key = k
    · subst hk
      simp [ArgMap.set, ArgMap.find, Ne.symm h]
    · by_cases hj : key = j
      · subst hj
        simp [ArgMap.set, ArgMap.find, h]
      · simp [ArgMap.set, ArgMap.find, hk, hj, ih]

/-! ## Theorems: normalisation -/

/-- A Boolean equals a decided proposition exactly when it is true for it. -/
theorem eq_decide_iff (b : Bool) (P : Prop) [Decidable P] :
    b = decide P ↔ (b = true ↔ P) := by
  cases b <;> simp

/-- The family/port part of `NormalizeListenSpec`, by the port entry. -/
theorem familyPort_eq (e : Env) (f o : String) (m : ArgMap) :
    NormalizeListenSpec.familyPort e f o m =
      match m.find "port" with
      | none => (ER_OK, o ++ ",family=" ++ f ++ ",port=" ++ e.U32ToString (e.PORT_DEFAULT % 65536),
          (m.set "family" f).set "port" (e.U32ToString (e.PORT_DEFAULT % 65536)))
      | some v =>
        if 0 < e.portValue v ∧ e.portValue v ≤ 65535 then
          (ER_OK, o ++ ",family=" ++ f ++ ",port=" ++ e.U32ToString (e.portValue v),
            (m.set "family" f).set "port" (e.U32ToString (e.portValue v)))
        else (ER_BUS_BAD_TRANSPORT_ARGS, o ++ ",family=" ++ f, m.set "family" f) := by
  have h : (m.set "family" f).find "port" = m.find "port" :=
    ArgMap.find_set_ne m "family" f "port" (by decide)
  unfold NormalizeListenSpec.familyPort
  simp only [h, Env.portValue]

/-- A successful normalisation had a successful parse. -/
theorem NormalizeListenSpec_parsed (e : Env) (s o : String) (m0 : ArgMap)
    (hs : (NormalizeListenSpec e s o m0).1 = ER_OK) :
    (e.ParseArguments "tcp" s m0).1 = ER_OK := by
  by_contra hp
  unfold NormalizeListenSpec at hs
  simp only [ne_eq, hp, not_false_eq_true, ↓reduceIte] at hs

/-- The output of a successful normalisation, in terms of the parsed map. -/
theorem NormalizeListenSpec_ok (e : Env) (s o : String) (m0 : ArgMap)
    (hs : (NormalizeListenSpec e s o m0).1 = ER_OK) :
    (NormalizeListenSpec e s o m0).2.1 =
        "tcp:addr=" ++ e.expectedAddr (e.ParseArguments "tcp" s m0).2 ++
          ",family=" ++ e.expectedFamily (e.ParseArguments "tcp" s m0).2 ++
          ",port=" ++ e.expectedPort (e.ParseArguments "tcp" s m0).2 ∧
      (NormalizeListenSpec e s o m0).2.2 =
        (((e.ParseArguments "tcp" s m0).2.set "addr"
            (e.expectedAddr (e.ParseArguments "tcp" s m0).2)).set
          "family" (e.expectedFamily (e.ParseArguments "tcp" s m0).2)).set
          "port" (e.expectedPort (e.ParseArguments "tcp" s m0).2) := by
  have hp := NormalizeListenSpec_parsed e s o m0 hs
  generalize hm : (e.ParseArguments "tcp" s m0).2 = m at *
  have hport : ∀ a : String, (m.set "addr" a).find "port" = m.find "port" :=
    fun a => ArgMap.find_set_ne m "addr" a "port" (by decide)
  unfold NormalizeListenSpec at hs ⊢
  simp only [hp, hm, ne_eq, not_true_eq_false, ↓reduceIte, familyPort_eq, hport] at hs ⊢
  unfold Env.expectedAddr Env.expectedFamily Env.expectedPort givenFamily Env.IPAddress
  rcases hf : m.find "family" with _ | f <;> rcases ha : m.find "addr" with _ | a <;>
    rcases hq : m.find "port" with _ | q <;>
    simp only [hf, ha, hq, Option.getD] at hs ⊢ <;>
    (try rcases hsa : e.SetAddress a with _ | addr <;> simp only [hsa] at hs ⊢) <;>
    (try by_cases hfe : f = "" <;> simp only [hfe] at hs ⊢) <;>
    split_ifs at hs ⊢ <;>
    simp_all [ADDR4_DEFAULT, ADDR6_DEFAULT]

/-- After a successful parse the status is one of two, decided by the three
rejection conditions. -/
theorem NormalizeListenSpec_status (e : Env) (s o : String) (m0 : ArgMap)
    (hp : (e.ParseArguments "tcp" s m0).1 = ER_OK) :
    ((NormalizeListenSpec e s o m0).1 = ER_BUS_BAD_TRANSPORT_ARGS ∧
        ListenSpecRejected e (e.ParseArguments "tcp" s m0).2) ∨
      ((NormalizeListenSpec e s o m0).1 = ER_OK ∧
        ¬ ListenSpecRejected e (e.ParseArguments "tcp" s m0).2) := by
  generalize hm : (e.ParseArguments "tcp" s m0).2 = m at *
  have hport : ∀ a : String, (m.set "addr" a).find "port" = m.find "port" :=
    fun a => ArgMap.find_set_ne m "addr" a "port" (by decide)
  unfold NormalizeListenSpec ListenSpecRejected givenFamily
  simp only [hp, hm, ne_eq, not_true_eq_false, ↓reduceIte, familyPort_eq, hport]
  rcases hf : m.find "family" with _ | f <;> rcases ha : m.find "addr" with _ | a <;>
    rcases hq : m.find "port" with _ | q <;>
    simp only [hf, ha, hq, Option.getD] <;>
    (try rcases hsa : e.SetAddress a with _ | addr <;> simp only [hsa]) <;>
    (try by_cases hfe : f = "" <;> simp only [hfe]) <;>
    (try split_ifs) <;>
    simp_all [eq_decide_iff] <;>
    omega

/-- A spec that parsed and meets a rejection condition is rejected. -/
theorem NormalizeListenSpec_rejected_status (e : Env) (s o : String) (m0 : ArgMap)
    (hp : (e.ParseArguments "tcp" s m0).1 = ER_OK) :
    ((NormalizeListenSpec e s o m0).1 = ER_OK →
        ¬ ListenSpecRejected e (e.ParseArguments "tcp" s m0).2) ∧
      (ListenSpecRejected e (e.ParseArguments "tcp" s m0).2 →
        (NormalizeListenSpec e s o m0).1 = ER_BUS_BAD_TRANSPORT_ARGS) := by
  rcases NormalizeListenSpec_status e s o m0 hp with ⟨h1, h2⟩ | ⟨h1, h2⟩
  · simp [h1, h2]
  · simp [h1, h2]


/-- The entries of the argument map after a successful normalisation. -/
theorem NormalizeListenSpec_find (e : Env) (s o : String) (m0 : ArgMap)
    (hs : (NormalizeListenSpec e s o m0).1 = ER_OK) :
    (NormalizeListenSpec e s o m0).2.2.find "addr" =
        some (e.expectedAddr (e.ParseArguments "tcp" s m0).2) ∧
      (NormalizeListenSpec e s o m0).2.2.find "family" =
        some (e.expectedFamily (e.ParseArguments "tcp" s m0).2) ∧
      (NormalizeListenSpec e s o m0).2.2.find "port" =
        some (e.expectedPort (e.ParseArguments "tcp" s m0).2) ∧
      ∀ k : String, k ≠ "addr" → k ≠ "family" → k ≠ "port" →
        (NormalizeListenSpec e s o m0).2.2.find k = (e.ParseArguments "tcp" s m0).2.find k := by
  rw [(NormalizeListenSpec_ok e s o m0 hs).2]
  refine ⟨?_, ?_, ?_, ?_⟩
  · rw [ArgMap.find_set_ne _ _ _ _ (by decide), ArgMap.find_set_ne _ _ _ _ (by decide),
      ArgMap.find_set_self]
  · rw [ArgMap.find_set_ne _ _ _ _ (by decide), ArgMap.find_set_self]
  · rw [ArgMap.find_set_self]
  · intro k ha hf hq
    rw [ArgMap.find_set_ne _ _ _ _ hq, ArgMap.find_set_ne _ _ _ _ hf, ArgMap.find_set_ne _ _ _ _ ha]

/-- C1 (the code departs from the claim): on a platform whose default port is 0
(`QCC_OS_ANDROID`) the spec `tcp:` is normalised with `ER_OK` to
`tcp:addr=0.0.0.0,family=ipv4,port=0`, and normalising that output again fails
with `ER_BUS_BAD_TRANSPORT_ARGS`, so normalisation is not idempotent there and
the assertion of `DoStartListen` on the re-normalised spec is violated. -/
theorem NormalizeListenSpec_default_port_zero :
    NormalizeListenSpec (refEnv 0) "tcp:" "" [] =
        (ER_OK, "tcp:addr=0.0.0.0,family=ipv4,port=0",
          [("addr", "0.0.0.0"), ("family", "ipv4"), ("port", "0")]) ∧
      (NormalizeListenSpec (refEnv 0) "tcp:addr=0.0.0.0,family=ipv4,port=0" "" []).1 =
        ER_BUS_BAD_TRANSPORT_ARGS ∧
      (DoStartListen (refEnv 0) (refOs []) startedTransport
        "tcp:addr=0.0.0.0,family=ipv4,port=0").assertFailed = true := by
  decide

/-- C2: for every spec that parses as `tcp:` followed by key=value pairs,
`NormalizeListenSpec` returns `ER_BUS_BAD_TRANSPORT_ARGS` if (i) `addr` is
present and not a valid IP literal, (ii) `addr` is valid, a family is given and
the address being IPv6 disagrees with the family being `ipv6`, or (iii) `port`
is present and its numeric value is not in 1..65535; in every other case it
returns `ER_OK`. -/
theorem NormalizeListenSpec_rejected_iff (e : Env) (s o : String) (m0 : ArgMap)
    (hp : (e.ParseArguments "tcp" s m0).1 = ER_OK) :
    ((NormalizeListenSpec e s o m0).1 = ER_BUS_BAD_TRANSPORT_ARGS ↔
        ListenSpecRejected e (e.ParseArguments "tcp" s m0).2) ∧
      ((NormalizeListenSpec e s o m0).1 = ER_OK ↔
        ¬ ListenSpecRejected e (e.ParseArguments "tcp" s m0).2) := by
  rcases NormalizeListenSpec_status e s o m0 hp with ⟨h1, h2⟩ | ⟨h1, h2⟩
  · simp [h1, h2]
  · simp [h1, h2]

/-- C2 at the spec `tcp:addr=192.0.2.5,family=ipv6`, which parses and is
rejected for the disagreement of address and family. -/
theorem NormalizeListenSpec_rejected_iff_witness :
    ((refEnv 9955).ParseArguments "tcp" "tcp:addr=192.0.2.5,family=ipv6" []).1 = ER_OK ∧
      (NormalizeListenSpec (refEnv 9955) "tcp:addr=192.0.2.5,family=ipv6" "" []).1 =
        ER_BUS_BAD_TRANSPORT_ARGS ∧
      (((NormalizeListenSpec (refEnv 9955) "tcp:addr=192.0.2.5,family=ipv6" "" []).1 =
            ER_BUS_BAD_TRANSPORT_ARGS ↔
          ListenSpecRejected (refEnv 9955)
            ((refEnv 9955).ParseArguments "tcp" "tcp:addr=192.0.2.5,family=ipv6" []).2) ∧
        ((NormalizeListenSpec (refEnv 9955) "tcp:addr=192.0.2.5,family=ipv6" "" []).1 = ER_OK ↔
          ¬ ListenSpecRejected (refEnv 9955)
            ((refEnv 9955).ParseArguments "tcp" "tcp:addr=192.0.2.5,family=ipv6" []).2)) :=
  ⟨by decide, by decide,
    NormalizeListenSpec_rejected_iff (refEnv 9955) "tcp:addr=192.0.2.5,family=ipv6" "" []
      (by decide)⟩

/-- C3: for every spec on which `NormalizeListenSpec` succeeds, the output
string is exactly `tcp:addr=A,family=F,port=P` in that key order, with `A` the
canonical text of the given addr or else the default (`0.0.0.0`, or `0::0`
when `family=ipv6` was given), `F` the given family or else the one derived
from addr, and `P` the decimal rendering of the given port or else of the
platform default; the argument map holds `A`, `F` and `P` under the three keys,
every other key keeps its parsed value, and two specs that agree on the three
keys have the same output whatever their other keys are. -/
theorem NormalizeListenSpec_output (e : Env) (s o : String) (m0 : ArgMap)
    (hs : (NormalizeListenSpec e s o m0).1 = ER_OK) :
    (NormalizeListenSpec e s o m0).2.1 =
        "tcp:addr=" ++ e.expectedAddr (e.ParseArguments "tcp" s m0).2 ++
          ",family=" ++ e.expectedFamily (e.ParseArguments "tcp" s m0).2 ++
          ",port=" ++ e.expectedPort (e.ParseArguments "tcp" s m0).2 ∧
      (NormalizeListenSpec e s o m0).2.2.find "addr" =
        some (e.expectedAddr (e.ParseArguments "tcp" s m0).2) ∧
      (NormalizeListenSpec e s o m0).2.2.find "family" =
        some (e.expectedFamily (e.ParseArguments "tcp" s m0).2) ∧
      (NormalizeListenSpec e s o m0).2.2.find "port" =
        some (e.expectedPort (e.ParseArguments "tcp" s m0).2) ∧
      (∀ k : String, k ≠ "addr" → k ≠ "family" → k ≠ "port" →
        (NormalizeListenSpec e s o m0).2.2.find k = (e.ParseArguments "tcp" s m0).2.find k) ∧
      (∀ (s2 o2 : String) (m2 : ArgMap), (NormalizeListenSpec e s2 o2 m2).1 = ER_OK →
        (e.ParseArguments "tcp" s2 m2).2.find "addr" = (e.ParseArguments "tcp" s m0).2.find "addr" →
        (e.ParseArguments "tcp" s2 m2).2.find "family" =
          (e.ParseArguments "tcp" s m0).2.find "family" →
        (e.ParseArguments "tcp" s2 m2).2.find "port" = (e.ParseArguments "tcp" s m0).2.find "port" →
        (NormalizeListenSpec e s2 o2 m2).2.1 = (NormalizeListenSpec e s o m0).2.1) := by
  obtain ⟨ha, hf, hq, hk⟩ := NormalizeListenSpec_find e s o m0 hs
  refine ⟨(NormalizeListenSpec_ok e s o m0 hs).1, ha, hf, hq, hk, ?_⟩
  intro s2 o2 m2 hs2 h2a h2f h2q
  rw [(NormalizeListenSpec_ok e s o m0 hs).1, (NormalizeListenSpec_ok e s2 o2 m2 hs2).1]
  unfold Env.expectedAddr Env.expectedFamily Env.expectedPort givenFamily
  rw [h2a, h2f, h2q]

/-- C3 at the spec `tcp:port=077,x=y,addr=192.0.2.5`: the output is
`tcp:addr=192.0.2.5,family=ipv4,port=77` and the key `x` stays in the map. -/
theorem NormalizeListenSpec_output_witness :
    (NormalizeListenSpec (refEnv 9955) "tcp:port=077,x=y,addr=192.0.2.5" "" []).1 = ER_OK ∧
      (NormalizeListenSpec (refEnv 9955) "tcp:port=077,x=y,addr=192.0.2.5" "" []).2.1 =
        "tcp:addr=192.0.2.5,family=ipv4,port=77" ∧
      (NormalizeListenSpec (refEnv 9955) "tcp:port=077,x=y,addr=192.0.2.5" "" []).2.2.find "x" =
        some "y" ∧
      (NormalizeListenSpec (refEnv 9955) "tcp:port=077,x=y,addr=192.0.2.5" "" []).2.2.find "port" =
        some ((refEnv 9955).expectedPort
          ((refEnv 9955).ParseArguments "tcp" "tcp:port=077,x=y,addr=192.0.2.5" []).2) :=
  ⟨by decide, by decide, by decide,
    (NormalizeListenSpec_output (refEnv 9955) "tcp:port=077,x=y,addr=192.0.2.5" "" []
      (by decide)).2.2.2.1⟩

/-- C4 (as stated, refuted): the spec `tcp:family=foo` is normalised with
`ER_OK` and its family value, in the output and in the argument map, is `foo`,
which is neither `ipv4` nor `ipv6`. -/
theorem NormalizeListenSpec_family_unchecked :
    (NormalizeListenSpec (refEnv 9955) "tcp:family=foo" "" []).1 = ER_OK ∧
      (NormalizeListenSpec (refEnv 9955) "tcp:family=foo" "" []).2.1 =
        "tcp:addr=0.0.0.0,family=foo,port=9955" ∧
      (NormalizeListenSpec (refEnv 9955) "tcp:family=foo" "" []).2.2.find "family" = some "foo" ∧
      ¬ ((NormalizeListenSpec (refEnv 9955) "tcp:family=foo" "" []).2.2.find "family" =
            some "ipv4" ∨
          (NormalizeListenSpec (refEnv 9955) "tcp:family=foo" "" []).2.2.find "family" =
            some "ipv6") := by
  decide

/-- C4 (amended): for every spec on which `NormalizeListenSpec` succeeds, the
family value `F` of the output string is the one stored in the argument map;
it is the given family, unchecked, when a family is given, and it is `ipv4` or
`ipv6` when no family is given or the given one is one of these two. -/
theorem NormalizeListenSpec_family (e : Env) (s o : String) (m0 : ArgMap)
    (hs : (NormalizeListenSpec e s o m0).1 = ER_OK) :
    ∃ A F P : String,
      (NormalizeListenSpec e s o m0).2.1 = "tcp:addr=" ++ A ++ ",family=" ++ F ++ ",port=" ++ P ∧
      (NormalizeListenSpec e s o m0).2.2.find "family" = some F ∧
      (∀ f : String, givenFamily (e.ParseArguments "tcp" s m0).2 = some f → F = f) ∧
      ((givenFamily (e.ParseArguments "tcp" s m0).2 = none ∨
          givenFamily (e.ParseArguments "tcp" s m0).2 = some "ipv4" ∨
          givenFamily (e.ParseArguments "tcp" s m0).2 = some "ipv6") →
        F = "ipv4" ∨ F = "ipv6") := by
  refine ⟨e.expectedAddr (e.ParseArguments "tcp" s m0).2,
    e.expectedFamily (e.ParseArguments "tcp" s m0).2,
    e.expectedPort (e.ParseArguments "tcp" s m0).2,
    (NormalizeListenSpec_ok e s o m0 hs).1, (NormalizeListenSpec_find e s o m0 hs).2.1, ?_, ?_⟩
  · intro f hf
    simp [Env.expectedFamily, hf]
  · intro h
    unfold Env.expectedFamily
    rcases h with h | h | h
    · rw [h]
      rcases (e.ParseArguments "tcp" s m0).2.find "addr" with _ | a
      · exact Or.inl rfl
      · by_cases h6 : (e.IPAddress a).IsIPv6 = true
        · simp [h6]
        · simp [h6]
    · rw [h]
      exact Or.inl rfl
    · rw [h]
      exact Or.inr rfl

/-- C4 (amended) at the spec `tcp:addr=::1`, whose family is derived. -/
theorem NormalizeListenSpec_family_witness :
    (NormalizeListenSpec (refEnv 9955) "tcp:addr=::1" "" []).1 = ER_OK ∧
      (NormalizeListenSpec (refEnv 9955) "tcp:addr=::1" "" []).2.2.find "family" = some "ipv6" ∧
      ∃ A F P : String,
        (NormalizeListenSpec (refEnv 9955) "tcp:addr=::1" "" []).2.1 =
          "tcp:addr=" ++ A ++ ",family=" ++ F ++ ",port=" ++ P ∧
        (NormalizeListenSpec (refEnv 9955) "tcp:addr=::1" "" []).2.2.find "family" = some F ∧
        (∀ f : String,
          givenFamily ((refEnv 9955).ParseArguments "tcp" "tcp:addr=::1" []).2 = some f → F = f) ∧
        ((givenFamily ((refEnv 9955).ParseArguments "tcp" "tcp:addr=::1" []).2 = none ∨
            givenFamily ((refEnv 9955).ParseArguments "tcp" "tcp:addr=::1" []).2 = some "ipv4" ∨
            givenFamily ((refEnv 9955).ParseArguments "tcp" "tcp:addr=::1" []).2 = some "ipv6") →
          F = "ipv4" ∨ F = "ipv6") :=
  ⟨by decide, by decide,
    NormalizeListenSpec_family (refEnv 9955) "tcp:addr=::1" "" [] (by decide)⟩

/-- C5 (as stated, refuted): an explicit `port=0` is not accepted by
listen-spec normalisation: `NormalizeListenSpec` returns
`ER_BUS_BAD_TRANSPORT_ARGS` on `tcp:addr=192.0.2.5,port=0`, on both platforms. -/
theorem NormalizeListenSpec_port_zero :
    (NormalizeListenSpec (refEnv 9955) "tcp:addr=192.0.2.5,port=0" "" []).1 =
        ER_BUS_BAD_TRANSPORT_ARGS ∧
      (NormalizeListenSpec (refEnv 0) "tcp:addr=192.0.2.5,port=0" "" []).1 =
        ER_BUS_BAD_TRANSPORT_ARGS ∧
      (NormalizeListenSpec (refEnv 9955) "tcp:addr=192.0.2.5,port=0" "" []).1 ≠ ER_OK := by
  decide

/-- C5 (amended): an explicit port whose numeric value is 0 is rejected by
listen-spec normalisation and by connect-spec normalisation alike: both
`NormalizeListenSpec` and `NormalizeTransportSpec` return
`ER_BUS_BAD_TRANSPORT_ARGS`. -/
theorem Normalize_explicit_port_zero (e : Env) (s o : String) (m0 : ArgMap) (v : String)
    (hp : (e.ParseArguments "tcp" s m0).1 = ER_OK)
    (hv : (e.ParseArguments "tcp" s m0).2.find "port" = some v)
    (h0 : e.portValue v = 0) :
    (NormalizeListenSpec e s o m0).1 = ER_BUS_BAD_TRANSPORT_ARGS ∧
      (NormalizeTransportSpec e s o m0).1 = ER_BUS_BAD_TRANSPORT_ARGS := by
  have hl : (NormalizeListenSpec e s o m0).1 = ER_BUS_BAD_TRANSPORT_ARGS :=
    (NormalizeListenSpec_rejected_status e s o m0 hp).2
      (Or.inr (Or.inr ⟨v, hv, by omega⟩))
  refine ⟨hl, ?_⟩
  unfold NormalizeTransportSpec
  simp [hl]

/-- C5 (amended) at the spec `tcp:addr=192.0.2.5,port=0`. -/
theorem Normalize_explicit_port_zero_witness :
    ((refEnv 9955).ParseArguments "tcp" "tcp:addr=192.0.2.5,port=0" []).1 = ER_OK ∧
      ((refEnv 9955).ParseArguments "tcp" "tcp:addr=192.0.2.5,port=0" []).2.find "port" =
        some "0" ∧
      (refEnv 9955).portValue "0" = 0 ∧
      (NormalizeListenSpec (refEnv 9955) "tcp:addr=192.0.2.5,port=0" "" []).1 =
        ER_BUS_BAD_TRANSPORT_ARGS ∧
      (NormalizeTransportSpec (refEnv 9955) "tcp:addr=192.0.2.5,port=0" "" []).1 =
        ER_BUS_BAD_TRANSPORT_ARGS :=
  ⟨by decide, by decide, by decide,
    Normalize_explicit_port_zero (refEnv 9955) "tcp:addr=192.0.2.5,port=0" "" [] "0"
      (by decide) (by decide) (by decide)⟩

/-- The test of `NormalizeTransportSpec` is one of texts: for every input spec
it succeeds exactly when `NormalizeListenSpec` succeeds and the text stored
under `addr` is neither `0.0.0.0` nor `0::0`; when it succeeds, its output
string and argument map are those of `NormalizeListenSpec`; when the text is
one of the two, as it is for every spec without an addr, it returns
`ER_BUS_BAD_TRANSPORT_ARGS`. -/
theorem NormalizeTransportSpec_iff (e : Env) (s o : String) (m0 : ArgMap) :
    ((NormalizeTransportSpec e s o m0).1 = ER_OK ↔
        (NormalizeListenSpec e s o m0).1 = ER_OK ∧
          (NormalizeListenSpec e s o m0).2.2.find "addr" ≠ some "0.0.0.0" ∧
          (NormalizeListenSpec e s o m0).2.2.find "addr" ≠ some "0::0") ∧
      ((NormalizeTransportSpec e s o m0).1 = ER_OK →
        (NormalizeTransportSpec e s o m0).2 = (NormalizeListenSpec e s o m0).2) ∧
      ((NormalizeListenSpec e s o m0).1 = ER_OK →
        ((NormalizeListenSpec e s o m0).2.2.find "addr" = some "0.0.0.0" ∨
          (NormalizeListenSpec e s o m0).2.2.find "addr" = some "0::0") →
        (NormalizeTransportSpec e s o m0).1 = ER_BUS_BAD_TRANSPORT_ARGS) ∧
      ((NormalizeListenSpec e s o m0).1 = ER_OK →
        (e.ParseArguments "tcp" s m0).2.find "addr" = none →
        (NormalizeTransportSpec e s o m0).1 = ER_BUS_BAD_TRANSPORT_ARGS) := by
  have key : ∀ a : String, (NormalizeListenSpec e s o m0).1 = ER_OK →
      (NormalizeListenSpec e s o m0).2.2.find "addr" = some a →
      (a = "0.0.0.0" ∨ a = "0::0") →
      (NormalizeTransportSpec e s o m0).1 = ER_BUS_BAD_TRANSPORT_ARGS := by
    intro a hl ha hw
    unfold NormalizeTransportSpec
    simp [hl, ha, ADDR4_DEFAULT, ADDR6_DEFAULT, hw]
  refine ⟨?_, ?_, ?_, ?_⟩
  · unfold NormalizeTransportSpec
    by_cases hl : (NormalizeListenSpec e s o m0).1 = ER_OK
    · rcases ha : (NormalizeListenSpec e s o m0).2.2.find "addr" with _ | a
      · simp [hl, ha]
      · by_cases hw : a = "0.0.0.0" ∨ a = "0::0"
        · rcases hw with hw | hw <;> simp [hl, ha, ADDR4_DEFAULT, ADDR6_DEFAULT, hw]
        · have h4 : ¬ a = "0.0.0.0" := fun h => hw (Or.inl h)
          have h6 : ¬ a = "0::0" := fun h => hw (Or.inr h)
          simp [hl, ha, ADDR4_DEFAULT, ADDR6_DEFAULT, h4, h6]
    · simp [hl]
  · unfold NormalizeTransportSpec
    by_cases hl : (NormalizeListenSpec e s o m0).1 = ER_OK
    · rcases ha : (NormalizeListenSpec e s o m0).2.2.find "addr" with _ | a
      · simp [hl, ha]
      · by_cases hw : a = ADDR4_DEFAULT ∨ a = ADDR6_DEFAULT
        · simp [hl, ha, hw]
        · simp [hl, ha, hw]
    · simp [hl]
  · intro hl hw
    rcases hw with hw | hw
    · exact key _ hl hw (Or.inl rfl)
    · exact key _ hl hw (Or.inr rfl)
  · intro hl hnone
    have ha := (NormalizeListenSpec_find e s o m0 hl).1
    refine key _ hl ha ?_
    unfold Env.expectedAddr
    rw [hnone]
    by_cases h6 : givenFamily (e.ParseArguments "tcp" s m0).2 = some "ipv6"
    · simp [h6]
    · simp [h6]

/-- A connect spec with an explicit address is accepted exactly when the
canonical text of the address is neither `0.0.0.0` nor `0::0`, whatever the
address is. -/
theorem NormalizeTransportSpec_explicit (e : Env) (s o : String) (m0 : ArgMap) (a : String)
    (ad : IPAddress) (ha : (e.ParseArguments "tcp" s m0).2.find "addr" = some a)
    (hset : e.SetAddress a = some ad) (hl : (NormalizeListenSpec e s o m0).1 = ER_OK) :
    ((NormalizeTransportSpec e s o m0).1 = ER_OK ↔
        e.ToString ad ≠ "0.0.0.0" ∧ e.ToString ad ≠ "0::0") ∧
      ((e.ToString ad = "0.0.0.0" ∨ e.ToString ad = "0::0") →
        (NormalizeTransportSpec e s o m0).1 = ER_BUS_BAD_TRANSPORT_ARGS) := by
  have hfind : (NormalizeListenSpec e s o m0).2.2.find "addr" = some (e.ToString ad) := by
    rw [(NormalizeListenSpec_find e s o m0 hl).1]
    unfold Env.expectedAddr Env.IPAddress
    rw [ha]
    simp [hset]
  obtain ⟨h1, _, h3, _⟩ := NormalizeTransportSpec_iff e s o m0
  rw [hfind] at h1 h3
  refine ⟨?_, ?_⟩
  · rw [h1]
    simp [hl]
  · intro hw
    refine h3 hl ?_
    rcases hw with hw | hw
    · exact Or.inl (by rw [hw])
    · exact Or.inr (by rw [hw])

/-- C6 (the code departs from the claim): the connect spec `tcp:addr=0::0` names
the IPv6 wildcard address, the sixteen zero bytes that `tcp:addr=::` names too.
`NormalizeListenSpec` replaces the text of an explicit address by its canonical
text, here `0:0:0:0:0:0:0:0`, and `NormalizeTransportSpec` compares that text
with `0.0.0.0` and `0::0`: both specs are accepted as connect specs, and
`Connect` to the wildcard creates the socket 3 and an endpoint. The spec
`tcp:family=ipv6`, which gets the same address by default, and the IPv4
wildcard `tcp:addr=0.0.0.0` are refused. -/
theorem NormalizeTransportSpec_ipv6_wildcard :
    (refEnv 9955).SetAddress "0::0" = some ⟨List.replicate 16 0⟩ ∧
      (refEnv 9955).SetAddress "::" = some ⟨List.replicate 16 0⟩ ∧
      NormalizeListenSpec (refEnv 9955) "tcp:addr=0::0" "" [] =
        (ER_OK, "tcp:addr=0:0:0:0:0:0:0:0,family=ipv6,port=9955",
          [("addr", "0:0:0:0:0:0:0:0"), ("family", "ipv6"), ("port", "9955")]) ∧
      (NormalizeTransportSpec (refEnv 9955) "tcp:addr=0::0" "" []).1 = ER_OK ∧
      (NormalizeTransportSpec (refEnv 9955) "tcp:addr=::" "" []).1 = ER_OK ∧
      (NormalizeTransportSpec (refEnv 9955) "tcp:family=ipv6" "" []).1 =
        ER_BUS_BAD_TRANSPORT_ARGS ∧
      (NormalizeTransportSpec (refEnv 9955) "tcp:addr=0.0.0.0" "" []).1 =
        ER_BUS_BAD_TRANSPORT_ARGS ∧
      (Connect (refEnv 9955) (refOs []) startedTransport "tcp:addr=0::0").1 = ER_OK ∧
      (Connect (refEnv 9955) (refOs []) startedTransport "tcp:addr=0::0").2.2.openSockets = [3] ∧
      (Connect (refEnv 9955) (refOs []) startedTransport
        "tcp:addr=0::0").2.2.m_endpointList.map (fun ep => (ep.sock, ep.m_ipAddr)) =
          [(3, ⟨List.replicate 16 0⟩)] := by
  decide

/-- The default IPv6 listen address is not kept by a second normalisation: the
output for `tcp:family=ipv6` has the address text `0::0`, which is rewritten
to the canonical text when that output is normalised again. -/
theorem NormalizeListenSpec_ipv6_default_rewritten :
    (NormalizeListenSpec (refEnv 9955) "tcp:family=ipv6" "" []).1 = ER_OK ∧
      (NormalizeListenSpec (refEnv 9955) "tcp:family=ipv6" "" []).2.1 =
        "tcp:addr=0::0,family=ipv6,port=9955" ∧
      (NormalizeListenSpec (refEnv 9955) "tcp:addr=0::0,family=ipv6,port=9955" "" []).1 = ER_OK ∧
      (NormalizeListenSpec (refEnv 9955) "tcp:addr=0::0,family=ipv6,port=9955" "" []).2.1 =
        "tcp:addr=0:0:0:0:0:0:0:0,family=ipv6,port=9955" := by
  decide

/-- C7: for every requested 32-bit `linkTimeout > 0` for which the base class
accepts the setting, `SetLinkTimeout` installs the keepalive idle time
`max(linkTimeout, 40) - 10` with probe delay 10 and 1 probe attempt, returns
`ER_OK` and reports back `linkTimeout = max(linkTimeout, 40)`, the subtraction
not wrapping below 0 and the re-addition not wrapping past 32 bits; for
`linkTimeout = 0` it installs `(0, 0, 0)`, returns `ER_OK` and leaves
`linkTimeout` at 0. -/
theorem SetLinkTimeout_spec (base : Nat → Nat → Nat → QStatus) (linkTimeout : Nat)
    (h32 : linkTimeout < 4294967296) :
    (0 < linkTimeout → base (max linkTimeout 40 - 10) 10 1 = ER_OK →
        (DaemonTCPEndpoint.SetLinkTimeout base linkTimeout).installed =
            (max linkTimeout 40 - 10, 10, 1) ∧
          (DaemonTCPEndpoint.SetLinkTimeout base linkTimeout).status = ER_OK ∧
          (DaemonTCPEndpoint.SetLinkTimeout base linkTimeout).linkTimeout = max linkTimeout 40 ∧
          10 ≤ max linkTimeout 40 ∧ max linkTimeout 40 - 10 + 10 < 4294967296) ∧
      (linkTimeout = 0 →
        DaemonTCPEndpoint.SetLinkTimeout base linkTimeout =
          { status := ER_OK, linkTimeout := 0, installed := (0, 0, 0) }) := by
  constructor
  · intro hpos hbase
    have hsub : (max linkTimeout 40 + 4294967296 - 10 % 4294967296) % 4294967296 =
        max linkTimeout 40 - 10 := by omega
    have hadd : (max linkTimeout 40 - 10 + 10 % 4294967296) % 4294967296 =
        max linkTimeout 40 := by omega
    have hto : 0 < max linkTimeout 40 - 10 := by omega
    simp only [DaemonTCPEndpoint.SetLinkTimeout, TCP_LINK_TIMEOUT_PROBE_RESPONSE_DELAY,
      TCP_LINK_TIMEOUT_PROBE_ATTEMPTS, TCP_LINK_TIMEOUT_MIN_LINK_TIMEOUT, Nat.mul_one, hpos,
      ↓reduceIte, hsub, hbase, hto, and_self, hadd, true_and]
    omega
  · intro h0
    subst h0
    simp [DaemonTCPEndpoint.SetLinkTimeout]

/-- C7 at the requested timeout 5, which is raised to the minimum 40. -/
theorem SetLinkTimeout_spec_witness :
    (0 : Nat) < 5 ∧
      (DaemonTCPEndpoint.SetLinkTimeout (fun _ _ _ => ER_OK) 5).installed = (30, 10, 1) ∧
      ((DaemonTCPEndpoint.SetLinkTimeout (fun _ _ _ => ER_OK) 5).installed =
            (max 5 40 - 10, 10, 1) ∧
          (DaemonTCPEndpoint.SetLinkTimeout (fun _ _ _ => ER_OK) 5).status = ER_OK ∧
          (DaemonTCPEndpoint.SetLinkTimeout (fun _ _ _ => ER_OK) 5).linkTimeout = max 5 40 ∧
          10 ≤ max 5 40 ∧ max 5 40 - 10 + 10 < 4294967296) :=
  ⟨by decide, by decide,
    (SetLinkTimeout_spec (fun _ _ _ => ER_OK) 5 (by decide)).1 (by decide) rfl⟩

/-! ## Theorems: listeners -/

/-- No call of `StartListen` adds to the list of requested specs. -/
theorem StartListen_listenSpecs (e : Env) (t : DaemonTCPTransport) (listenSpec : String) :
    (StartListen e t listenSpec).2.m_listenSpecs = t.m_listenSpecs := by
  unfold StartListen QueueStartListen DaemonTCPTransport.assert
  dsimp only
  split_ifs <;> rfl

/-- C8 (the code departs from the claim): on a started transport the specs
`tcp:addr=0.0.0.0,port=9955` and `tcp:port=9955` differ as texts and have the
same normalisation; `StartListen` of the first returns `ER_OK`, and
`StartListen` of the second then returns `ER_OK` as well, not
`ER_BUS_ALREADY_LISTENING`, and queues a second request to start listening:
the list of requested specs is still empty after the first call. -/
theorem StartListen_twice :
    "tcp:addr=0.0.0.0,port=9955" ≠ "tcp:port=9955" ∧
      (NormalizeListenSpec (refEnv 9955) "tcp:addr=0.0.0.0,port=9955" "" []).2.1 =
        (NormalizeListenSpec (refEnv 9955) "tcp:port=9955" "" []).2.1 ∧
      (StartListen (refEnv 9955) startedTransport "tcp:addr=0.0.0.0,port=9955").1 = ER_OK ∧
      (StartListen (refEnv 9955) startedTransport "tcp:addr=0.0.0.0,port=9955").2.m_listenSpecs =
        [] ∧
      (StartListen (refEnv 9955)
        (StartListen (refEnv 9955) startedTransport "tcp:addr=0.0.0.0,port=9955").2
        "tcp:port=9955").1 = ER_OK ∧
      (StartListen (refEnv 9955)
        (StartListen (refEnv 9955) startedTransport "tcp:addr=0.0.0.0,port=9955").2
        "tcp:port=9955").2.m_listenRequests =
        [⟨RequestOp.START_LISTEN, "tcp:addr=0.0.0.0,family=ipv4,port=9955"⟩,
          ⟨RequestOp.START_LISTEN, "tcp:addr=0.0.0.0,family=ipv4,port=9955"⟩] := by
  decide

/-- C9 (the code departs from the claim): on a started transport with no
listener and no requested spec, `StartListen` and then `StopListen` of
`tcp:addr=0.0.0.0,port=9955` both return `ER_OK`, but `StopListen` queues
nothing, and once the accept thread has drained the queue with every socket
call succeeding the listener set holds one listener, on the open socket 3. -/
theorem StartListen_StopListen :
    (StartListen (refEnv 9955) startedTransport "tcp:addr=0.0.0.0,port=9955").1 = ER_OK ∧
      (StopListen (refEnv 9955)
        (StartListen (refEnv 9955) startedTransport "tcp:addr=0.0.0.0,port=9955").2
        "tcp:addr=0.0.0.0,port=9955").1 = ER_OK ∧
      (StopListen (refEnv 9955)
        (StartListen (refEnv 9955) startedTransport "tcp:addr=0.0.0.0,port=9955").2
        "tcp:addr=0.0.0.0,port=9955").2.m_listenRequests =
        [⟨RequestOp.START_LISTEN, "tcp:addr=0.0.0.0,family=ipv4,port=9955"⟩] ∧
      (Run.drain (refEnv 9955) (refOs [])
        (StopListen (refEnv 9955)
          (StartListen (refEnv 9955) startedTransport "tcp:addr=0.0.0.0,port=9955").2
          "tcp:addr=0.0.0.0,port=9955").2).m_listenRequests = [] ∧
      (Run.drain (refEnv 9955) (refOs [])
        (StopListen (refEnv 9955)
          (StartListen (refEnv 9955) startedTransport "tcp:addr=0.0.0.0,port=9955").2
          "tcp:addr=0.0.0.0,port=9955").2).m_listenFds = [("tcp:addr=0.0.0.0,port=9955", 3)] ∧
      (Run.drain (refEnv 9955) (refOs [])
        (StopListen (refEnv 9955)
          (StartListen (refEnv 9955) startedTransport "tcp:addr=0.0.0.0,port=9955").2
          "tcp:addr=0.0.0.0,port=9955").2).openSockets = [3] := by
  decide

/-- C10 (the code departs from the claim): a wildcard listener requested with
`StartListen("tcp:addr=0.0.0.0,port=9955")` and enacted by the accept thread is
entered in the listener set as `tcp:addr=0.0.0.0,port=9955`; with the interface
192.0.2.5 up, `Connect("tcp:addr=192.0.2.5,port=9955,family=ipv4")` compares
that entry with `tcp:addr=192.0.2.5,family=ipv4,port=9955` and with
`tcp:addr=0.0.0.0,family=ipv4,port=9955`, finds neither, and goes on to create
the socket 4 and an endpoint record, returning `ER_OK` when every socket call
succeeds. -/
theorem Connect_to_self :
    (Run.drain (refEnv 9955) (refOs localInterfaces)
        (StartListen (refEnv 9955) startedTransport
          "tcp:addr=0.0.0.0,port=9955").2).m_listenFds = [("tcp:addr=0.0.0.0,port=9955", 3)] ∧
      (NormalizeListenSpec (refEnv 9955)
        (Connect.anyspec AddressFamily.QCC_AF_INET 9955) "" []).2.1 =
        "tcp:addr=0.0.0.0,family=ipv4,port=9955" ∧
      (Connect (refEnv 9955) (refOs localInterfaces)
        (Run.drain (refEnv 9955) (refOs localInterfaces)
          (StartListen (refEnv 9955) startedTransport "tcp:addr=0.0.0.0,port=9955").2)
        "tcp:addr=192.0.2.5,port=9955,family=ipv4").1 = ER_OK ∧
      (Connect (refEnv 9955) (refOs localInterfaces)
        (Run.drain (refEnv 9955) (refOs localInterfaces)
          (StartListen (refEnv 9955) startedTransport "tcp:addr=0.0.0.0,port=9955").2)
        "tcp:addr=192.0.2.5,port=9955,family=ipv4").2.2.openSockets = [3, 4] ∧
      ((Connect (refEnv 9955) (refOs localInterfaces)
        (Run.drain (refEnv 9955) (refOs localInterfaces)
          (StartListen (refEnv 9955) startedTransport "tcp:addr=0.0.0.0,port=9955").2)
        "tcp:addr=192.0.2.5,port=9955,family=ipv4").2.2.m_endpointList.map
          (fun ep => (ep.connectSpec, ep.sock))) =
        [("tcp:addr=192.0.2.5,family=ipv4,port=9955", 4)] := by
  decide

/-! ## Theorems: the life cycle -/

/-- C11: whenever the accept thread is not running or the stopping flag is set,
each of `Connect`, `Disconnect`, `StartListen`, `StopListen` and
`EnableAdvertisement` returns `ER_BUS_TRANSPORT_NOT_STARTED` and leaves the
whole transport state as it was (so both endpoint lists, the listener set, the
requested-specs list and the request queue), and `EnableDiscovery` and
`DisableAdvertisement` leave it as it was too, so they make no name-service
call. -/
theorem not_started (e : Env) (os : Os) (sys : Sys) (t : DaemonTCPTransport)
    (connectSpec listenSpec name : String) (nameListEmpty : Bool)
    (h : t.isRunning = false ∨ t.m_stopping = true) :
    Connect e os t connectSpec = (ER_BUS_TRANSPORT_NOT_STARTED, none, t) ∧
      Disconnect e sys t connectSpec = (ER_BUS_TRANSPORT_NOT_STARTED, t) ∧
      StartListen e t listenSpec = (ER_BUS_TRANSPORT_NOT_STARTED, t) ∧
      StopListen e t listenSpec = (ER_BUS_TRANSPORT_NOT_STARTED, t) ∧
      EnableAdvertisement sys t name = (ER_BUS_TRANSPORT_NOT_STARTED, t) ∧
      EnableDiscovery t name = t ∧
      DisableAdvertisement t name nameListEmpty = t := by
  refine ⟨?_, ?_, ?_, ?_, ?_, ?_, ?_⟩
  · unfold Connect
    rw [if_pos h]
  · unfold Disconnect
    rw [if_pos h]
  · unfold StartListen
    rw [if_pos h]
  · unfold StopListen
    rw [if_pos h]
  · unfold EnableAdvertisement
    rw [if_pos h]
  · unfold EnableDiscovery
    rw [if_pos h]
  · unfold DisableAdvertisement
    rw [if_pos h]

/-- C11 at a started transport on which `Stop` was called: `StartListen` of
`tcp:` is refused and nothing is queued. -/
theorem not_started_witness :
    ((Stop refSys startedTransport).2.isRunning = false ∨
        (Stop refSys startedTransport).2.m_stopping = true) ∧
      (StartListen (refEnv 9955) (Stop refSys startedTransport).2 "tcp:").2.m_listenRequests = [] ∧
      StartListen (refEnv 9955) (Stop refSys startedTransport).2 "tcp:" =
        (ER_BUS_TRANSPORT_NOT_STARTED, (Stop refSys startedTransport).2) :=
  ⟨by decide, by decide,
    (not_started (refEnv 9955) (refOs []) refSys (Stop refSys startedTransport).2
      "tcp:addr=192.0.2.5" "tcp:" "org.alljoyn" false (by decide)).2.2.1⟩

/-- C12 (as stated, refuted): on a transport whose accept thread is not running
and that has no name service, `Start` with a name service whose `Init` fails
returns the status of `Init` and does not start the accept thread; the name
service it created is left uninitialised. -/
theorem Start_init_fails :
    ¬ (({} : DaemonTCPTransport).isRunning = true ∨
        ({} : DaemonTCPTransport).m_ns.isSome = true) ∧
      (Start initFailsSys {}).1 = ER_FAIL ∧
      (Start initFailsSys {}).2.isRunning = false ∧
      (Start initFailsSys {}).2.m_ns = some { initialized := false, callback := false } := by
  decide

/-- C12 (amended): `Start` returns `ER_BUS_BUS_ALREADY_STARTED` and leaves the
transport as it was, creating no name service and starting no thread, exactly
when the accept thread is running or a name service is present. In every other
state it creates the name service, clears the stopping flag and calls `Init`;
when `Init` succeeds the name service is initialised with its callback set and
the accept thread is started, the status being that of the thread start (the
thread runs when that is `ER_OK`); when `Init` fails its status is returned and
the accept thread is not started. -/
theorem Start_spec (sys : Sys) (t : DaemonTCPTransport) :
    (((Start sys t).1 = ER_BUS_BUS_ALREADY_STARTED ∧ (Start sys t).2 = t) ↔
        (t.isRunning = true ∨ t.m_ns.isSome = true)) ∧
      (¬ (t.isRunning = true ∨ t.m_ns.isSome = true) →
        (Start sys t).2.m_ns.isSome = true ∧ (Start sys t).2.m_stopping = false ∧
        (sys.Init = ER_OK →
          (Start sys t).1 = sys.ThreadStart ∧
          (Start sys t).2.m_ns = some { initialized := true, callback := true } ∧
          ((Start sys t).2.isRunning = true ↔ sys.ThreadStart = ER_OK)) ∧
        (sys.Init ≠ ER_OK →
          (Start sys t).1 = sys.Init ∧ (Start sys t).2.isRunning = false)) := by
  have hrest : ¬ (t.isRunning = true ∨ t.m_ns.isSome = true) →
      (Start sys t).2.m_ns.isSome = true ∧ (Start sys t).2.m_stopping = false ∧
      (sys.Init = ER_OK →
        (Start sys t).1 = sys.ThreadStart ∧
        (Start sys t).2.m_ns = some { initialized := true, callback := true } ∧
        ((Start sys t).2.isRunning = true ↔ sys.ThreadStart = ER_OK)) ∧
      (sys.Init ≠ ER_OK →
        (Start sys t).1 = sys.Init ∧ (Start sys t).2.isRunning = false) := by
    intro h
    have hr : t.isRunning = false := by
      cases hh : t.isRunning
      · rfl
      · exact absurd (Or.inl hh) h
    have hn : ¬ t.m_ns.isSome = true := fun hh => h (Or.inr hh)
    unfold Start
    simp only [hr, hn, Bool.false_eq_true, ↓reduceIte]
    by_cases hi : sys.Init = ER_OK
    · by_cases hs : sys.ThreadStart = ER_OK
      · simp [hi, hs]
      · simp [hi, hs, hr]
    · simp [hi, hr]
  refine ⟨⟨?_, ?_⟩, hrest⟩
  · intro hst
    by_contra hg
    have h1 := (hrest hg).1
    rw [hst.2] at h1
    exact hg (Or.inr h1)
  · intro hg
    unfold Start
    rcases hg with hg | hg
    · simp [hg]
    · by_cases hr : t.isRunning = true
      · simp [hr]
      · simp [hr, hg]

/-- The walk of `Disconnect` stops at the first record that matches. -/
theorem Disconnect_walk_found (ipAddr : IPAddress) (port : Nat)
    (pre post : List DaemonTCPEndpoint) (ep : DaemonTCPEndpoint)
    (hpre : ∀ x ∈ pre, ¬ (x.m_port = port ∧ x.m_ipAddr = ipAddr))
    (hep : ep.m_port = port ∧ ep.m_ipAddr = ipAddr) :
    Disconnect.walk ipAddr port (pre ++ ep :: post) =
      some (ep, pre ++ { ep with m_wasSuddenDisconnect := false, stopped := true } :: post) := by
  induction pre with
  | nil => simp [Disconnect.walk, hep]
  | cons x rest ih =>
    have hx := hpre x (List.mem_cons_self x rest)
    have ih2 := ih (fun y hy => hpre y (List.mem_cons_of_mem x hy))
    show Disconnect.walk ipAddr port (x :: (rest ++ ep :: post)) = _
    simp only [Disconnect.walk, hx, ↓reduceIte, ih2, Option.map_some', List.cons_append]

/-- The walk of `Disconnect` finds nothing when no record matches. -/
theorem Disconnect_walk_none (ipAddr : IPAddress) (port : Nat) (l : List DaemonTCPEndpoint)
    (h : ∀ x ∈ l, ¬ (x.m_port = port ∧ x.m_ipAddr = ipAddr)) :
    Disconnect.walk ipAddr port l = none := by
  induction l with
  | nil => rfl
  | cons x rest ih =>
    have hx := h x (List.mem_cons_self x rest)
    have ih2 := ih (fun y hy => h y (List.mem_cons_of_mem x hy))
    simp only [Disconnect.walk, hx, ↓reduceIte, ih2, Option.map_none']

/-- C17: on a running transport, `Disconnect` with a valid connect spec that
matches an active record by peer address and port sets the flag for a sudden
disconnect to false on the first matching record in list order and calls
`Stop` on it, returning the status of that `Stop`; every other record, the
order of the list and the rest of the transport stay as they were, and
`EndpointExit` of that record then sends no `BusConnectionLost`. When no
active record matches, `Disconnect` returns `ER_BUS_BAD_TRANSPORT_ARGS` and
changes nothing. -/
theorem Disconnect_spec (e : Env) (sys : Sys) (t : DaemonTCPTransport) (connectSpec : String)
    (hrun : t.isRunning = true) (hstop : t.m_stopping = false) (hns : t.m_ns.isSome = true)
    (hok : (NormalizeTransportSpec e connectSpec "" []).1 = ER_OK) :
    (∀ (pre post : List DaemonTCPEndpoint) (ep : DaemonTCPEndpoint),
        t.m_endpointList = pre ++ ep :: post →
        (∀ x ∈ pre, ¬ (x.m_port = e.peerPort connectSpec ∧ x.m_ipAddr = e.peerAddr connectSpec)) →
        (ep.m_port = e.peerPort connectSpec ∧ ep.m_ipAddr = e.peerAddr connectSpec) →
        Disconnect e sys t connectSpec =
            (sys.EndpointStop ep.sock,
              { t with
                m_endpointList :=
                  pre ++ { ep with m_wasSuddenDisconnect := false, stopped := true } :: post }) ∧
          (EndpointExit (Disconnect e sys t connectSpec).2
            { ep with m_wasSuddenDisconnect := false, stopped := true }).lost = t.lost) ∧
      ((∀ x ∈ t.m_endpointList,
          ¬ (x.m_port = e.peerPort connectSpec ∧ x.m_ipAddr = e.peerAddr connectSpec)) →
        Disconnect e sys t connectSpec = (ER_BUS_BAD_TRANSPORT_ARGS, t)) := by
  have hgate : ¬ (t.isRunning = false ∨ t.m_stopping = true) := by simp [hrun, hstop]
  have hassert : t.assert t.m_ns.isSome = t := by simp [DaemonTCPTransport.assert, hns]
  constructor
  · intro pre post ep hlist hpre hep
    have hw := Disconnect_walk_found (e.peerAddr connectSpec) (e.peerPort connectSpec)
      pre post ep hpre hep
    have hd : Disconnect e sys t connectSpec =
        (sys.EndpointStop ep.sock,
          { t with
            m_endpointList :=
              pre ++ { ep with m_wasSuddenDisconnect := false, stopped := true } :: post }) := by
      unfold Disconnect
      unfold Env.peerAddr Env.peerPort at hw
      simp only [hgate, ↓reduceIte, hassert, hok, ne_eq, not_true_eq_false, hlist, hw]
    refine ⟨hd, ?_⟩
    rw [hd]
    simp [EndpointExit, DaemonTCPTransport.delete]
  · intro hnone
    have hw := Disconnect_walk_none (e.peerAddr connectSpec) (e.peerPort connectSpec)
      t.m_endpointList hnone
    unfold Disconnect
    unfold Env.peerAddr Env.peerPort at hw
    simp only [hgate, ↓reduceIte, hassert, hok, ne_eq, not_true_eq_false, hw]

/-- C17 at a transport with one outbound record, to 192.0.2.5:9955. -/
theorem Disconnect_spec_witness :
    (Connect (refEnv 9955) (refOs []) listenedTransport
        "tcp:addr=192.0.2.5,port=9955").2.2.isRunning = true ∧
      (NormalizeTransportSpec (refEnv 9955) "tcp:addr=192.0.2.5,port=9955" "" []).1 = ER_OK ∧
      (Disconnect (refEnv 9955) refSys
        (Connect (refEnv 9955) (refOs []) listenedTransport "tcp:addr=192.0.2.5,port=9955").2.2
        "tcp:addr=192.0.2.5,port=9955").1 = ER_OK ∧
      ((Disconnect (refEnv 9955) refSys
        (Connect (refEnv 9955) (refOs []) listenedTransport "tcp:addr=192.0.2.5,port=9955").2.2
        "tcp:addr=192.0.2.5,port=9955").2.m_endpointList.map
          (fun ep => (ep.sock, ep.m_wasSuddenDisconnect, ep.stopped))) = [(3, false, true)] ∧
      ((∀ x ∈ (Connect (refEnv 9955) (refOs []) listenedTransport
            "tcp:addr=192.0.2.5,port=9955").2.2.m_endpointList,
          ¬ (x.m_port = (refEnv 9955).peerPort "tcp:addr=192.0.2.6,port=9955" ∧
            x.m_ipAddr = (refEnv 9955).peerAddr "tcp:addr=192.0.2.6,port=9955")) →
        Disconnect (refEnv 9955) refSys
            (Connect (refEnv 9955) (refOs []) listenedTransport
              "tcp:addr=192.0.2.5,port=9955").2.2 "tcp:addr=192.0.2.6,port=9955" =
          (ER_BUS_BAD_TRANSPORT_ARGS,
            (Connect (refEnv 9955) (refOs []) listenedTransport
              "tcp:addr=192.0.2.5,port=9955").2.2)) :=
  ⟨by decide, by decide, by decide, by decide,
    (Disconnect_spec (refEnv 9955) refSys
      (Connect (refEnv 9955) (refOs []) listenedTransport "tcp:addr=192.0.2.5,port=9955").2.2
      "tcp:addr=192.0.2.6,port=9955" (by decide) (by decide) (by decide) (by decide)).2⟩

/-- With the port 0 reported, the loop over the interface entries adds nothing. -/
theorem GetListenAddresses_entries_port_zero (e : Env) (sys : Sys) (ns : NameService)
    (haveWildcard : Bool) (currentInterface : String) (entries : List IfConfigEntry)
    (busAddrs : List String) (h0 : (sys.GetEndpoints ns).2.2 % 65536 = 0) :
    GetListenAddresses.entries e sys ns haveWildcard currentInterface entries busAddrs =
      busAddrs := by
  induction entries with
  | nil => rfl
  | cons entry rest ih =>
    simp only [GetListenAddresses.entries, h0, ne_eq, not_true_eq_false, and_false, ↓reduceIte, ih]

/-- With the port 0 reported, the loop over the interface names adds nothing. -/
theorem GetListenAddresses_names_port_zero (e : Env) (sys : Sys) (ns : NameService)
    (haveWildcard : Bool) (entries : List IfConfigEntry) (names busAddrs : List String)
    (h0 : (sys.GetEndpoints ns).2.2 % 65536 = 0) :
    GetListenAddresses.names e sys ns haveWildcard entries names busAddrs = busAddrs := by
  induction names with
  | nil => rfl
  | cons name rest ih =>
    simp only [GetListenAddresses.names,
      GetListenAddresses_entries_port_zero e sys ns haveWildcard name entries busAddrs h0, ih]

/-- C18: `GetListenAddresses` returns `ER_OK` and appends nothing whenever the
traffic type is neither `TRAFFIC_MESSAGES` nor `TRAFFIC_RAW_RELIABLE`, or the
transports mask has none of the bits of WLAN, WWAN and LAN; and on a started
transport, whatever the options, it appends nothing whenever the name service
reports the port 0. -/
theorem GetListenAddresses_nothing (e : Env) (os : Os) (sys : Sys) (t : DaemonTCPTransport)
    (opts : SessionOpts) (busAddrs : List String) :
    (((opts.traffic ≠ TrafficType.TRAFFIC_MESSAGES ∧
            opts.traffic ≠ TrafficType.TRAFFIC_RAW_RELIABLE) ∨
          opts.transports &&&
            (sys.TRANSPORT_WLAN ||| sys.TRANSPORT_WWAN ||| sys.TRANSPORT_LAN) = 0) →
        GetListenAddresses e os sys t opts busAddrs = (ER_OK, busAddrs)) ∧
      (∀ ns : NameService, t.m_ns = some ns → (sys.GetEndpoints ns).2.2 % 65536 = 0 →
        (GetListenAddresses e os sys t opts busAddrs).2 = busAddrs) := by
  constructor
  · intro h
    unfold GetListenAddresses
    by_cases ht : opts.traffic ≠ TrafficType.TRAFFIC_MESSAGES ∧
        opts.traffic ≠ TrafficType.TRAFFIC_RAW_RELIABLE
    · rw [if_pos ht]
    · rw [if_neg ht]
      rcases h with h | h
      · exact absurd h ht
      · rw [if_pos h]
  · intro ns hns h0
    unfold GetListenAddresses
    simp only [hns]
    split_ifs <;>
      simp only [GetListenAddresses_names_port_zero e sys ns _ _ _ busAddrs h0]

/-! ## Theorems: admission and the endpoint lists -/

/-- C19: for an accepted socket, after the scavenging loop the accept thread
admits the connection exactly when `|m_authList| < maxAuth` and
`|m_authList| + |m_endpointList| < maxConn`. When it is admitted and the
authentication thread starts, `m_authList` gains exactly one new inbound record
(state `INITIALIZED`, no sudden disconnect, start time the time read) and
`m_endpointList` is unchanged; when the limits are reached, or the thread does
not start, both lists are as they were after scavenging and the socket is
closed. -/
theorem Run_newConnection_spec (lim : Limits) (sys : Sys) (tNow : Nat) (t : DaemonTCPTransport)
    (newSock : SocketFd) (remoteAddr : IPAddress) (remotePort : Nat) :
    ((Run.newConnection lim sys tNow t newSock remoteAddr remotePort).created =
          t.created ++ [newSock] ↔
        (t.m_authList.length < lim.maxAuth ∧
          t.m_authList.length + t.m_endpointList.length < lim.maxConn)) ∧
      ((t.m_authList.length < lim.maxAuth ∧
          t.m_authList.length + t.m_endpointList.length < lim.maxConn) →
        sys.AuthStart newSock = ER_OK →
        (Run.newConnection lim sys tNow t newSock remoteAddr remotePort).m_authList =
            { incoming := true, connectSpec := "", sock := newSock, m_ipAddr := remoteAddr,
              m_port := remotePort, m_state := AuthState.INITIALIZED, m_tStart := tNow,
              m_wasSuddenDisconnect := false, authThreadRunning := true } :: t.m_authList ∧
          (Run.newConnection lim sys tNow t newSock remoteAddr remotePort).m_endpointList =
            t.m_endpointList ∧
          (Run.newConnection lim sys tNow t newSock remoteAddr remotePort).openSockets =
            t.openSockets) ∧
      ((t.m_authList.length < lim.maxAuth ∧
          t.m_authList.length + t.m_endpointList.length < lim.maxConn) →
        sys.AuthStart newSock ≠ ER_OK →
        (Run.newConnection lim sys tNow t newSock remoteAddr remotePort).m_authList = t.m_authList ∧
          (Run.newConnection lim sys tNow t newSock remoteAddr remotePort).m_endpointList =
            t.m_endpointList ∧
          (Run.newConnection lim sys tNow t newSock remoteAddr remotePort).openSockets =
            t.openSockets.erase newSock ∧
          (Run.newConnection lim sys tNow t newSock remoteAddr remotePort).deleted =
            t.deleted ++ [newSock]) ∧
      (¬ (t.m_authList.length < lim.maxAuth ∧
          t.m_authList.length + t.m_endpointList.length < lim.maxConn) →
        (Run.newConnection lim sys tNow t newSock remoteAddr remotePort).m_authList = t.m_authList ∧
          (Run.newConnection lim sys tNow t newSock remoteAddr remotePort).m_endpointList =
            t.m_endpointList ∧
          (Run.newConnection lim sys tNow t newSock remoteAddr remotePort).openSockets =
            t.openSockets.erase newSock) := by
  by_cases hc : t.m_authList.length < lim.maxAuth ∧
      t.m_authList.length + t.m_endpointList.length < lim.maxConn
  · by_cases ha : sys.AuthStart newSock = ER_OK
    · simp [Run.newConnection, hc, ha]
    · simp [Run.newConnection, hc, ha, DaemonTCPTransport.delete]
  · simp [Run.newConnection, hc, DaemonTCPTransport.Close]

/-- The sockets of a list from which a record was erased. -/
theorem socks_eraseEndpoint (l : List DaemonTCPEndpoint) (sock : SocketFd) :
    socks (eraseEndpoint l sock) = (socks l).erase sock := by
  induction l with
  | nil => rfl
  | cons ep rest ih =>
    by_cases h : ep.sock = sock
    · simp [eraseEndpoint, socks, h]
    · have ih2 : List.map (fun ep => ep.sock) (eraseEndpoint rest sock) =
          (List.map (fun ep => ep.sock) rest).erase sock := ih
      simp [eraseEndpoint, socks, h, List.erase_cons_tail, ih2]

/-- Erasing a record leaves only records of the list. -/
theorem mem_of_mem_eraseEndpoint (l : List DaemonTCPEndpoint) (sock : SocketFd)
    (ep : DaemonTCPEndpoint) (h : ep ∈ eraseEndpoint l sock) : ep ∈ l := by
  induction l with
  | nil => simp [eraseEndpoint] at h
  | cons x rest ih =>
    by_cases hx : x.sock = sock
    · simp only [eraseEndpoint, hx, ↓reduceIte] at h
      exact List.mem_cons_of_mem x h
    · simp only [eraseEndpoint, hx, ↓reduceIte, List.mem_cons] at h
      rcases h with h | h
      · rw [h]
        exact List.mem_cons_self x rest
      · exact List.mem_cons_of_mem x (ih h)

/-- Erasing a record does not lengthen the list. -/
theorem length_eraseEndpoint_le (l : List DaemonTCPEndpoint) (sock : SocketFd) :
    (eraseEndpoint l sock).length ≤ l.length := by
  induction l with
  | nil => simp [eraseEndpoint]
  | cons x rest ih =>
    by_cases hx : x.sock = sock
    · simp [eraseEndpoint, hx]
    · simp [eraseEndpoint, hx, ih]

/-- The sockets of a concatenation. -/
theorem socks_append (l₁ l₂ : List DaemonTCPEndpoint) :
    socks (l₁ ++ l₂) = socks l₁ ++ socks l₂ := by
  simp [socks]

/-- The socket of a record of a list is among the sockets of the list. -/
theorem sock_mem_socks (l : List DaemonTCPEndpoint) (ep : DaemonTCPEndpoint) (h : ep ∈ l) :
    ep.sock ∈ socks l :=
  List.mem_map_of_mem (fun ep => ep.sock) h

/-- The fields that a reading by the accept thread leaves alone. -/
theorem observe_fields (seen : Option (AuthState × Bool)) (ep : DaemonTCPEndpoint) :
    (observe seen ep).sock = ep.sock ∧ (observe seen ep).incoming = ep.incoming ∧
      (observe seen ep).stopped = ep.stopped ∧
      (observe seen ep).m_wasSuddenDisconnect = ep.m_wasSuddenDisconnect := by
  cases seen <;> simp [observe]

/-- What the scavenging loop returns: the kept records are records of the list
up to what their threads changed, in the order of the list; every record of
the list is kept or deleted; and the kept list is no longer than the list. -/
theorem Run_scavenge_result (tTimeout tNow : Nat)
    (w : Nat → SocketFd → Option (AuthState × Bool)) (n : Nat) :
    ∀ (k : Nat) (l : List DaemonTCPEndpoint)
      (r : List DaemonTCPEndpoint × List DaemonTCPEndpoint × List SocketFd),
      Run.scavenge tTimeout tNow w n k l = some r →
      (socks r.1).Sublist (socks l) ∧
        (∀ sock ∈ socks l, sock ∈ socks r.1 ∨ sock ∈ socks r.2.1) ∧
        (∀ ep ∈ r.1, ∃ ep0 ∈ l, ep0.sock = ep.sock ∧ ep0.incoming = ep.incoming ∧
          ep0.stopped = ep.stopped ∧ ep0.m_wasSuddenDisconnect = ep.m_wasSuddenDisconnect) ∧
        r.1.length ≤ l.length := by
  induction n with
  | zero =>
    intro k l r h
    cases l with
    | nil =>
      simp only [Run.scavenge, Option.some.injEq] at h
      subst h
      simp [socks]
    | cons j rest => simp [Run.scavenge] at h
  | succ n ih =>
    intro k l r h
    cases l with
    | nil =>
      simp only [Run.scavenge, Option.some.injEq] at h
      subst h
      simp [socks]
    | cons j rest =>
      obtain ⟨hsock, hinc, hstp, hsud⟩ := observe_fields (w k j.sock) j
      simp only [Run.scavenge] at h
      split_ifs at h with h1 h2
      · rcases hr : Run.scavenge tTimeout tNow w n (k + 1) rest with _ | r0
        · simp [hr] at h
        · simp only [hr, Option.map_some', Option.some.injEq] at h
          subst h
          obtain ⟨i1, i2, i3, i4⟩ := ih (k + 1) rest r0 hr
          refine ⟨?_, ?_, ?_, ?_⟩
          · exact List.Sublist.trans i1 (by simp [socks])
          · intro sock hs
            simp only [socks, List.map_cons, List.mem_cons] at hs
            rcases hs with hs | hs
            · right
              simp [socks, hs, hsock]
            · rcases i2 sock hs with h' | h'
              · exact Or.inl h'
              · right
                simp only [socks, List.map_cons, List.mem_cons]
                exact Or.inr h'
          · intro ep hep
            obtain ⟨ep0, m0, f0⟩ := i3 ep hep
            exact ⟨ep0, List.mem_cons_of_mem j m0, f0⟩
          · simp only [List.length_cons]
            omega
      · rcases hr : Run.scavenge tTimeout tNow w n (k + 1)
            (observe (w k j.sock) j :: rest) with _ | r0
        · simp [hr] at h
        · simp only [hr, Option.map_some', Option.some.injEq] at h
          subst h
          obtain ⟨i1, i2, i3, i4⟩ := ih (k + 1) _ r0 hr
          have hs : socks (observe (w k j.sock) j :: rest) = socks (j :: rest) := by
            simp [socks, hsock]
          refine ⟨?_, ?_, ?_, ?_⟩
          · rw [hs] at i1
            exact i1
          · rw [hs] at i2
            exact i2
          · intro ep hep
            obtain ⟨ep0, m0, f0⟩ := i3 ep hep
            simp only [List.mem_cons] at m0
            rcases m0 with m0 | m0
            · subst m0
              refine ⟨j, List.mem_cons_self j rest, ?_⟩
              rw [← hsock, ← hinc, ← hstp, ← hsud]
              exact f0
            · exact ⟨ep0, List.mem_cons_of_mem j m0, f0⟩
          · simpa using i4
      · rcases hr : Run.scavenge tTimeout tNow w n (k + 1) rest with _ | r0
        · simp [hr] at h
        · simp only [hr, Option.map_some', Option.some.injEq] at h
          subst h
          obtain ⟨i1, i2, i3, i4⟩ := ih (k + 1) rest r0 hr
          refine ⟨?_, ?_, ?_, ?_⟩
          · simp only [socks, List.map_cons, hsock]
            exact List.Sublist.cons₂ _ i1
          · intro sock hs
            simp only [socks, List.map_cons, List.mem_cons] at hs
            rcases hs with hs | hs
            · left
              simp [socks, hs, hsock]
            · rcases i2 sock hs with h' | h'
              · left
                simp only [socks, List.map_cons, List.mem_cons]
                exact Or.inr h'
              · exact Or.inr h'
          · intro ep hep
            simp only [List.mem_cons] at hep
            rcases hep with hep | hep
            · subst hep
              exact ⟨j, List.mem_cons_self j rest, hsock.symm, hinc.symm, hstp.symm, hsud.symm⟩
            · obtain ⟨ep0, m0, f0⟩ := i3 ep hep
              exact ⟨ep0, List.mem_cons_of_mem j m0, f0⟩
          · simp only [List.length_cons]
            omega

/-- Deleting a list of records changes only the deleted records and the open
sockets. -/
theorem foldl_delete_fields (l : List DaemonTCPEndpoint) :
    ∀ t : DaemonTCPTransport,
      (l.foldl (fun (s : DaemonTCPTransport) ep => s.delete ep) t).m_authList = t.m_authList ∧
        (l.foldl (fun (s : DaemonTCPTransport) ep => s.delete ep) t).m_endpointList =
          t.m_endpointList ∧
        (l.foldl (fun (s : DaemonTCPTransport) ep => s.delete ep) t).nextFd = t.nextFd ∧
        (l.foldl (fun (s : DaemonTCPTransport) ep => s.delete ep) t).created = t.created ∧
        (l.foldl (fun (s : DaemonTCPTransport) ep => s.delete ep) t).deleted =
          t.deleted ++ socks l := by
  induction l with
  | nil =>
    intro t
    simp [socks]
  | cons ep rest ih =>
    intro t
    obtain ⟨h1, h2, h3, h4, h5⟩ := ih (t.delete ep)
    simp only [List.foldl_cons]
    refine ⟨h1, h2, h3, h4, ?_⟩
    rw [h5]
    simp [DaemonTCPTransport.delete, socks]

/-- An assertion changes none of the fields of the endpoint lists. -/
theorem assert_fields (t : DaemonTCPTransport) (cond : Bool) :
    (t.assert cond).m_authList = t.m_authList ∧
      (t.assert cond).m_endpointList = t.m_endpointList ∧
      (t.assert cond).nextFd = t.nextFd ∧ (t.assert cond).created = t.created ∧
      (t.assert cond).deleted = t.deleted ∧ (t.assert cond).openSockets = t.openSockets := by
  cases cond <;> simp [DaemonTCPTransport.assert]

/-- An assertion leaves `m_authList` alone. -/
@[simp]
theorem assert_authList (t : DaemonTCPTransport) (cond : Bool) :
    (t.assert cond).m_authList = t.m_authList := (assert_fields t cond).1

/-- An assertion leaves `m_endpointList` alone. -/
@[simp]
theorem assert_endpointList (t : DaemonTCPTransport) (cond : Bool) :
    (t.assert cond).m_endpointList = t.m_endpointList := (assert_fields t cond).2.1

/-- An assertion leaves `nextFd` alone. -/
@[simp]
theorem assert_nextFd (t : DaemonTCPTransport) (cond : Bool) :
    (t.assert cond).nextFd = t.nextFd := (assert_fields t cond).2.2.1

/-- An assertion leaves `created` alone. -/
@[simp]
theorem assert_created (t : DaemonTCPTransport) (cond : Bool) :
    (t.assert cond).created = t.created := (assert_fields t cond).2.2.2.1

/-- An assertion leaves `deleted` alone. -/
@[simp]
theorem assert_deleted (t : DaemonTCPTransport) (cond : Bool) :
    (t.assert cond).deleted = t.deleted := (assert_fields t cond).2.2.2.2.1

/-- An assertion leaves `openSockets` alone. -/
@[simp]
theorem assert_openSockets (t : DaemonTCPTransport) (cond : Bool) :
    (t.assert cond).openSockets = t.openSockets := (assert_fields t cond).2.2.2.2.2

/-- The invariant at a transport without records. -/
theorem ListsInv_init (lim : Limits) (t : DaemonTCPTransport)
    (ha : t.m_authList = []) (he : t.m_endpointList = []) (hc : t.created = []) :
    ListsInv lim t := by
  simp [ListsInv, ha, he, hc, socks]

/-- The invariant after a step of an authentication thread. -/
theorem ListsInv_authStep (lim : Limits) (t : DaemonTCPTransport) (sock : SocketFd)
    (state : AuthState) (running : Bool) (h : ListsInv lim t) :
    ListsInv lim (authStep t sock state running) := by
  obtain ⟨h1, h2, h3, h4, h5⟩ := h
  have hs : socks (authStep t sock state running).m_authList = socks t.m_authList := by
    simp only [authStep, socks, List.map_map]
    apply List.map_congr_left
    intro ep _
    by_cases hep : ep.sock = sock <;> simp [hep]
  have hall : socks ((authStep t sock state running).m_authList ++
      (authStep t sock state running).m_endpointList) =
      socks (t.m_authList ++ t.m_endpointList) := by
    rw [socks_append, socks_append, hs]
    rfl
  refine ⟨?_, ?_, ?_, ?_, ?_⟩
  · rw [hall]
    exact h1
  · rw [hall]
    exact h2
  · rw [hall]
    exact h3
  · simpa [authStep] using h4
  · intro ep hep hst
    simp only [authStep, List.mem_append, List.mem_map] at hep
    rcases hep with ⟨ep0, hm, hf⟩ | hep
    · by_cases h0 : ep0.sock = sock
      · simp only [h0, ↓reduceIte] at hf
        subst hf
        exact h5 ep0 (List.mem_append_left _ hm) hst
      · simp only [h0, ↓reduceIte] at hf
        subst hf
        exact h5 ep0 (List.mem_append_left _ hm) hst
    · exact h5 ep (List.mem_append_right _ hep) hst

/-- What the walk of `Disconnect` returns: the same sockets, and records of the
list or a stopped record. -/
theorem Disconnect_walk_result (ipAddr : IPAddress) (port : Nat) :
    ∀ (l : List DaemonTCPEndpoint) (r : DaemonTCPEndpoint × List DaemonTCPEndpoint),
      Disconnect.walk ipAddr port l = some r →
      socks r.2 = socks l ∧ ∀ ep ∈ r.2, ep ∈ l ∨ ep.stopped = true := by
  intro l
  induction l with
  | nil =>
    intro r h
    simp [Disconnect.walk] at h
  | cons x rest ih =>
    intro r h
    simp only [Disconnect.walk] at h
    split_ifs at h with hx
    · simp only [Option.some.injEq] at h
      subst h
      refine ⟨by simp [socks], ?_⟩
      intro ep hep
      simp only [List.mem_cons] at hep
      rcases hep with hep | hep
      · right
        rw [hep]
      · left
        exact List.mem_cons_of_mem x hep
    · rcases hr : Disconnect.walk ipAddr port rest with _ | r0
      · simp [hr] at h
      · simp only [hr, Option.map_some', Option.some.injEq] at h
        subst h
        obtain ⟨i1, i2⟩ := ih r0 hr
        refine ⟨?_, ?_⟩
        · simp only [socks, List.map_cons] at i1 ⊢
          rw [i1]
        · intro ep hep
          simp only [List.mem_cons] at hep
          rcases hep with hep | hep
          · left
            rw [hep]
            exact List.mem_cons_self x rest
          · rcases i2 ep hep with h' | h'
            · exact Or.inl (List.mem_cons_of_mem x h')
            · exact Or.inr h'

/-- The invariant after `Disconnect`. -/
theorem ListsInv_Disconnect (lim : Limits) (e : Env) (sys : Sys) (t : DaemonTCPTransport)
    (connectSpec : String) (h : ListsInv lim t) :
    ListsInv lim (Disconnect e sys t connectSpec).2 := by
  obtain ⟨a1, a2, a3, a4, a5, _⟩ := assert_fields t t.m_ns.isSome
  have hI : ListsInv lim (t.assert t.m_ns.isSome) := by
    unfold ListsInv
    rw [a1, a2, a3, a4, a5]
    exact h
  unfold Disconnect
  by_cases hg : t.isRunning = false ∨ t.m_stopping = true
  · rw [if_pos hg]
    exact h
  rw [if_neg hg]
  dsimp only
  by_cases hn : (NormalizeTransportSpec e connectSpec "" []).1 ≠ ER_OK
  · rw [if_pos hn]
    exact hI
  · rw [if_neg hn]
    rcases hw : Disconnect.walk
        (e.IPAddress (((NormalizeTransportSpec e connectSpec "" []).2.2.find "addr").getD ""))
        (e.StringToU32 (((NormalizeTransportSpec e connectSpec "" []).2.2.find "port").getD "") %
          65536) (t.assert t.m_ns.isSome).m_endpointList with _ | found
    · exact hI
    · obtain ⟨w1, w2⟩ := Disconnect_walk_result _ _ _ found hw
      obtain ⟨h1, h2, h3, h4, h5⟩ := hI
      have hall : socks ((t.assert t.m_ns.isSome).m_authList ++ found.2) =
          socks ((t.assert t.m_ns.isSome).m_authList ++
            (t.assert t.m_ns.isSome).m_endpointList) := by
        rw [socks_append, socks_append, w1]
      refine ⟨?_, ?_, ?_, ?_, ?_⟩
      · show ∀ sock ∈ socks ((t.assert t.m_ns.isSome).m_authList ++ found.2), _
        rw [hall]
        exact h1
      · show (socks ((t.assert t.m_ns.isSome).m_authList ++ found.2)).Nodup
        rw [hall]
        exact h2
      · show ∀ sock ∈ (t.assert t.m_ns.isSome).created,
          sock ∉ (t.assert t.m_ns.isSome).deleted →
          sock ∈ socks ((t.assert t.m_ns.isSome).m_authList ++ found.2)
        rw [hall]
        exact h3
      · exact h4
      · intro ep hep hst
        have hep2 : ep ∈ (t.assert t.m_ns.isSome).m_authList ++ found.2 := hep
        rcases List.mem_append.mp hep2 with hm | hm
        · exact h5 ep (List.mem_append_left _ hm) hst
        · rcases w2 ep hm with h' | h'
          · exact h5 ep (List.mem_append_right _ h') hst
          · rw [h'] at hst
            exact absurd hst (by decide)

/-- The invariant after `EndpointExit`. -/
theorem ListsInv_EndpointExit (lim : Limits) (t : DaemonTCPTransport) (tep : DaemonTCPEndpoint)
    (h : ListsInv lim t) : ListsInv lim (EndpointExit t tep) := by
  obtain ⟨h1, h2, h3, h4, h5⟩ := h
  have hl : (EndpointExit t tep).m_authList = t.m_authList ∧
      (EndpointExit t tep).m_endpointList = eraseEndpoint t.m_endpointList tep.sock ∧
      (EndpointExit t tep).nextFd = t.nextFd ∧ (EndpointExit t tep).created = t.created ∧
      (EndpointExit t tep).deleted = t.deleted ++ [tep.sock] := by
    unfold EndpointExit DaemonTCPTransport.delete
    dsimp only
    split_ifs <;> simp
  obtain ⟨l1, l2, l3, l4, l5⟩ := hl
  have hsub : (socks (t.m_authList ++ eraseEndpoint t.m_endpointList tep.sock)).Sublist
      (socks (t.m_authList ++ t.m_endpointList)) := by
    rw [socks_append, socks_append, socks_eraseEndpoint]
    exact List.Sublist.append_left (List.erase_sublist _ _) _
  unfold ListsInv
  rw [l1, l2, l3, l4, l5]
  refine ⟨?_, ?_, ?_, h4, ?_⟩
  · intro sock hs
    exact h1 sock (hsub.subset hs)
  · exact h2.sublist hsub
  · intro sock hc hd
    simp only [List.mem_append, List.mem_singleton, not_or] at hd
    have hm := h3 sock hc hd.1
    rw [socks_append] at hm ⊢
    rw [socks_eraseEndpoint]
    rcases List.mem_append.mp hm with hm | hm
    · exact List.mem_append_left _ hm
    · exact List.mem_append_right _ ((List.mem_erase_of_ne hd.2).mpr hm)
  · intro ep hep hst
    rcases List.mem_append.mp hep with hm | hm
    · exact h5 ep (List.mem_append_left _ hm) hst
    · exact h5 ep (List.mem_append_right _ (mem_of_mem_eraseEndpoint _ _ _ hm)) hst

/-- The invariant after `Authenticated` of a record of `m_authList`. -/
theorem ListsInv_Authenticated (lim : Limits) (os : Os) (t : DaemonTCPTransport)
    (conn : DaemonTCPEndpoint) (hconn : conn ∈ t.m_authList) (h : ListsInv lim t) :
    ListsInv lim (Authenticated os t conn) := by
  obtain ⟨h1, h2, h3, h4, h5⟩ := h
  have hid : conn.sock ∈ socks t.m_authList := sock_mem_socks _ _ hconn
  have hnd : (socks t.m_authList).Nodup := by
    rw [socks_append] at h2
    exact (List.nodup_append.mp h2).1
  have hnot : conn.sock ∉ (socks t.m_authList).erase conn.sock := fun hm =>
    ((List.Nodup.mem_erase_iff hnd).mp hm).1 rfl
  have hfields : ∃ auth : List DaemonTCPEndpoint, ∃ del : List SocketFd,
      (Authenticated os t conn).m_authList = auth ∧
      socks auth = (socks t.m_authList).erase conn.sock ∧
      (∀ ep ∈ auth, ep ∈ t.m_authList) ∧ auth.length ≤ t.m_authList.length ∧
      (Authenticated os t conn).m_endpointList =
        t.m_endpointList ++ [{ conn with hasListener := true }] ∧
      (Authenticated os t conn).nextFd = t.nextFd ∧
      (Authenticated os t conn).created = t.created ∧
      (Authenticated os t conn).deleted = t.deleted ++ del := by
    by_cases hs : os.Start conn.sock ≠ ER_OK
    · refine ⟨eraseEndpoint (eraseEndpoint t.m_authList conn.sock) conn.sock, [conn.sock],
        ?_, ?_, ?_, ?_, ?_, ?_, ?_, ?_⟩
      · simp [Authenticated, hs, DaemonTCPTransport.delete]
      · rw [socks_eraseEndpoint, socks_eraseEndpoint, List.erase_of_not_mem hnot]
      · intro ep hep
        exact mem_of_mem_eraseEndpoint _ _ _ (mem_of_mem_eraseEndpoint _ _ _ hep)
      · exact le_trans (length_eraseEndpoint_le _ _) (length_eraseEndpoint_le _ _)
      · simp [Authenticated, hs, DaemonTCPTransport.delete]
      · simp [Authenticated, hs, DaemonTCPTransport.delete]
      · simp [Authenticated, hs, DaemonTCPTransport.delete]
      · simp [Authenticated, hs, DaemonTCPTransport.delete]
    · refine ⟨eraseEndpoint t.m_authList conn.sock, [], ?_, ?_, ?_, ?_, ?_, ?_, ?_, ?_⟩
      · simp [Authenticated, hs]
      · rw [socks_eraseEndpoint]
      · intro ep hep
        exact mem_of_mem_eraseEndpoint _ _ _ hep
      · exact length_eraseEndpoint_le _ _
      · simp [Authenticated, hs]
      · simp [Authenticated, hs]
      · simp [Authenticated, hs]
      · simp [Authenticated, hs]
  obtain ⟨auth, del, f1, f2, f3, f4, f5, f6, f7, f8⟩ := hfields
  have hperm : List.Perm
      (socks (auth ++ (t.m_endpointList ++ [{ conn with hasListener := true }])))
      (socks (t.m_authList ++ t.m_endpointList)) := by
    rw [socks_append, socks_append, socks_append, f2]
    have p1 : List.Perm ((socks t.m_authList).erase conn.sock ++
        (socks t.m_endpointList ++ socks [{ conn with hasListener := true }]))
        ((socks t.m_authList).erase conn.sock ++ (conn.sock :: socks t.m_endpointList)) :=
      List.Perm.append_left _ (by
        have : socks [{ conn with hasListener := true }] = [conn.sock] := rfl
        rw [this]
        exact List.perm_append_singleton _ _)
    have p2 : List.Perm
        ((socks t.m_authList).erase conn.sock ++ (conn.sock :: socks t.m_endpointList))
        (conn.sock :: ((socks t.m_authList).erase conn.sock ++ socks t.m_endpointList)) :=
      List.perm_middle
    have p3 : List.Perm
        (conn.sock :: ((socks t.m_authList).erase conn.sock ++ socks t.m_endpointList))
        (socks t.m_authList ++ socks t.m_endpointList) :=
      List.Perm.append_right _ (List.perm_cons_erase hid).symm
    exact (p1.trans p2).trans p3
  unfold ListsInv
  rw [f1, f5, f6, f7, f8]
  refine ⟨?_, ?_, ?_, le_trans f4 h4, ?_⟩
  · intro sock hs
    exact h1 sock (hperm.subset hs)
  · exact hperm.nodup_iff.mpr h2
  · intro sock hc hd
    simp only [List.mem_append, not_or] at hd
    exact hperm.symm.subset (h3 sock hc hd.1)
  · intro ep hep hst
    rcases List.mem_append.mp hep with hm | hm
    · exact h5 ep (List.mem_append_left _ (f3 ep hm)) hst
    · rcases List.mem_append.mp hm with hm | hm
      · exact h5 ep (List.mem_append_right _ hm) hst
      · simp only [List.mem_singleton] at hm
        subst hm
        exact h5 conn (List.mem_append_left _ hconn) hst

/-- The invariant is kept when the next descriptor does not decrease and a
record that is made and destroyed on the way never shows on a list. -/
theorem ListsInv_same_lists (lim : Limits) (t s : DaemonTCPTransport) (extra : List SocketFd)
    (h : ListsInv lim t) (ha : s.m_authList = t.m_authList)
    (he : s.m_endpointList = t.m_endpointList) (hfd : t.nextFd ≤ s.nextFd)
    (hc : s.created = t.created ++ extra) (hd : s.deleted = t.deleted ++ extra) :
    ListsInv lim s := by
  obtain ⟨h1, h2, h3, h4, h5⟩ := h
  unfold ListsInv
  rw [ha, he, hc, hd]
  refine ⟨?_, h2, ?_, h4, h5⟩
  · intro sock hs
    exact lt_of_lt_of_le (h1 sock hs) hfd
  · intro sock hcr hdel
    simp only [List.mem_append, not_or] at hcr hdel
    rcases hcr with hcr | hcr
    · exact h3 sock hcr hdel.1
    · exact absurd hcr hdel.2

/-- The invariant is kept when a record with the next descriptor as its socket
is put at the end of `m_endpointList`. -/
theorem ListsInv_push_back (lim : Limits) (t s : DaemonTCPTransport) (conn : DaemonTCPEndpoint)
    (h : ListsInv lim t) (hsock : conn.sock = t.nextFd)
    (hflag : conn.stopped = false → conn.m_wasSuddenDisconnect = !conn.incoming)
    (ha : s.m_authList = t.m_authList)
    (he : s.m_endpointList = t.m_endpointList ++ [conn]) (hfd : s.nextFd = t.nextFd + 1)
    (hc : s.created = t.created ++ [t.nextFd]) (hd : s.deleted = t.deleted) :
    ListsInv lim s := by
  obtain ⟨h1, h2, h3, h4, h5⟩ := h
  have hall : socks (t.m_authList ++ (t.m_endpointList ++ [conn])) =
      socks (t.m_authList ++ t.m_endpointList) ++ [t.nextFd] := by
    simp [socks, hsock]
  unfold ListsInv
  rw [ha, he, hc, hd, hfd, hall]
  refine ⟨?_, ?_, ?_, h4, ?_⟩
  · intro sock hs
    simp only [List.mem_append, List.mem_singleton] at hs
    rcases hs with hs | hs
    · exact Int.lt_add_one_iff.mpr (le_of_lt (h1 sock hs))
    · rw [hs]
      exact Int.lt_add_one_iff.mpr (le_refl _)
  · refine List.Nodup.append h2 (List.nodup_singleton _) ?_
    intro sock hs hn
    simp only [List.mem_singleton] at hn
    subst hn
    exact lt_irrefl _ (h1 _ hs)
  · intro sock hcr hdel
    simp only [List.mem_append, List.mem_singleton] at hcr ⊢
    rcases hcr with hcr | hcr
    · exact Or.inl (h3 sock hcr hdel)
    · exact Or.inr hcr
  · intro ep hep hst
    rw [← List.append_assoc] at hep
    rcases List.mem_append.mp hep with hm | hm
    · exact h5 ep hm hst
    · simp only [List.mem_singleton] at hm
      subst hm
      exact hflag hst

/-- Erasing the record just put at the end of a list that did not hold it. -/
theorem erase_append_self (l : List DaemonTCPEndpoint) (conn : DaemonTCPEndpoint)
    (h : conn ∉ l) : (l ++ [conn]).erase conn = l := by
  rw [List.erase_append_right _ h]
  simp

/-- The invariant after the second half of `Connect`. -/
theorem ListsInv_bringUp (lim : Limits) (os : Os) (t : DaemonTCPTransport) (normSpec : String)
    (ipAddr : IPAddress) (port : Nat) (family : AddressFamily) (h : ListsInv lim t) :
    ListsInv lim (Connect.bringUp os t normSpec ipAddr port family).2.2 := by
  have hnot : ∀ conn : DaemonTCPEndpoint, conn.sock = t.nextFd → conn ∉ t.m_endpointList := by
    intro conn hs hm
    have hlt := h.1 conn.sock (sock_mem_socks _ _ (List.mem_append_right _ hm))
    rw [hs] at hlt
    exact lt_irrefl _ hlt
  have herase : ∀ conn : DaemonTCPEndpoint, conn.sock = t.nextFd →
      (t.m_endpointList ++ [conn]).erase conn = t.m_endpointList :=
    fun conn hs => erase_append_self _ _ (hnot conn hs)
  by_cases hcr : os.Socket family t.nextFd = ER_OK
  · by_cases hna : os.SetNagle t.nextFd = ER_OK
    · by_cases hco : os.Connect t.nextFd ipAddr port = ER_OK
      · by_cases hse : os.Send t.nextFd = ER_OK
        · by_cases hes : os.Establish t.nextFd = ER_OK
          · by_cases hst : os.Start t.nextFd = ER_OK
            · refine ListsInv_push_back lim t _
                { incoming := false, connectSpec := normSpec, sock := t.nextFd, m_ipAddr := ipAddr,
                  m_port := port, m_wasSuddenDisconnect := true, isBusToBus := true,
                  hasListener := true } h rfl (fun _ => rfl) ?_ ?_ ?_ ?_ ?_ <;>
                simp [Connect.bringUp, hcr, hna, hco, hse, hes, hst]
            · refine ListsInv_same_lists lim t _ [t.nextFd] h ?_ ?_ ?_ ?_ ?_ <;>
                simp [Connect.bringUp, hcr, hna, hco, hse, hes, hst, DaemonTCPTransport.Close,
                  DaemonTCPTransport.delete, herase] <;>
                split_ifs <;> simp
          · refine ListsInv_same_lists lim t _ [t.nextFd] h ?_ ?_ ?_ ?_ ?_ <;>
              simp [Connect.bringUp, hcr, hna, hco, hse, hes, DaemonTCPTransport.Close,
                DaemonTCPTransport.delete, herase] <;>
              split_ifs <;> simp
        · refine ListsInv_same_lists lim t _ [] h ?_ ?_ ?_ ?_ ?_ <;>
            simp [Connect.bringUp, hcr, hna, hco, hse, DaemonTCPTransport.Close] <;>
            split_ifs <;> simp
      · refine ListsInv_same_lists lim t _ [] h ?_ ?_ ?_ ?_ ?_ <;>
          simp [Connect.bringUp, hcr, hna, hco, DaemonTCPTransport.Close] <;>
          split_ifs <;> simp
    · refine ListsInv_same_lists lim t _ [] h ?_ ?_ ?_ ?_ ?_ <;>
        simp [Connect.bringUp, hcr, hna, DaemonTCPTransport.Close] <;>
        split_ifs <;> simp
  · refine ListsInv_same_lists lim t _ [] h ?_ ?_ ?_ ?_ ?_ <;>
      simp [Connect.bringUp, hcr, DaemonTCPTransport.Close]

/-- The invariant after `Connect`. -/
theorem ListsInv_Connect (lim : Limits) (e : Env) (os : Os) (t : DaemonTCPTransport)
    (connectSpec : String) (h : ListsInv lim t) :
    ListsInv lim (Connect e os t connectSpec).2.2 := by
  have hI : ListsInv lim (t.assert t.m_ns.isSome) :=
    ListsInv_same_lists lim t _ [] h (by simp) (by simp) (by simp) (by simp) (by simp)
  unfold Connect
  by_cases hg : t.isRunning = false ∨ t.m_stopping = true
  · rw [if_pos hg]
    exact h
  rw [if_neg hg]
  dsimp only
  by_cases hn : (NormalizeTransportSpec e connectSpec "" []).1 ≠ ER_OK
  · rw [if_pos hn]
    exact hI
  rw [if_neg hn]
  split_ifs with ha
  · exact hI
  · split
    · exact hI
    · split_ifs
      · exact hI
      · exact ListsInv_bringUp lim os _ _ _ _ _ hI

/-- What the scavenging loop leaves of the transport. -/
theorem scavengeAuthList_fields (lim : Limits) (w : Nat → SocketFd → Option (AuthState × Bool))
    (fuel tNow : Nat) (t s : DaemonTCPTransport)
    (h : Run.scavengeAuthList lim w fuel tNow t = some s) :
    ∃ r, Run.scavenge lim.tTimeout tNow w fuel 0 t.m_authList = some r ∧
      s.m_authList = r.1 ∧ s.m_endpointList = t.m_endpointList ∧ s.nextFd = t.nextFd ∧
      s.created = t.created ∧ s.deleted = t.deleted ++ socks r.2.1 := by
  unfold Run.scavengeAuthList at h
  rcases hr : Run.scavenge lim.tTimeout tNow w fuel 0 t.m_authList with _ | r
  · simp [hr] at h
  · simp only [hr, Option.map_some', Option.some.injEq] at h
    obtain ⟨d1, d2, d3, d4, d5⟩ := foldl_delete_fields r.2.1
      { t with m_authList := r.1, aborted := t.aborted ++ r.2.2 }
    rw [h] at d1 d2 d3 d4 d5
    exact ⟨r, rfl, d1, d2, d3, d4, d5⟩

/-- The invariant after the handling of an accepted connection. -/
theorem ListsInv_accepted (lim : Limits) (sys : Sys)
    (w : Nat → SocketFd → Option (AuthState × Bool)) (fuel tNow tStart : Nat)
    (t s : DaemonTCPTransport) (remoteAddr : IPAddress) (remotePort : Nat)
    (h : ListsInv lim t)
    (hs : Run.accepted lim sys w fuel tNow tStart t remoteAddr remotePort = some s) :
    ListsInv lim s := by
  obtain ⟨h1, h2, h3, h4, h5⟩ := h
  unfold Run.accepted at hs
  dsimp only at hs
  generalize ht1 : DaemonTCPTransport.assert
    { t with openSockets := t.openSockets ++ [t.nextFd], nextFd := t.nextFd + 1 } _ = t1 at hs
  have a1 : t1.m_authList = t.m_authList := by rw [← ht1]; simp
  have a2 : t1.m_endpointList = t.m_endpointList := by rw [← ht1]; simp
  have a3 : t1.nextFd = t.nextFd + 1 := by rw [← ht1]; simp
  have a4 : t1.created = t.created := by rw [← ht1]; simp
  have a5 : t1.deleted = t.deleted := by rw [← ht1]; simp
  rcases hs0 : Run.scavengeAuthList lim w fuel tNow t1 with _ | s0
  · simp [hs0] at hs
  simp only [hs0, Option.map_some', Option.some.injEq] at hs
  obtain ⟨r, hr, d1, d2, d3, d4, d5⟩ := scavengeAuthList_fields lim w fuel tNow t1 s0 hs0
  rw [a1] at hr
  rw [a2] at d2
  rw [a3] at d3
  rw [a4] at d4
  rw [a5] at d5
  obtain ⟨r1, r2, r3, r4⟩ := Run_scavenge_result lim.tTimeout tNow w fuel 0 t.m_authList r hr
  have hsub : (socks (r.1 ++ t.m_endpointList)).Sublist
      (socks (t.m_authList ++ t.m_endpointList)) := by
    rw [socks_append, socks_append]
    exact List.Sublist.append_right r1 _
  have hold : ∀ sock ∈ socks (r.1 ++ t.m_endpointList), sock < t.nextFd :=
    fun sock hm => h1 sock (hsub.subset hm)
  have hnd : (socks (r.1 ++ t.m_endpointList)).Nodup := h2.sublist hsub
  have hcov : ∀ sock ∈ t.created, sock ∉ t.deleted ++ socks r.2.1 →
      sock ∈ socks (r.1 ++ t.m_endpointList) := by
    intro sock hc hd
    simp only [List.mem_append, not_or] at hd
    have hm := h3 sock hc hd.1
    rw [socks_append] at hm ⊢
    rcases List.mem_append.mp hm with hm | hm
    · rcases r2 sock hm with h' | h'
      · exact List.mem_append_left _ h'
      · exact absurd h' hd.2
    · exact List.mem_append_right _ hm
  have hflags : ∀ ep ∈ r.1 ++ t.m_endpointList, ep.stopped = false →
      ep.m_wasSuddenDisconnect = !ep.incoming := by
    intro ep hep hst
    rcases List.mem_append.mp hep with hm | hm
    · obtain ⟨ep0, m0, f1, f2, f3, f4⟩ := r3 ep hm
      rw [← f4, ← f2]
      exact h5 ep0 (List.mem_append_left _ m0) (by rw [f3]; exact hst)
    · exact h5 ep (List.mem_append_right _ hm) hst
  have hlen : r.1.length ≤ lim.maxAuth := le_trans r4 h4
  subst hs
  by_cases hc : r.1.length < lim.maxAuth ∧
      r.1.length + t.m_endpointList.length < lim.maxConn
  · by_cases ha : sys.AuthStart t.nextFd = ER_OK
    · have e1 : (Run.newConnection lim sys tStart s0 t.nextFd remoteAddr remotePort).m_authList =
          { incoming := true, connectSpec := "", sock := t.nextFd, m_ipAddr := remoteAddr,
            m_port := remotePort, m_wasSuddenDisconnect := false, m_tStart := tStart,
            authThreadRunning := true } :: r.1 := by
        simp [Run.newConnection, d1, d2, hc, ha]
      have e2 : (Run.newConnection lim sys tStart s0 t.nextFd remoteAddr remotePort).m_endpointList =
          t.m_endpointList := by
        simp [Run.newConnection, d1, d2, hc, ha]
      have e3 : (Run.newConnection lim sys tStart s0 t.nextFd remoteAddr remotePort).nextFd =
          t.nextFd + 1 := by
        simp [Run.newConnection, d1, d2, d3, hc, ha]
      have e4 : (Run.newConnection lim sys tStart s0 t.nextFd remoteAddr remotePort).created =
          t.created ++ [t.nextFd] := by
        simp [Run.newConnection, d1, d2, d4, hc, ha]
      have e5 : (Run.newConnection lim sys tStart s0 t.nextFd remoteAddr remotePort).deleted =
          t.deleted ++ socks r.2.1 := by
        simp [Run.newConnection, d1, d2, d5, hc, ha]
      unfold ListsInv
      rw [e1, e2, e3, e4, e5]
      have hall : ∀ ep : DaemonTCPEndpoint, socks (ep :: r.1 ++ t.m_endpointList) =
          ep.sock :: socks (r.1 ++ t.m_endpointList) := fun ep => by simp [socks]
      rw [hall]
      refine ⟨?_, ?_, ?_, ?_, ?_⟩
      · intro sock hm
        simp only [List.mem_cons] at hm
        rcases hm with hm | hm
        · rw [hm]
          exact Int.lt_add_one_iff.mpr (le_refl _)
        · exact Int.lt_add_one_iff.mpr (le_of_lt (hold sock hm))
      · refine List.nodup_cons.mpr ⟨?_, hnd⟩
        intro hm
        exact lt_irrefl _ (hold _ hm)
      · intro sock hcr hdel
        simp only [List.mem_append, List.mem_singleton] at hcr
        simp only [List.mem_cons]
        rcases hcr with hcr | hcr
        · exact Or.inr (hcov sock hcr hdel)
        · exact Or.inl hcr
      · simp only [List.length_cons]
        omega
      · intro ep hep hst
        simp only [List.cons_append, List.mem_cons] at hep
        rcases hep with hep | hep
        · subst hep
          rfl
        · exact hflags ep hep hst
    · refine ListsInv_same_lists lim
        { t with m_authList := r.1, nextFd := t.nextFd + 1,
                 deleted := t.deleted ++ socks r.2.1 } _ [t.nextFd]
        ⟨?_, hnd, hcov, hlen, hflags⟩ ?_ ?_ ?_ ?_ ?_
      · intro sock hm
        exact Int.lt_add_one_iff.mpr (le_of_lt (hold sock hm))
      · simp [Run.newConnection, d1, d2, hc, ha, DaemonTCPTransport.delete]
      · simp [Run.newConnection, d1, d2, hc, ha, DaemonTCPTransport.delete]
      · simp [Run.newConnection, d1, d2, d3, hc, ha, DaemonTCPTransport.delete]
      · simp [Run.newConnection, d1, d2, d4, hc, ha, DaemonTCPTransport.delete]
      · simp [Run.newConnection, d1, d2, d5, hc, ha, DaemonTCPTransport.delete]
  · refine ListsInv_same_lists lim
      { t with m_authList := r.1, nextFd := t.nextFd + 1,
               deleted := t.deleted ++ socks r.2.1 } _ []
      ⟨?_, hnd, hcov, hlen, hflags⟩ ?_ ?_ ?_ ?_ ?_
    · intro sock hm
      exact Int.lt_add_one_iff.mpr (le_of_lt (hold sock hm))
    · simp [Run.newConnection, d1, d2, hc, DaemonTCPTransport.Close]
    · simp [Run.newConnection, d1, d2, hc, DaemonTCPTransport.Close]
    · simp [Run.newConnection, d1, d2, d3, hc, DaemonTCPTransport.Close]
    · simp [Run.newConnection, d1, d2, d4, hc, DaemonTCPTransport.Close]
    · simp [Run.newConnection, d1, d2, d5, hc, DaemonTCPTransport.Close]

/-- The invariant holds in every reachable state. -/
theorem Reachable_ListsInv (e : Env) (os : Os) (sys : Sys) (lim : Limits)
    (t : DaemonTCPTransport) (h : Reachable e os sys lim t) : ListsInv lim t := by
  induction h with
  | init t ha he hc _ => exact ListsInv_init lim t ha he hc
  | accepted t s w fuel tNow tStart remoteAddr remotePort _ hs ih =>
    exact ListsInv_accepted lim sys w fuel tNow tStart t s remoteAddr remotePort ih hs
  | authStep t sock state running _ ih => exact ListsInv_authStep lim t sock state running ih
  | authenticated t conn _ hconn ih => exact ListsInv_Authenticated lim os t conn hconn ih
  | connect t connectSpec _ ih => exact ListsInv_Connect lim e os t connectSpec ih
  | disconnect t connectSpec _ ih => exact ListsInv_Disconnect lim e sys t connectSpec ih
  | endpointExit t tep _ _ ih => exact ListsInv_EndpointExit lim t tep ih

/-! ## Theorems: the history of a transport -/

/-- A step that keeps the lists keeps their invariant. -/
theorem ListsInv_Frame (lim : Limits) (t s : DaemonTCPTransport) (h : ListsInv lim t)
    (hf : Frame t s) : ListsInv lim s :=
  ListsInv_same_lists lim t s [] h hf.1 hf.2.1 hf.2.2.1 (by rw [hf.2.2.2.1]; simp)
    (by rw [hf.2.2.2.2]; simp)

/-- A step that keeps the lists keeps the flags of their records. -/
theorem FlagInv_Frame (d : List SocketFd) (t s : DaemonTCPTransport) (h : FlagInv d t)
    (hf : Frame t s) : FlagInv d s := by
  unfold FlagInv
  rw [hf.1, hf.2.1]
  exact h

/-- No step at all keeps the lists. -/
theorem Frame_refl (t : DaemonTCPTransport) : Frame t t :=
  ⟨rfl, rfl, le_refl _, rfl, rfl⟩

/-- Two steps that keep the lists, one after the other. -/
theorem Frame_trans (t s u : DaemonTCPTransport) (h1 : Frame t s) (h2 : Frame s u) :
    Frame t u :=
  ⟨h2.1.trans h1.1, h2.2.1.trans h1.2.1, le_trans h1.2.2.1 h2.2.2.1,
    h2.2.2.2.1.trans h1.2.2.2.1, h2.2.2.2.2.trans h1.2.2.2.2⟩

/-- An assertion keeps the lists. -/
theorem Frame_assert (t : DaemonTCPTransport) (cond : Bool) : Frame t (t.assert cond) := by
  unfold Frame
  simp

/-- The method `Start` keeps the lists. -/
theorem Frame_Start (sys : Sys) (t : DaemonTCPTransport) : Frame t (Start sys t).2 := by
  unfold Frame Start
  split_ifs <;> simp

/-- The method `Join` keeps the lists. -/
theorem Frame_Join (sys : Sys) (t s : DaemonTCPTransport) (status : QStatus)
    (h : Join sys t = some (status, s)) : Frame t s := by
  unfold Join at h
  dsimp only at h
  split_ifs at h <;> simp only [Option.some.injEq, Prod.mk.injEq] at h <;>
    obtain ⟨_, rfl⟩ := h <;> unfold Frame <;> simp [Run.cleanup]

/-- The method `StartListen` keeps the lists. -/
theorem Frame_StartListen (e : Env) (t : DaemonTCPTransport) (listenSpec : String) :
    Frame t (StartListen e t listenSpec).2 := by
  unfold Frame StartListen QueueStartListen
  dsimp only
  split_ifs <;> simp

/-- The method `StopListen` keeps the lists. -/
theorem Frame_StopListen (e : Env) (t : DaemonTCPTransport) (listenSpec : String) :
    Frame t (StopListen e t listenSpec).2 := by
  unfold Frame StopListen QueueStopListen
  dsimp only
  split_ifs <;> simp

/-- The method `DoStartListen` keeps the lists. -/
theorem Frame_DoStartListen (e : Env) (os : Os) (t : DaemonTCPTransport) (normSpec : String) :
    Frame t (DoStartListen e os t normSpec) := by
  unfold Frame DoStartListen DaemonTCPTransport.Close
  dsimp only
  split_ifs <;> simp

/-- The method `DoStopListen` keeps the lists. -/
theorem Frame_DoStopListen (t : DaemonTCPTransport) (normSpec : String) :
    Frame t (DoStopListen t normSpec) := by
  unfold DoStopListen
  dsimp only
  rcases h : DoStopListen.remove normSpec (t.assert t.m_ns.isSome).m_listenFds with
    ⟨_ | fd, rest⟩
  · exact Frame_assert t _
  · unfold Frame DaemonTCPTransport.Close
    simp

/-- The listen requests enacted by the accept thread keep the lists. -/
theorem Frame_listenRequests (e : Env) (os : Os) (n : Nat) :
    ∀ t : DaemonTCPTransport, Frame t (Run.listenRequests e os n t) := by
  induction n with
  | zero =>
    intro t
    exact Frame_refl t
  | succ n ih =>
    intro t
    unfold Run.listenRequests
    rcases hq : t.m_listenRequests with _ | ⟨listenRequest, rest⟩
    · exact Frame_refl t
    · have h0 : Frame t { t with m_listenRequests := rest } := ⟨rfl, rfl, le_refl _, rfl, rfl⟩
      cases hop : listenRequest.m_request with
      | START_LISTEN =>
        simp only [hop]
        exact Frame_trans _ _ _ (Frame_trans _ _ _ h0 (Frame_DoStartListen e os _ _)) (ih _)
      | STOP_LISTEN =>
        simp only [hop]
        exact Frame_trans _ _ _ (Frame_trans _ _ _ h0 (Frame_DoStopListen _ _)) (ih _)

/-- The flags are kept by a step every record of which comes from a record
with the same socket, direction and flag, or is new, or is one for which
`Disconnect` was called. -/
theorem FlagInv_of_origin (d d2 : List SocketFd) (t s : DaemonTCPTransport) (h : FlagInv d t)
    (hsub : ∀ x ∈ d, x ∈ d2)
    (ho : ∀ ep ∈ s.m_authList ++ s.m_endpointList,
      (∃ ep0 ∈ t.m_authList ++ t.m_endpointList, ep0.sock = ep.sock ∧
        ep0.incoming = ep.incoming ∧
        ep0.m_wasSuddenDisconnect = ep.m_wasSuddenDisconnect) ∨
      ep.m_wasSuddenDisconnect = (!ep.incoming) ∨ ep.sock ∈ d2) : FlagInv d2 s := by
  intro ep hep hnd
  rcases ho ep hep with ⟨ep0, hm, a, b, c⟩ | hf | hin
  · rw [← c, ← b]
    exact h ep0 hm (fun hx => hnd (hsub _ (a ▸ hx)))
  · exact hf
  · exact absurd hin hnd

/-- A record of the lists is its own origin. -/
theorem origin_self (t : DaemonTCPTransport) (d2 : List SocketFd) (ep : DaemonTCPEndpoint)
    (h : ep ∈ t.m_authList ++ t.m_endpointList) :
    (∃ ep0 ∈ t.m_authList ++ t.m_endpointList, ep0.sock = ep.sock ∧
        ep0.incoming = ep.incoming ∧
        ep0.m_wasSuddenDisconnect = ep.m_wasSuddenDisconnect) ∨
      ep.m_wasSuddenDisconnect = (!ep.incoming) ∨ ep.sock ∈ d2 :=
  Or.inl ⟨ep, h, rfl, rfl, rfl⟩

/-- The flags after a step of an authentication thread. -/
theorem FlagInv_authStep (d : List SocketFd) (t : DaemonTCPTransport) (sock : SocketFd)
    (state : AuthState) (running : Bool) (h : FlagInv d t) :
    FlagInv d (authStep t sock state running) := by
  intro ep hep hnd
  simp only [authStep, List.mem_append, List.mem_map] at hep
  rcases hep with ⟨ep0, hm, hf⟩ | hep
  · by_cases h0 : ep0.sock = sock
    · rw [if_pos h0] at hf
      subst hf
      exact h ep0 (List.mem_append_left _ hm) hnd
    · rw [if_neg h0] at hf
      subst hf
      exact h ep0 (List.mem_append_left _ hm) hnd
  · exact h ep (List.mem_append_right _ hep) hnd

/-- The flags after `EndpointExit`. -/
theorem FlagInv_EndpointExit (d : List SocketFd) (t : DaemonTCPTransport)
    (tep : DaemonTCPEndpoint) (h : FlagInv d t) : FlagInv d (EndpointExit t tep) := by
  have hl : (EndpointExit t tep).m_authList = t.m_authList ∧
      (EndpointExit t tep).m_endpointList = eraseEndpoint t.m_endpointList tep.sock := by
    unfold EndpointExit DaemonTCPTransport.delete
    dsimp only
    split_ifs <;> simp
  unfold FlagInv
  rw [hl.1, hl.2]
  intro ep hep hnd
  rcases List.mem_append.mp hep with hm | hm
  · exact h ep (List.mem_append_left _ hm) hnd
  · exact h ep (List.mem_append_right _ (mem_of_mem_eraseEndpoint _ _ _ hm)) hnd

/-- The flags after `Authenticated` of a record of `m_authList`. -/
theorem FlagInv_Authenticated (d : List SocketFd) (os : Os) (t : DaemonTCPTransport)
    (conn : DaemonTCPEndpoint) (hconn : conn ∈ t.m_authList) (h : FlagInv d t) :
    FlagInv d (Authenticated os t conn) := by
  have hfields : ∃ auth : List DaemonTCPEndpoint,
      (Authenticated os t conn).m_authList = auth ∧ (∀ ep ∈ auth, ep ∈ t.m_authList) ∧
      (Authenticated os t conn).m_endpointList =
        t.m_endpointList ++ [{ conn with hasListener := true }] := by
    by_cases hs : os.Start conn.sock ≠ ER_OK
    · refine ⟨eraseEndpoint (eraseEndpoint t.m_authList conn.sock) conn.sock, ?_, ?_, ?_⟩
      · simp [Authenticated, hs, DaemonTCPTransport.delete]
      · intro ep hep
        exact mem_of_mem_eraseEndpoint _ _ _ (mem_of_mem_eraseEndpoint _ _ _ hep)
      · simp [Authenticated, hs, DaemonTCPTransport.delete]
    · refine ⟨eraseEndpoint t.m_authList conn.sock, ?_, ?_, ?_⟩
      · simp [Authenticated, hs]
      · intro ep hep
        exact mem_of_mem_eraseEndpoint _ _ _ hep
      · simp [Authenticated, hs]
  obtain ⟨auth, f1, f3, f5⟩ := hfields
  unfold FlagInv
  rw [f1, f5]
  intro ep hep hnd
  rcases List.mem_append.mp hep with hm | hm
  · exact h ep (List.mem_append_left _ (f3 ep hm)) hnd
  · rcases List.mem_append.mp hm with hm | hm
    · exact h ep (List.mem_append_right _ hm) hnd
    · simp only [List.mem_singleton] at hm
      subst hm
      exact h conn (List.mem_append_left _ hconn) hnd

/-- The invariant of the lists after `Stop`. -/
theorem ListsInv_Stop (lim : Limits) (sys : Sys) (t : DaemonTCPTransport) (h : ListsInv lim t) :
    ListsInv lim (Stop sys t).2 := by
  by_cases hts : sys.ThreadStop ≠ ER_OK
  · refine ListsInv_Frame lim t _ h ?_
    unfold Frame
    simp [Stop, hts]
  · obtain ⟨h1, h2, h3, h4, h5⟩ := h
    have hl : (Stop sys t).2.m_authList = t.m_authList ∧
        (Stop sys t).2.m_endpointList =
          t.m_endpointList.map (fun (ep : DaemonTCPEndpoint) => { ep with stopped := true }) ∧
        (Stop sys t).2.nextFd = t.nextFd ∧ (Stop sys t).2.created = t.created ∧
        (Stop sys t).2.deleted = t.deleted := by
      simp [Stop, hts]
    obtain ⟨l1, l2, l3, l4, l5⟩ := hl
    have hsocks : socks (t.m_authList ++
        t.m_endpointList.map (fun (ep : DaemonTCPEndpoint) => { ep with stopped := true })) =
        socks (t.m_authList ++ t.m_endpointList) := by
      simp [socks, Function.comp_def]
    unfold ListsInv
    rw [l1, l2, l3, l4, l5, hsocks]
    refine ⟨h1, h2, h3, h4, ?_⟩
    intro ep hep hst
    rcases List.mem_append.mp hep with hm | hm
    · exact h5 ep (List.mem_append_left _ hm) hst
    · obtain ⟨ep0, _, hf⟩ := List.mem_map.mp hm
      subst hf
      cases hst

/-- The flags after `Stop`. -/
theorem FlagInv_Stop (d : List SocketFd) (sys : Sys) (t : DaemonTCPTransport)
    (h : FlagInv d t) : FlagInv d (Stop sys t).2 := by
  by_cases hts : sys.ThreadStop ≠ ER_OK
  · refine FlagInv_Frame d t _ h ?_
    unfold Frame
    simp [Stop, hts]
  · have hl : (Stop sys t).2.m_authList = t.m_authList ∧
        (Stop sys t).2.m_endpointList =
          t.m_endpointList.map (fun (ep : DaemonTCPEndpoint) => { ep with stopped := true }) := by
      simp [Stop, hts]
    unfold FlagInv
    rw [hl.1, hl.2]
    intro ep hep hnd
    rcases List.mem_append.mp hep with hm | hm
    · exact h ep (List.mem_append_left _ hm) hnd
    · obtain ⟨ep0, hm0, hf⟩ := List.mem_map.mp hm
      subst hf
      exact h ep0 (List.mem_append_right _ hm0) hnd

/-- What the walk of `Disconnect` returns: records of the list, or a record
with the socket of the record found. -/
theorem Disconnect_walk_origin (ipAddr : IPAddress) (port : Nat) :
    ∀ (l : List DaemonTCPEndpoint) (r : DaemonTCPEndpoint × List DaemonTCPEndpoint),
      Disconnect.walk ipAddr port l = some r → ∀ ep ∈ r.2, ep ∈ l ∨ ep.sock = r.1.sock := by
  intro l
  induction l with
  | nil =>
    intro r h
    simp [Disconnect.walk] at h
  | cons x rest ih =>
    intro r h
    simp only [Disconnect.walk] at h
    split_ifs at h with hx
    · simp only [Option.some.injEq] at h
      subst h
      intro ep hep
      simp only [List.mem_cons] at hep
      rcases hep with hep | hep
      · right
        rw [hep]
      · left
        exact List.mem_cons_of_mem x hep
    · rcases hr : Disconnect.walk ipAddr port rest with _ | r0
      · simp [hr] at h
      · simp only [hr, Option.map_some', Option.some.injEq] at h
        subst h
        intro ep hep
        simp only [List.mem_cons] at hep
        rcases hep with hep | hep
        · left
          rw [hep]
          exact List.mem_cons_self _ _
        · rcases ih r0 hr ep hep with h1 | h1
          · exact Or.inl (List.mem_cons_of_mem x h1)
          · exact Or.inr h1

/-- The flags after `Disconnect`: only the record for which it was called may
have lost its flag. -/
theorem FlagInv_Disconnect (d : List SocketFd) (e : Env) (sys : Sys) (t : DaemonTCPTransport)
    (connectSpec : String) (h : FlagInv d t) :
    FlagInv (d ++ Disconnect.target e t connectSpec) (Disconnect e sys t connectSpec).2 := by
  have hsub : ∀ x ∈ d, x ∈ d ++ Disconnect.target e t connectSpec :=
    fun x hx => List.mem_append_left _ hx
  have hsame : ∀ s : DaemonTCPTransport, Frame t s →
      FlagInv (d ++ Disconnect.target e t connectSpec) s := by
    intro s hf
    refine FlagInv_of_origin d _ t s h hsub ?_
    rw [hf.1, hf.2.1]
    exact fun ep hep => origin_self t _ ep hep
  unfold Disconnect
  by_cases hg : t.isRunning = false ∨ t.m_stopping = true
  · rw [if_pos hg]
    exact hsame t (Frame_refl t)
  rw [if_neg hg]
  dsimp only
  by_cases hn : (NormalizeTransportSpec e connectSpec "" []).1 ≠ ER_OK
  · rw [if_pos hn]
    exact hsame _ (Frame_assert t _)
  · rw [if_neg hn]
    rw [assert_endpointList]
    rcases hw : Disconnect.walk
        (e.IPAddress (((NormalizeTransportSpec e connectSpec "" []).2.2.find "addr").getD ""))
        (e.StringToU32 (((NormalizeTransportSpec e connectSpec "" []).2.2.find "port").getD "") %
          65536) t.m_endpointList with _ | found
    · exact hsame _ (Frame_assert t _)
    · have htarget : Disconnect.target e t connectSpec = [found.1.sock] := by
        unfold Disconnect.target
        rw [if_neg hg]
        dsimp only
        rw [if_neg hn, hw]
      have ho := Disconnect_walk_origin _ _ _ found hw
      refine FlagInv_of_origin d _ t _ h hsub ?_
      intro ep hep
      simp only [assert_authList] at hep
      rcases List.mem_append.mp hep with hm | hm
      · exact origin_self t _ ep (List.mem_append_left _ hm)
      · rcases ho ep hm with h1 | h1
        · exact origin_self t _ ep (List.mem_append_right _ h1)
        · right
          right
          rw [htarget]
          exact List.mem_append_right _ (by simp [h1])

/-- The flags after the second half of `Connect`. -/
theorem FlagInv_bringUp (lim : Limits) (d : List SocketFd) (os : Os) (t : DaemonTCPTransport)
    (normSpec : String) (ipAddr : IPAddress) (port : Nat) (family : AddressFamily)
    (hI : ListsInv lim t) (h : FlagInv d t) :
    FlagInv d (Connect.bringUp os t normSpec ipAddr port family).2.2 := by
  have hnot : ∀ conn : DaemonTCPEndpoint, conn.sock = t.nextFd → conn ∉ t.m_endpointList := by
    intro conn hs hm
    have hlt := hI.1 conn.sock (sock_mem_socks _ _ (List.mem_append_right _ hm))
    rw [hs] at hlt
    exact lt_irrefl _ hlt
  have herase : ∀ conn : DaemonTCPEndpoint, conn.sock = t.nextFd →
      (t.m_endpointList ++ [conn]).erase conn = t.m_endpointList :=
    fun conn hs => erase_append_self _ _ (hnot conn hs)
  have hsame : ∀ s : DaemonTCPTransport, s.m_authList = t.m_authList →
      s.m_endpointList = t.m_endpointList → FlagInv d s := by
    intro s ha he
    unfold FlagInv
    rw [ha, he]
    exact h
  by_cases hcr : os.Socket family t.nextFd = ER_OK
  · by_cases hna : os.SetNagle t.nextFd = ER_OK
    · by_cases hco : os.Connect t.nextFd ipAddr port = ER_OK
      · by_cases hse : os.Send t.nextFd = ER_OK
        · by_cases hes : os.Establish t.nextFd = ER_OK
          · by_cases hst : os.Start t.nextFd = ER_OK
            · have ha : (Connect.bringUp os t normSpec ipAddr port family).2.2.m_authList =
                  t.m_authList := by
                simp [Connect.bringUp, hcr, hna, hco, hse, hes, hst]
              have he : (Connect.bringUp os t normSpec ipAddr port family).2.2.m_endpointList =
                  t.m_endpointList ++
                    [{ incoming := false, connectSpec := normSpec, sock := t.nextFd,
                       m_ipAddr := ipAddr, m_port := port, m_wasSuddenDisconnect := true,
                       isBusToBus := true, hasListener := true }] := by
                simp [Connect.bringUp, hcr, hna, hco, hse, hes, hst]
              unfold FlagInv
              rw [ha, he, ← List.append_assoc]
              intro ep hep hnd
              rcases List.mem_append.mp hep with hm | hm
              · exact h ep hm hnd
              · simp only [List.mem_singleton] at hm
                subst hm
                rfl
            · refine hsame _ ?_ ?_ <;>
                simp [Connect.bringUp, hcr, hna, hco, hse, hes, hst, DaemonTCPTransport.Close,
                  DaemonTCPTransport.delete, herase] <;>
                split_ifs <;> simp
          · refine hsame _ ?_ ?_ <;>
              simp [Connect.bringUp, hcr, hna, hco, hse, hes, DaemonTCPTransport.Close,
                DaemonTCPTransport.delete, herase] <;>
              split_ifs <;> simp
        · refine hsame _ ?_ ?_ <;>
            simp [Connect.bringUp, hcr, hna, hco, hse, DaemonTCPTransport.Close] <;>
            split_ifs <;> simp
      · refine hsame _ ?_ ?_ <;>
          simp [Connect.bringUp, hcr, hna, hco, DaemonTCPTransport.Close] <;>
          split_ifs <;> simp
    · refine hsame _ ?_ ?_ <;>
        simp [Connect.bringUp, hcr, hna, DaemonTCPTransport.Close] <;>
        split_ifs <;> simp
  · refine hsame _ ?_ ?_ <;>
      simp [Connect.bringUp, hcr, DaemonTCPTransport.Close]

/-- The flags after `Connect`. -/
theorem FlagInv_Connect (lim : Limits) (d : List SocketFd) (e : Env) (os : Os)
    (t : DaemonTCPTransport) (connectSpec : String) (hI : ListsInv lim t) (h : FlagInv d t) :
    FlagInv d (Connect e os t connectSpec).2.2 := by
  have hIa : ListsInv lim (t.assert t.m_ns.isSome) := ListsInv_Frame lim t _ hI (Frame_assert t _)
  have hFa : FlagInv d (t.assert t.m_ns.isSome) := FlagInv_Frame d t _ h (Frame_assert t _)
  unfold Connect
  by_cases hg : t.isRunning = false ∨ t.m_stopping = true
  · rw [if_pos hg]
    exact h
  rw [if_neg hg]
  dsimp only
  by_cases hn : (NormalizeTransportSpec e connectSpec "" []).1 ≠ ER_OK
  · rw [if_pos hn]
    exact hFa
  rw [if_neg hn]
  split_ifs with ha
  · exact hFa
  · split
    · exact hFa
    · split_ifs
      · exact hFa
      · exact FlagInv_bringUp lim d os _ _ _ _ _ hIa hFa

/-- The flags after the handling of an accepted connection. -/
theorem FlagInv_accepted (d : List SocketFd) (lim : Limits) (sys : Sys)
    (w : Nat → SocketFd → Option (AuthState × Bool)) (fuel tNow tStart : Nat)
    (t s : DaemonTCPTransport) (remoteAddr : IPAddress) (remotePort : Nat)
    (h : FlagInv d t)
    (hs : Run.accepted lim sys w fuel tNow tStart t remoteAddr remotePort = some s) :
    FlagInv d s := by
  unfold Run.accepted at hs
  dsimp only at hs
  generalize ht1 : DaemonTCPTransport.assert
    { t with openSockets := t.openSockets ++ [t.nextFd], nextFd := t.nextFd + 1 } _ = t1 at hs
  have a1 : t1.m_authList = t.m_authList := by rw [← ht1]; simp
  have a2 : t1.m_endpointList = t.m_endpointList := by rw [← ht1]; simp
  rcases hs0 : Run.scavengeAuthList lim w fuel tNow t1 with _ | s0
  · simp [hs0] at hs
  simp only [hs0, Option.map_some', Option.some.injEq] at hs
  obtain ⟨r, hr, d1, d2, _, _, _⟩ := scavengeAuthList_fields lim w fuel tNow t1 s0 hs0
  rw [a1] at hr
  rw [a2] at d2
  obtain ⟨_, _, r3, _⟩ := Run_scavenge_result lim.tTimeout tNow w fuel 0 t.m_authList r hr
  have hflags : ∀ ep ∈ r.1 ++ t.m_endpointList, ep.sock ∉ d →
      ep.m_wasSuddenDisconnect = !ep.incoming := by
    intro ep hep hnd
    rcases List.mem_append.mp hep with hm | hm
    · obtain ⟨ep0, m0, f1, f2, _, f4⟩ := r3 ep hm
      rw [← f4, ← f2]
      exact h ep0 (List.mem_append_left _ m0) (by rw [f1]; exact hnd)
    · exact h ep (List.mem_append_right _ hm) hnd
  subst hs
  by_cases hc : r.1.length < lim.maxAuth ∧
      r.1.length + t.m_endpointList.length < lim.maxConn
  · by_cases ha : sys.AuthStart t.nextFd = ER_OK
    · have e1 : (Run.newConnection lim sys tStart s0 t.nextFd remoteAddr remotePort).m_authList =
          { incoming := true, connectSpec := "", sock := t.nextFd, m_ipAddr := remoteAddr,
            m_port := remotePort, m_wasSuddenDisconnect := false, m_tStart := tStart,
            authThreadRunning := true } :: r.1 := by
        simp [Run.newConnection, d1, d2, hc, ha]
      have e2 : (Run.newConnection lim sys tStart s0 t.nextFd remoteAddr remotePort).m_endpointList =
          t.m_endpointList := by
        simp [Run.newConnection, d1, d2, hc, ha]
      unfold FlagInv
      rw [e1, e2]
      intro ep hep hnd
      simp only [List.cons_append, List.mem_cons] at hep
      rcases hep with hep | hep
      · subst hep
        rfl
      · exact hflags ep hep hnd
    · have e1 : (Run.newConnection lim sys tStart s0 t.nextFd remoteAddr remotePort).m_authList =
          r.1 := by
        simp [Run.newConnection, d1, d2, hc, ha, DaemonTCPTransport.delete]
      have e2 : (Run.newConnection lim sys tStart s0 t.nextFd remoteAddr remotePort).m_endpointList =
          t.m_endpointList := by
        simp [Run.newConnection, d1, d2, hc, ha, DaemonTCPTransport.delete]
      unfold FlagInv
      rw [e1, e2]
      exact hflags
  · have e1 : (Run.newConnection lim sys tStart s0 t.nextFd remoteAddr remotePort).m_authList =
        r.1 := by
      simp [Run.newConnection, d1, d2, hc, DaemonTCPTransport.Close]
    have e2 : (Run.newConnection lim sys tStart s0 t.nextFd remoteAddr remotePort).m_endpointList =
        t.m_endpointList := by
      simp [Run.newConnection, d1, d2, hc, DaemonTCPTransport.Close]
    unfold FlagInv
    rw [e1, e2]
    exact hflags

/-- The two invariants hold along every history. -/
theorem History_inv (e : Env) (os : Os) (sys : Sys) (lim : Limits) (d : List SocketFd)
    (t : DaemonTCPTransport) (h : History e os sys lim d t) : ListsInv lim t ∧ FlagInv d t := by
  induction h with
  | init t ha he hc _ =>
    refine ⟨ListsInv_init lim t ha he hc, ?_⟩
    unfold FlagInv
    rw [ha, he]
    intro ep hep
    simp at hep
  | accepted d t s w fuel tNow tStart remoteAddr remotePort _ hs ih =>
    exact ⟨ListsInv_accepted lim sys w fuel tNow tStart t s remoteAddr remotePort ih.1 hs,
      FlagInv_accepted d lim sys w fuel tNow tStart t s remoteAddr remotePort ih.2 hs⟩
  | authStep d t sock state running _ ih =>
    exact ⟨ListsInv_authStep lim t sock state running ih.1,
      FlagInv_authStep d t sock state running ih.2⟩
  | authenticated d t conn _ hconn ih =>
    exact ⟨ListsInv_Authenticated lim os t conn hconn ih.1,
      FlagInv_Authenticated d os t conn hconn ih.2⟩
  | connect d t connectSpec _ ih =>
    exact ⟨ListsInv_Connect lim e os t connectSpec ih.1,
      FlagInv_Connect lim d e os t connectSpec ih.1 ih.2⟩
  | disconnect d t connectSpec _ ih =>
    exact ⟨ListsInv_Disconnect lim e sys t connectSpec ih.1,
      FlagInv_Disconnect d e sys t connectSpec ih.2⟩
  | endpointExit d t tep _ _ ih =>
    exact ⟨ListsInv_EndpointExit lim t tep ih.1, FlagInv_EndpointExit d t tep ih.2⟩
  | stop d t _ ih => exact ⟨ListsInv_Stop lim sys t ih.1, FlagInv_Stop d sys t ih.2⟩
  | start d t _ ih =>
    exact ⟨ListsInv_Frame lim t _ ih.1 (Frame_Start sys t),
      FlagInv_Frame d t _ ih.2 (Frame_Start sys t)⟩
  | join d t s status _ hj ih =>
    exact ⟨ListsInv_Frame lim t s ih.1 (Frame_Join sys t s status hj),
      FlagInv_Frame d t s ih.2 (Frame_Join sys t s status hj)⟩
  | startListen d t listenSpec _ ih =>
    exact ⟨ListsInv_Frame lim t _ ih.1 (Frame_StartListen e t listenSpec),
      FlagInv_Frame d t _ ih.2 (Frame_StartListen e t listenSpec)⟩
  | stopListen d t listenSpec _ ih =>
    exact ⟨ListsInv_Frame lim t _ ih.1 (Frame_StopListen e t listenSpec),
      FlagInv_Frame d t _ ih.2 (Frame_StopListen e t listenSpec)⟩
  | listenRequests d t n _ ih =>
    exact ⟨ListsInv_Frame lim t _ ih.1 (Frame_listenRequests e os n t),
      FlagInv_Frame d t _ ih.2 (Frame_listenRequests e os n t)⟩

/-! ## Theorems: the endpoint lists -/

/-- C13 (the code departs from the claim): a transport is started, asked to
listen on 192.0.2.5:9955, and its accept thread enacts the request with `Bind`
failing, which leaves the socket 3 open and off the listener set; after `Stop`,
`Join` returns `ER_OK` with both endpoint lists and the listener set empty, the
name service absent and the stopping flag cleared, but the socket 3 that the
transport created is still open. -/
theorem Join_leaves_socket_open :
    (Start refSys {}).1 = ER_OK ∧
      (StartListen (refEnv 9955) (Start refSys {}).2 "tcp:addr=192.0.2.5,port=9955").1 = ER_OK ∧
      stoppedAfterBindFailure.openSockets = [3] ∧
      (Join refSys stoppedAfterBindFailure).map (fun r => r.1) = some ER_OK ∧
      (Join refSys stoppedAfterBindFailure).map
          (fun r => (r.2.m_authList, r.2.m_endpointList, r.2.m_listenFds)) = some ([], [], []) ∧
      (Join refSys stoppedAfterBindFailure).map (fun r => (r.2.m_ns, r.2.m_stopping)) =
        some (none, false) ∧
      (Join refSys stoppedAfterBindFailure).map (fun r => r.2.openSockets) = some [3] := by
  decide

/-- C15 (the code departs from the claim): with `maxConn = 1`, a started
transport reaches, by two calls of `Connect` that succeed, a state with two
records on `m_endpointList`; the sum of the two list lengths is then above
`maxConn`, and the assertion at the head of the next admission is violated. -/
theorem Connect_exceeds_maxConn :
    Reachable (refEnv 9955) (refOs []) refSys oneConnection twoConnects ∧
      twoConnects.m_authList.length + twoConnects.m_endpointList.length = 2 ∧
      ¬ (twoConnects.m_authList.length + twoConnects.m_endpointList.length ≤
        oneConnection.maxConn) ∧
      twoConnects.assertFailed = false ∧
      (Run.accepted oneConnection refSys noChange 10 7 7 twoConnects ⟨[192, 0, 2, 9]⟩ 4000).map
        (fun s => s.assertFailed) = some true :=
  ⟨Reachable.connect _ "tcp:addr=192.0.2.6,port=9955"
      (Reachable.connect _ "tcp:addr=192.0.2.5,port=9955"
        (Reachable.init startedTransport rfl rfl rfl rfl)),
    by decide, by decide, by decide, by decide⟩

/-- C16 (as stated, refuted): an inbound record that was admitted and
authenticated is on `m_endpointList` of a reachable state with an upper-layer
listener registered, `Disconnect` was never called, and its `EndpointExit`
sends no `BusConnectionLost`. -/
theorem EndpointExit_inbound_silent :
    Reachable (refEnv 9955) (refOs []) refSys refLimits inboundActive ∧
      inboundActive.m_listener = true ∧
      inboundActive.m_endpointList =
        [{ inboundRecord with m_state := AuthState.SUCCEEDED, hasListener := true }] ∧
      (EndpointExit inboundActive
        { inboundRecord with m_state := AuthState.SUCCEEDED, hasListener := true }).lost = [] :=
  ⟨Reachable.authenticated _ _
      (Reachable.authStep _ 3 AuthState.SUCCEEDED true
        (Reachable.accepted listenedTransport admittedTransport noChange 10 7 7
          ⟨[192, 0, 2, 9]⟩ 4000 (Reachable.init listenedTransport rfl rfl rfl rfl) (by decide)))
      (by decide),
    by decide, by decide, by decide⟩

/-- C16 (amended): along every history of a transport (inbound admission, the
steps of authentication threads, `Authenticated`, `Connect`, `Disconnect`,
`EndpointExit`, `Stop`, `Start`, `Join` and the listen requests), with an
upper-layer listener registered, for every record on `m_endpointList` for which
`Disconnect` was never called, `EndpointExit` sends
`BusConnectionLost(connectSpec)` exactly once when the record is outbound and
not at all when it is inbound, and it takes the record off the list and
destroys it, so that there is no second `EndpointExit` of it. -/
theorem EndpointExit_notifies (e : Env) (os : Os) (sys : Sys) (lim : Limits)
    (d : List SocketFd) (t : DaemonTCPTransport) (ep : DaemonTCPEndpoint)
    (h : History e os sys lim d t) (hep : ep ∈ t.m_endpointList) (hd : ep.sock ∉ d)
    (hl : t.m_listener = true) :
    (EndpointExit t ep).lost = t.lost ++ (if ep.incoming = true then [] else [ep.connectSpec]) ∧
      ep ∉ (EndpointExit t ep).m_endpointList ∧
      ep.sock ∈ (EndpointExit t ep).deleted := by
  obtain ⟨⟨h1, h2, h3, h4, h5⟩, hF⟩ := History_inv e os sys lim d t h
  have hflag := hF ep (List.mem_append_right _ hep) hd
  have hnd : (socks t.m_endpointList).Nodup := by
    rw [socks_append] at h2
    exact (List.nodup_append.mp h2).2.1
  refine ⟨?_, ?_, ?_⟩
  · cases hi : ep.incoming
    · rw [hi] at hflag
      simp [EndpointExit, DaemonTCPTransport.delete, hl, hflag]
    · rw [hi] at hflag
      simp [EndpointExit, DaemonTCPTransport.delete, hl, hflag]
  · intro hm
    have hm2 : ep ∈ eraseEndpoint t.m_endpointList ep.sock := by
      unfold EndpointExit DaemonTCPTransport.delete at hm
      dsimp only at hm
      split_ifs at hm <;> exact hm
    have hs := sock_mem_socks _ _ hm2
    rw [socks_eraseEndpoint] at hs
    exact ((List.Nodup.mem_erase_iff hnd).mp hs).1 rfl
  · unfold EndpointExit DaemonTCPTransport.delete
    dsimp only
    split_ifs <;> simp

/-- C16 (amended) at a stopping transport: `Stop` has asked its inbound record
(socket 3) and its outbound record (socket 4) to stop, `Disconnect` was called
for neither, and `EndpointExit` notifies for the outbound record only. -/
theorem EndpointExit_notifies_witness :
    History (refEnv 9955) (refOs []) refSys refLimits [] stoppingTransport ∧
      stoppingTransport.m_stopping = true ∧ stoppingTransport.m_listener = true ∧
      (stoppingTransport.m_endpointList.map (fun ep => (ep.sock, ep.incoming, ep.stopped))) =
        [(3, true, true), (4, false, true)] ∧
      (stoppingTransport.m_endpointList.map (fun ep => (EndpointExit stoppingTransport ep).lost)) =
        [[], ["tcp:addr=192.0.2.5,family=ipv4,port=9955"]] ∧
      (∀ ep ∈ stoppingTransport.m_endpointList,
        (EndpointExit stoppingTransport ep).lost =
          stoppingTransport.lost ++ (if ep.incoming = true then [] else [ep.connectSpec])) :=
  have hh : History (refEnv 9955) (refOs []) refSys refLimits [] stoppingTransport :=
    History.stop [] _
      (History.connect [] inboundActive "tcp:addr=192.0.2.5,port=9955"
        (History.authenticated [] _ _
          (History.authStep [] _ 3 AuthState.SUCCEEDED true
            (History.accepted [] listenedTransport admittedTransport noChange 10 7 7
              ⟨[192, 0, 2, 9]⟩ 4000 (History.init listenedTransport rfl rfl rfl rfl)
              (by decide)))
          (by decide)))
  ⟨hh, by decide, by decide, by decide, by decide, fun ep hep =>
    (EndpointExit_notifies (refEnv 9955) (refOs []) refSys refLimits [] stoppingTransport ep hh
      hep (List.not_mem_nil _) (by decide)).1⟩

/-- C20: in every state reached from a transport without records by inbound
admission, scavenging, `Authenticated` (with either outcome of the start of the
send and receive threads), `Connect`, `Disconnect` and `EndpointExit`, no
record is on both `m_authList` and `m_endpointList`, no record appears twice on
a list, and every record that was made and has not been destroyed is on exactly
one of the two lists. -/
theorem lists_exclusive (e : Env) (os : Os) (sys : Sys) (lim : Limits)
    (t : DaemonTCPTransport) (h : Reachable e os sys lim t) :
    (∀ ep ∈ t.m_authList, ∀ ep2 ∈ t.m_endpointList, ep.sock ≠ ep2.sock) ∧
      t.m_authList.Nodup ∧ t.m_endpointList.Nodup ∧
      (socks t.m_authList).Nodup ∧ (socks t.m_endpointList).Nodup ∧
      (∀ sock ∈ t.created, sock ∉ t.deleted →
        (sock ∈ socks t.m_authList ∧ sock ∉ socks t.m_endpointList) ∨
          (sock ∉ socks t.m_authList ∧ sock ∈ socks t.m_endpointList)) := by
  obtain ⟨h1, h2, h3, h4, h5⟩ := Reachable_ListsInv e os sys lim t h
  rw [socks_append] at h2 h3
  obtain ⟨n1, n2, hdis⟩ := List.nodup_append.mp h2
  refine ⟨?_, List.Nodup.of_map _ n1, List.Nodup.of_map _ n2, n1, n2, ?_⟩
  · intro ep hep ep2 hep2 heq
    exact hdis (sock_mem_socks _ _ hep) (heq ▸ sock_mem_socks _ _ hep2)
  · intro sock hc hd
    rcases List.mem_append.mp (h3 sock hc hd) with hm | hm
    · exact Or.inl ⟨hm, fun hm2 => hdis hm hm2⟩
    · exact Or.inr ⟨fun hm2 => hdis hm2 hm, hm⟩

/-- C20 at the transport whose inbound record was authenticated. -/
theorem lists_exclusive_witness :
    Reachable (refEnv 9955) (refOs []) refSys refLimits inboundActive ∧
      inboundActive.created = [3] ∧ inboundActive.deleted = [] ∧
      socks inboundActive.m_authList = [] ∧ socks inboundActive.m_endpointList = [3] ∧
      (∀ sock ∈ inboundActive.created, sock ∉ inboundActive.deleted →
        (sock ∈ socks inboundActive.m_authList ∧ sock ∉ socks inboundActive.m_endpointList) ∨
          (sock ∉ socks inboundActive.m_authList ∧ sock ∈ socks inboundActive.m_endpointList)) :=
  have hr : Reachable (refEnv 9955) (refOs []) refSys refLimits inboundActive :=
    Reachable.authenticated _ _
      (Reachable.authStep _ 3 AuthState.SUCCEEDED true
        (Reachable.accepted listenedTransport admittedTransport noChange 10 7 7
          ⟨[192, 0, 2, 9]⟩ 4000 (Reachable.init listenedTransport rfl rfl rfl rfl) (by decide)))
      (by decide)
  ⟨hr, by decide, by decide, by decide, by decide,
    (lists_exclusive (refEnv 9955) (refOs []) refSys refLimits inboundActive hr).2.2.2.2.2⟩

/-! ## Theorems: instances at the reference transport -/

/-- C12 (amended) at a transport that was never started, with a name service
whose `Init` succeeds and with one whose `Init` fails, and at a started
transport. -/
theorem Start_spec_witness :
    ¬ (({} : DaemonTCPTransport).isRunning = true ∨
        ({} : DaemonTCPTransport).m_ns.isSome = true) ∧
      ((Start refSys {}).1 = refSys.ThreadStart ∧
        (Start refSys {}).2.m_ns = some { initialized := true, callback := true } ∧
        ((Start refSys {}).2.isRunning = true ↔ refSys.ThreadStart = ER_OK)) ∧
      ((Start initFailsSys {}).1 = initFailsSys.Init ∧
        (Start initFailsSys {}).2.isRunning = false) ∧
      ((Start refSys startedTransport).1 = ER_BUS_BUS_ALREADY_STARTED ∧
        (Start refSys startedTransport).2 = startedTransport) :=
  ⟨by decide,
    ((Start_spec refSys {}).2 (by decide)).2.2.1 (by decide),
    ((Start_spec initFailsSys {}).2 (by decide)).2.2.2 (by decide),
    (Start_spec refSys startedTransport).1.mpr (by decide)⟩

/-- C18 at a started transport whose name service reports the port 0, for a
traffic type that is not served and for one that is; with the port 9955
reported the same call appends an address. -/
theorem GetListenAddresses_nothing_witness :
    GetListenAddresses (refEnv 9955) (refOs localInterfaces) refSys startedTransport
        { traffic := TrafficType.TRAFFIC_RAW_UNRELIABLE, transports := 4 } ["a"] =
          (ER_OK, ["a"]) ∧
      (GetListenAddresses (refEnv 9955) (refOs localInterfaces) refSys startedTransport
        { traffic := TrafficType.TRAFFIC_MESSAGES, transports := 4 } ["a"]).2 = ["a"] ∧
      (GetListenAddresses (refEnv 9955) (refOs localInterfaces) refSys
        { startedTransport with m_ns := some { initialized := true, port := 9955 } }
        { traffic := TrafficType.TRAFFIC_MESSAGES, transports := 4 } ["a"]).2 =
          ["a", "tcp:addr=192.0.2.5,port=9955,family=ipv4"] :=
  ⟨(GetListenAddresses_nothing (refEnv 9955) (refOs localInterfaces) refSys startedTransport
      { traffic := TrafficType.TRAFFIC_RAW_UNRELIABLE, transports := 4 } ["a"]).1
      (Or.inl (by decide)),
    (GetListenAddresses_nothing (refEnv 9955) (refOs localInterfaces) refSys startedTransport
      { traffic := TrafficType.TRAFFIC_MESSAGES, transports := 4 } ["a"]).2
      { initialized := true, callback := true } rfl (by decide),
    by decide⟩

/-- C19 at the listening transport with the socket 3 accepted at time 7: with
the limits 2 and 8 the connection gets the record `inboundRecord`; with the
limit of no connection at all it is closed. -/
theorem Run_newConnection_spec_witness :
    (Run.newConnection refLimits refSys 7 { listenedTransport with openSockets := [3] } 3
        ⟨[192, 0, 2, 9]⟩ 4000).m_authList = [inboundRecord] ∧
      ((Run.newConnection { tTimeout := 10, maxAuth := 2, maxConn := 0 } refSys 7
          { listenedTransport with openSockets := [3] } 3 ⟨[192, 0, 2, 9]⟩ 4000).m_authList = [] ∧
        (Run.newConnection { tTimeout := 10, maxAuth := 2, maxConn := 0 } refSys 7
          { listenedTransport with openSockets := [3] } 3 ⟨[192, 0, 2, 9]⟩ 4000).openSockets =
            []) :=
  ⟨((Run_newConnection_spec refLimits refSys 7 { listenedTransport with openSockets := [3] } 3
      ⟨[192, 0, 2, 9]⟩ 4000).2.1 (by decide) (by decide)).1,
    ((Run_newConnection_spec { tTimeout := 10, maxAuth := 2, maxConn := 0 } refSys 7
      { listenedTransport with openSockets := [3] } 3 ⟨[192, 0, 2, 9]⟩ 4000).2.2.2
        (by decide)).1,
    ((Run_newConnection_spec { tTimeout := 10, maxAuth := 2, maxConn := 0 } refSys 7
      { listenedTransport with openSockets := [3] } 3 ⟨[192, 0, 2, 9]⟩ 4000).2.2.2
        (by decide)).2.2⟩

/-! ## Theorems: failures on the way -/

/-- C22 (the code departs from the claim): with the timeout 10 and the time 20
read, the list holds `slowRecord`, which has timed out and is neither failed
nor ended, and `freshRecord`. While the thread of `slowRecord` is not seen to
change, the scavenging loop has no result within 64 passes, each of which
calls `Abort` on that record again; when the thread is seen to have failed and
ended at the third reading, the loop ends after four passes with `Abort`
called twice and the record removed and destroyed in the same loop. -/
theorem Run_scavenge_slow_record :
    TimedOut 10 20 slowRecord ∧ ¬ Reapable slowRecord ∧
      Run.scavenge 10 20 noChange 64 0 [slowRecord, freshRecord] = none ∧
      Run.scavenge 10 20 failsAtThird 3 0 [slowRecord, freshRecord] = none ∧
      Run.scavenge 10 20 failsAtThird 4 0 [slowRecord, freshRecord] =
        some ([freshRecord],
          [{ slowRecord with m_state := AuthState.FAILED, authThreadRunning := false }],
          [3, 3]) := by
  decide

/-- The scavenging loop on a list without an entry that has timed out and is
not removable, while no thread is seen to change: every removable entry is
removed, the others are kept in their order, and `Abort` is not called. -/
theorem Run_scavenge_without_slow (tTimeout tNow : Nat) (l : List DaemonTCPEndpoint)
    (h : ∀ ep ∈ l, TimedOut tTimeout tNow ep → Reapable ep) (fuel k : Nat)
    (hf : l.length ≤ fuel) :
    Run.scavenge tTimeout tNow noChange fuel k l =
      some (l.filter (fun ep => ¬ Reapable ep), l.filter (fun ep => Reapable ep), []) := by
  induction l generalizing fuel k with
  | nil => cases fuel <;> rfl
  | cons j rest ih =>
    cases fuel with
    | zero => simp at hf
    | succ n =>
      have hn : rest.length ≤ n := by simpa using hf
      have hrest : ∀ ep ∈ rest, TimedOut tTimeout tNow ep → Reapable ep :=
        fun ep hep => h ep (List.mem_cons_of_mem _ hep)
      have hj := h j (List.mem_cons_self _ _)
      by_cases hr : Reapable j
      · have hr2 := hr
        unfold Reapable at hr2
        simp [Run.scavenge, observe, noChange, hr2, ih hrest n (k + 1) hn, hr]
      · have hr2 := hr
        unfold Reapable at hr2
        have ht : ¬ (j.m_tStart + tTimeout < tNow) := fun ht => hr (hj ht)
        simp [Run.scavenge, observe, noChange, hr2, ht, ih hrest n (k + 1) hn, hr]

/-- C23 (the code departs from the claim): when the list holds an entry that has
timed out and is not yet failed or whose thread is still running, and no
thread is seen to change its record, the scavenging loop does not end, however
many passes it is allowed: the pass that calls `Abort` does not move on to the
next entry. -/
theorem Run_scavenge_spins (tTimeout tNow : Nat) (l : List DaemonTCPEndpoint)
    (h : ∃ ep ∈ l, TimedOut tTimeout tNow ep ∧ ¬ Reapable ep) (fuel k : Nat) :
    Run.scavenge tTimeout tNow noChange fuel k l = none := by
  induction fuel generalizing k l with
  | zero =>
    obtain ⟨ep, hep, _⟩ := h
    cases l with
    | nil => simp at hep
    | cons j rest => rfl
  | succ n ih =>
    obtain ⟨ep, hep, hto, hnr⟩ := h
    cases l with
    | nil => simp at hep
    | cons j rest =>
      by_cases hr : Reapable j
      · have hne : ep ≠ j := fun heq => hnr (heq ▸ hr)
        have hmem : ep ∈ rest := by
          rcases List.mem_cons.mp hep with h1 | h1
          · exact absurd h1 hne
          · exact h1
        have hr2 := hr
        unfold Reapable at hr2
        simp [Run.scavenge, observe, noChange, hr2, ih rest ⟨ep, hmem, hto, hnr⟩ (k + 1)]
      · have hr2 := hr
        unfold Reapable at hr2
        by_cases ht : j.m_tStart + tTimeout < tNow
        · have := ih (j :: rest) ⟨j, List.mem_cons_self _ _, ht, hr⟩ (k + 1)
          simp [Run.scavenge, observe, noChange, hr2, ht, this]
        · have hne : ep ≠ j := fun heq => ht (heq ▸ hto)
          have hmem : ep ∈ rest := by
            rcases List.mem_cons.mp hep with h1 | h1
            · exact absurd h1 hne
            · exact h1
          simp [Run.scavenge, observe, noChange, hr2, ht, ih rest ⟨ep, hmem, hto, hnr⟩ (k + 1)]

/-- C23 at the list of `freshRecord` and `slowRecord`, with 1000 passes allowed. -/
theorem Run_scavenge_spins_witness :
    (∃ ep ∈ [freshRecord, slowRecord], TimedOut 10 20 ep ∧ ¬ Reapable ep) ∧
      Run.scavenge 10 20 noChange 1000 0 [freshRecord, slowRecord] = none :=
  ⟨⟨slowRecord, by decide, by decide, by decide⟩,
    Run_scavenge_spins 10 20 [freshRecord, slowRecord]
      ⟨slowRecord, by decide, by decide, by decide⟩ 1000 0⟩

/-- The list without the first record with a socket, when that record is
known. -/
theorem eraseEndpoint_split (pre post : List DaemonTCPEndpoint) (r : DaemonTCPEndpoint)
    (sock : SocketFd) (hr : r.sock = sock) (hpre : ∀ x ∈ pre, x.sock ≠ sock) :
    eraseEndpoint (pre ++ r :: post) sock = pre ++ post := by
  induction pre with
  | nil => simp [eraseEndpoint, hr]
  | cons x rest ih =>
    have hx : x.sock ≠ sock := hpre x (List.mem_cons_self _ _)
    have ih2 := ih (fun y hy => hpre y (List.mem_cons_of_mem _ hy))
    show eraseEndpoint (x :: (rest ++ r :: post)) sock = x :: (rest ++ post)
    simp only [eraseEndpoint, hx, ↓reduceIte, ih2]

/-- The list is left as it is when no record has the socket. -/
theorem eraseEndpoint_absent (l : List DaemonTCPEndpoint) (sock : SocketFd)
    (h : ∀ x ∈ l, x.sock ≠ sock) : eraseEndpoint l sock = l := by
  induction l with
  | nil => rfl
  | cons x rest ih =>
    have hx : x.sock ≠ sock := h x (List.mem_cons_self _ _)
    simp only [eraseEndpoint, hx, ↓reduceIte, ih (fun y hy => h y (List.mem_cons_of_mem _ hy))]

/-- C24: for every record `r`, `EndpointExit(r)` leaves `m_endpointList` as the
list before without `r`, the other entries in their order (records being told
apart by their sockets), and as it was when `r` is not on it; it leaves
`m_authList` as it was; and it adds `BusConnectionLost` with the connect spec
of `r` to the notifications exactly when a listener is registered and the flag
for a sudden disconnect of `r` is set, and adds nothing otherwise. -/
theorem EndpointExit_spec (t : DaemonTCPTransport) (r : DaemonTCPEndpoint) :
    (∀ pre post : List DaemonTCPEndpoint, t.m_endpointList = pre ++ r :: post →
        (∀ x ∈ pre, x.sock ≠ r.sock) → (EndpointExit t r).m_endpointList = pre ++ post) ∧
      ((∀ x ∈ t.m_endpointList, x.sock ≠ r.sock) →
        (EndpointExit t r).m_endpointList = t.m_endpointList) ∧
      (EndpointExit t r).m_authList = t.m_authList ∧
      ((t.m_listener = true ∧ r.m_wasSuddenDisconnect = true) →
        (EndpointExit t r).lost = t.lost ++ [r.connectSpec]) ∧
      (¬ (t.m_listener = true ∧ r.m_wasSuddenDisconnect = true) →
        (EndpointExit t r).lost = t.lost) ∧
      (EndpointExit t r).deleted = t.deleted ++ [r.sock] := by
  refine ⟨?_, ?_, ?_, ?_, ?_, ?_⟩
  · intro pre post hl hpre
    have := eraseEndpoint_split pre post r r.sock rfl hpre
    unfold EndpointExit DaemonTCPTransport.delete
    dsimp only
    split_ifs <;> simp [hl, this]
  · intro habs
    have := eraseEndpoint_absent t.m_endpointList r.sock habs
    unfold EndpointExit DaemonTCPTransport.delete
    dsimp only
    split_ifs <;> simp [this]
  · unfold EndpointExit DaemonTCPTransport.delete
    dsimp only
    split_ifs <;> rfl
  · intro h
    unfold EndpointExit DaemonTCPTransport.delete
    dsimp only
    rw [if_pos h]
  · intro h
    unfold EndpointExit DaemonTCPTransport.delete
    dsimp only
    rw [if_neg h]
  · unfold EndpointExit DaemonTCPTransport.delete
    dsimp only
    split_ifs <;> rfl

/-- C24 at the transport with two outbound records, for the exit of the first
and for a record, with the socket 9, that is not on the list. -/
theorem EndpointExit_spec_witness :
    (twoConnects.m_endpointList.map (fun ep => ep.sock)) = [3, 4] ∧
      (∀ r post, twoConnects.m_endpointList = [] ++ r :: post →
        (EndpointExit { twoConnects with m_listener := true } r).m_endpointList = [] ++ post ∧
        (r.m_wasSuddenDisconnect = true →
          (EndpointExit { twoConnects with m_listener := true } r).lost = [r.connectSpec])) ∧
      ((EndpointExit { twoConnects with m_listener := true }
          { inboundRecord with sock := 9 }).m_endpointList = twoConnects.m_endpointList) :=
  ⟨by decide,
    fun r post h =>
      ⟨(EndpointExit_spec { twoConnects with m_listener := true } r).1 [] post h
          (fun x hx => absurd hx (List.not_mem_nil x)),
        fun hs => (EndpointExit_spec { twoConnects with m_listener := true } r).2.2.2.1
          ⟨rfl, hs⟩⟩,
    (EndpointExit_spec { twoConnects with m_listener := true }
      { inboundRecord with sock := 9 }).2.1 (by decide)⟩

/-- C25: the run of the authentication thread ends with the state `SUCCEEDED`
exactly when the first read returned `ER_OK` with one byte read and that byte
0 and the handshake returned `ER_OK`, and with `FAILED` in every other case;
so it ends in neither `INITIALIZED`, `AUTHENTICATING` nor `AVORTED`; and
it calls `Authenticated` exactly when it ends with `SUCCEEDED`. -/
theorem AuthThread_Run_spec (pulled : QStatus × Nat × Nat) (established : QStatus) :
    ((AuthThread.Run pulled established).m_state = AuthState.SUCCEEDED ↔
        (pulled.1 = ER_OK ∧ pulled.2.1 = 1 ∧ pulled.2.2 % 256 = 0 ∧ established = ER_OK)) ∧
      ((AuthThread.Run pulled established).m_state = AuthState.FAILED ↔
        ¬ (pulled.1 = ER_OK ∧ pulled.2.1 = 1 ∧ pulled.2.2 % 256 = 0 ∧ established = ER_OK)) ∧
      (AuthThread.Run pulled established).m_state ≠ AuthState.INITIALIZED ∧
      (AuthThread.Run pulled established).m_state ≠ AuthState.AUTHENTICATING ∧
      (AuthThread.Run pulled established).m_state ≠ AuthState.AVORTED ∧
      (AuthThread.Run pulled established).m_state ≠ AuthState.ILLEGAL ∧
      ((AuthThread.Run pulled established).calledAuthenticated = true ↔
        (AuthThread.Run pulled established).m_state = AuthState.SUCCEEDED) := by
  unfold AuthThread.Run
  dsimp only
  by_cases h1 : pulled.1 ≠ ER_OK ∨ pulled.2.1 ≠ 1 ∨ pulled.2.2 % 256 ≠ 0
  · rw [if_pos h1]
    have : ¬ (pulled.1 = ER_OK ∧ pulled.2.1 = 1 ∧ pulled.2.2 % 256 = 0 ∧ established = ER_OK) := by
      rintro ⟨a, b, c, _⟩
      rcases h1 with h | h | h
      · exact h a
      · exact h b
      · exact h c
    simp [this]
  · rw [if_neg h1]
    have h1b : pulled.1 = ER_OK ∧ pulled.2.1 = 1 ∧ pulled.2.2 % 256 = 0 := by
      simp only [not_or, not_not] at h1
      exact h1
    by_cases h2 : established ≠ ER_OK
    · rw [if_pos h2]
      simp [h2]
    · rw [if_neg h2]
      have h2b : established = ER_OK := not_not.mp h2
      simp [h1b, h2b]

/-- C25 at the reads of the byte 0, of the byte 1, of no byte, and at a failed
handshake. -/
theorem AuthThread_Run_spec_witness :
    (AuthThread.Run (ER_OK, 1, 0) ER_OK).m_state = AuthState.SUCCEEDED ∧
      (AuthThread.Run (ER_OK, 1, 1) ER_OK).m_state = AuthState.FAILED ∧
      (AuthThread.Run (ER_OK, 0, 0) ER_OK).m_state = AuthState.FAILED ∧
      (AuthThread.Run (ER_OK, 1, 0) ER_AUTH_FAIL).m_state = AuthState.FAILED ∧
      (AuthThread.Run (ER_OK, 1, 0) ER_AUTH_FAIL).calledAuthenticated = false :=
  ⟨(AuthThread_Run_spec (ER_OK, 1, 0) ER_OK).1.mpr (by decide),
    (AuthThread_Run_spec (ER_OK, 1, 1) ER_OK).2.1.mpr (by decide),
    (AuthThread_Run_spec (ER_OK, 0, 0) ER_OK).2.1.mpr (by decide),
    (AuthThread_Run_spec (ER_OK, 1, 0) ER_AUTH_FAIL).2.1.mpr (by decide),
    by decide⟩

/-- C26 (the code departs from the claim): on a started transport
`DoStartListen` of `tcp:addr=192.0.2.5,family=ipv4,port=9955` creates the
socket 3. When `SetReuseAddress` fails the socket is closed; when `Bind` fails,
and when `Listen` fails, the listener set is left empty but the socket 3 is
left open. -/
theorem DoStartListen_failure_paths :
    (DoStartListen (refEnv 9955) reuseFailsOs startedTransport refListenSpec).openSockets = [] ∧
      (DoStartListen (refEnv 9955) reuseFailsOs startedTransport refListenSpec).m_listenFds = [] ∧
      (DoStartListen (refEnv 9955) bindFailsOs startedTransport refListenSpec).m_listenFds = [] ∧
      (DoStartListen (refEnv 9955) bindFailsOs startedTransport refListenSpec).openSockets = [3] ∧
      (DoStartListen (refEnv 9955) listenFailsOs startedTransport refListenSpec).m_listenFds = [] ∧
      (DoStartListen (refEnv 9955) listenFailsOs startedTransport refListenSpec).openSockets =
        [3] ∧
      (DoStartListen (refEnv 9955) (refOs []) startedTransport refListenSpec).m_listenFds =
        [("tcp:addr=192.0.2.5,port=9955", 3)] := by
  decide

/-- C28 (the code departs from the claim): of the five ways out of
`DoStartListen`, four have released `m_listenFdsLock` (success, failure of
`Socket`, of `Bind` and of `Listen`); on the way out after a failure of
`SetReuseAddress` the lock is still held. -/
theorem DoStartListen_lock :
    startedTransport.listenFdsLockHeld = false ∧
      (DoStartListen (refEnv 9955) (refOs []) startedTransport refListenSpec).listenFdsLockHeld =
        false ∧
      (DoStartListen (refEnv 9955) socketFailsOs startedTransport refListenSpec).listenFdsLockHeld =
        false ∧
      (DoStartListen (refEnv 9955) bindFailsOs startedTransport refListenSpec).listenFdsLockHeld =
        false ∧
      (DoStartListen (refEnv 9955) listenFailsOs startedTransport refListenSpec).listenFdsLockHeld =
        false ∧
      (DoStartListen (refEnv 9955) reuseFailsOs startedTransport refListenSpec).listenFdsLockHeld =
        true ∧
      (DoStartListen (refEnv 9955) reuseFailsOs startedTransport refListenSpec).assertFailed =
        false := by
  decide

/-! ## Theorems: the loop of the accept thread -/

/-- C27 (as stated, refuted): the stop is not seen at the head of the loop and
`Event::Wait` returns an error; `Run` leaves its loop through the `break`,
closes its listeners and returns that error. -/
theorem Run_wait_fails :
    Run.loop (refEnv 9955) (refOs []) refLimits refSys noChange 10
        [{ isStopping := false, waited := ER_OS_ERROR, signaled := [] }]
        (ER_OK, startedTransport) =
          some (some Run.Exit.waitFailed, ER_OS_ERROR, startedTransport) ∧
      Run (refEnv 9955) (refOs []) refLimits refSys noChange 10
        [{ isStopping := false, waited := ER_OS_ERROR, signaled := [] }] startedTransport =
          some (some Run.Exit.waitFailed, ER_OS_ERROR, startedTransport) := by
  decide

/-- C27 (amended): the accept thread leaves its loop only when the stop is seen
at the head of the loop or when `Event::Wait` returns an error. Over
iterations in which neither happens the loop is not left, whatever `Accept`,
the start of an authentication thread and the admission return; when the loop
is left on the stop, or through the `break`, it is at the first iteration in
which the stop is seen or the wait fails, and in the latter case the status is
that of the wait. -/
theorem Run_loop_exit (e : Env) (os : Os) (lim : Limits) (sys : Sys)
    (w : Nat → SocketFd → Option (AuthState × Bool)) (fuel : Nat) (passes : List Run.Pass)
    (r : QStatus × DaemonTCPTransport) :
    (Run.Undisturbed passes →
        Run.loop e os lim sys w fuel passes r = none ∨
          ∃ status s, Run.loop e os lim sys w fuel passes r = some (none, status, s)) ∧
      (∀ status s, Run.loop e os lim sys w fuel passes r =
          some (some Run.Exit.stopping, status, s) →
        ∃ pre pass post, passes = pre ++ pass :: post ∧ Run.Undisturbed pre ∧
          pass.isStopping = true) ∧
      (∀ status s, Run.loop e os lim sys w fuel passes r =
          some (some Run.Exit.waitFailed, status, s) →
        ∃ pre pass post, passes = pre ++ pass :: post ∧ Run.Undisturbed pre ∧
          pass.isStopping = false ∧ pass.waited ≠ ER_OK ∧ status = pass.waited) := by
  induction passes generalizing r with
  | nil =>
    refine ⟨fun _ => Or.inr ⟨r.1, r.2, rfl⟩, ?_, ?_⟩
    · intro status s h
      simp [Run.loop] at h
    · intro status s h
      simp [Run.loop] at h
  | cons pass rest ih =>
    by_cases hs : pass.isStopping = true
    · refine ⟨?_, ?_, ?_⟩
      · intro hu
        have := (hu pass (List.mem_cons_self _ _)).1
        rw [hs] at this
        cases this
      · intro status s _
        exact ⟨[], pass, rest, rfl, fun p hp => absurd hp (List.not_mem_nil p), hs⟩
      · intro status s h
        simp [Run.loop, hs] at h
    · have hs2 : pass.isStopping = false := by simpa using hs
      by_cases hw : pass.waited ≠ ER_OK
      · refine ⟨?_, ?_, ?_⟩
        · intro hu
          exact absurd (hu pass (List.mem_cons_self _ _)).2 hw
        · intro status s h
          simp [Run.loop, hs2, hw] at h
        · intro status s h
          simp only [Run.loop, hs2, Bool.false_eq_true, ↓reduceIte, hw, ne_eq, not_false_eq_true,
            Option.some.injEq, Prod.mk.injEq, true_and] at h
          exact ⟨[], pass, rest, rfl, fun p hp => absurd hp (List.not_mem_nil p), hs2, hw,
            h.1.symm⟩
      · have hw2 : pass.waited = ER_OK := not_not.mp hw
        cases hsig : Run.signaled lim sys w fuel pass.signaled
            (pass.waited, r.2.assert r.2.m_ns.isSome) with
        | none =>
          have hloop : Run.loop e os lim sys w fuel (pass :: rest) r = none := by
            simp only [Run.loop, hs2, Bool.false_eq_true, ↓reduceIte, hw, hsig]
          refine ⟨fun _ => Or.inl hloop, ?_, ?_⟩
          · intro status s h
            rw [hloop] at h
            cases h
          · intro status s h
            rw [hloop] at h
            cases h
        | some r1 =>
          have hloop : Run.loop e os lim sys w fuel (pass :: rest) r =
              Run.loop e os lim sys w fuel rest (r1.1, Run.drain e os r1.2) := by
            simp only [Run.loop, hs2, Bool.false_eq_true, ↓reduceIte, hw, hsig]
          obtain ⟨ih1, ih2, ih3⟩ := ih (r1.1, Run.drain e os r1.2)
          have hcons : ∀ pre : List Run.Pass, Run.Undisturbed pre →
              Run.Undisturbed (pass :: pre) := by
            intro pre hpre p hp
            rcases List.mem_cons.mp hp with h1 | h1
            · rw [h1]
              exact ⟨hs2, hw2⟩
            · exact hpre p h1
          refine ⟨?_, ?_, ?_⟩
          · intro hu
            rw [hloop]
            exact ih1 (fun p hp => hu p (List.mem_cons_of_mem _ hp))
          · intro status s h
            rw [hloop] at h
            obtain ⟨pre, p, post, h1, h2, h3⟩ := ih2 status s h
            exact ⟨pass :: pre, p, post, by rw [h1]; rfl, hcons pre h2, h3⟩
          · intro status s h
            rw [hloop] at h
            obtain ⟨pre, p, post, h1, h2, h3⟩ := ih3 status s h
            exact ⟨pass :: pre, p, post, by rw [h1]; rfl, hcons pre h2, h3⟩

/-- C27 (amended) at two iterations without a stop and with the wait
succeeding, on a transport on which no authentication thread can be started:
`Accept` fails in the first, and the connection accepted in the second is
dropped because its thread does not start; the thread is still in its loop.
With the limit of no connection at all the connection is refused, and the
thread is still in its loop; a third iteration at whose head the stop is seen
ends the loop. -/
theorem Run_loop_exit_witness :
    Run.Undisturbed errorPasses ∧
      (Run.loop (refEnv 9955) (refOs []) refLimits authStartFailsSys noChange 10 errorPasses
          (ER_OK, startedTransport)).map (fun out => (out.1, out.2.1, out.2.2.m_authList)) =
        some (none, ER_OS_ERROR, []) ∧
      (Run.loop (refEnv 9955) (refOs []) { tTimeout := 10, maxAuth := 2, maxConn := 0 } refSys
          noChange 10 errorPasses
          (ER_OK, startedTransport)).map (fun out => (out.1, out.2.1, out.2.2.m_authList)) =
        some (none, ER_AUTH_FAIL, []) ∧
      (Run.loop (refEnv 9955) (refOs []) refLimits authStartFailsSys noChange 10
          (errorPasses ++ [{ isStopping := true, waited := ER_OK, signaled := [] }])
          (ER_OK, startedTransport)).map (fun out => (out.1, out.2.1)) =
        some (some Run.Exit.stopping, ER_OS_ERROR) ∧
      (Run.loop (refEnv 9955) (refOs []) refLimits authStartFailsSys noChange 10 errorPasses
            (ER_OK, startedTransport) = none ∨
        ∃ status s,
          Run.loop (refEnv 9955) (refOs []) refLimits authStartFailsSys noChange 10 errorPasses
            (ER_OK, startedTransport) = some (none, status, s)) :=
  ⟨by decide, by decide, by decide, by decide,
    (Run_loop_exit (refEnv 9955) (refOs []) refLimits authStartFailsSys noChange 10 errorPasses
      (ER_OK, startedTransport)).1 (by decide)⟩

/-! ## Theorems: a failed start, and the text of the wildcard spec -/

/-- C29: when the initialisation of the name service fails inside `Start`,
`Start` returns that error with the accept thread not started and with the
name service it made still present; every `Start` that follows returns
`ER_BUS_BUS_ALREADY_STARTED` and changes nothing, however often it is called;
and a `Join`, which returns `ER_OK` once both endpoint lists are empty, deletes
the name service, after which `Start` makes and initialises a name service
again. -/
theorem Start_after_failed_Init (sys sys2 : Sys) (t : DaemonTCPTransport)
    (hrun : t.isRunning = false) (hns : t.m_ns = none) (hinit : sys.Init ≠ ER_OK) :
    (Start sys t).1 = sys.Init ∧ (Start sys t).2.isRunning = false ∧
      (Start sys t).2.m_ns = some {} ∧
      Start sys2 (Start sys t).2 = (ER_BUS_BUS_ALREADY_STARTED, (Start sys t).2) ∧
      (∀ n : Nat, Nat.iterate (fun s => (Start sys2 s).2) n (Start sys t).2 = (Start sys t).2) ∧
      (sys2.ThreadJoin = ER_OK → t.m_authList = [] → t.m_endpointList = [] →
        ∃ s, Join sys2 (Start sys t).2 = some (ER_OK, s) ∧ s.m_ns = none ∧
          (Start sys2 s).2.m_ns.isSome = true ∧
          (Start sys2 s).1 = (if sys2.Init = ER_OK then sys2.ThreadStart else sys2.Init)) := by
  have hst : Start sys t = (sys.Init, { t with m_ns := some {}, m_stopping := false }) := by
    simp [Start, hrun, hns, hinit]
  have hagain : Start sys2 (Start sys t).2 = (ER_BUS_BUS_ALREADY_STARTED, (Start sys t).2) := by
    rw [hst]
    simp [Start, hrun]
  refine ⟨by rw [hst], by rw [hst]; exact hrun, by rw [hst], hagain, ?_, ?_⟩
  · intro n
    exact Function.iterate_fixed (by rw [hagain]) n
  · intro hj ha he
    rw [hst]
    refine ⟨{ t with m_ns := none, m_stopping := false, isRunning := false }, ?_, rfl, ?_, ?_⟩
    · simp [Join, hrun, hj, ha, he]
    · by_cases h2 : sys2.Init = ER_OK
      · by_cases h3 : sys2.ThreadStart = ER_OK <;> simp [Start, h2, h3]
      · simp [Start, h2]
    · by_cases h2 : sys2.Init = ER_OK <;> simp [Start, h2]

/-- C29 at a transport that was never started, with a name service whose
`Init` fails. -/
theorem Start_after_failed_Init_witness :
    (Start initFailsSys {}).1 = ER_FAIL ∧
      (Start refSys (Start initFailsSys {}).2).1 = ER_BUS_BUS_ALREADY_STARTED ∧
      (Join refSys (Start initFailsSys {}).2).map (fun r => (r.1, r.2.m_ns)) =
        some (ER_OK, none) ∧
      Start refSys (Start initFailsSys {}).2 =
        (ER_BUS_BUS_ALREADY_STARTED, (Start initFailsSys {}).2) :=
  ⟨by decide, by decide, by decide,
    (Start_after_failed_Init initFailsSys refSys {} rfl rfl (by decide)).2.2.2.1⟩

/-- C30: for every port below 65536 and for both address families, the text
that `Connect` formats for the wildcard spec has at most 39 characters, so the
buffer of 40 bytes holds it with its terminator and the text is the whole of
`tcp:addr=0.0.0.0,port=<port>,family=ipv4`, or of
`tcp:addr=0::0,port=<port>,family=ipv6`. -/
theorem Connect_anyspec_fits (family : AddressFamily) (port : Nat) (h : port < 65536) :
    (match family with
      | AddressFamily.QCC_AF_INET =>
        ("tcp:addr=0.0.0.0,port=" ++ Nat.repr port ++ ",family=ipv4").length ≤ 39
      | AddressFamily.QCC_AF_INET6 =>
        ("tcp:addr=0::0,port=" ++ Nat.repr port ++ ",family=ipv6").length ≤ 39) ∧
      (Connect.anyspec family port).length ≤ 39 ∧
      Connect.anyspec family port =
        (match family with
          | AddressFamily.QCC_AF_INET => "tcp:addr=0.0.0.0,port=" ++ Nat.repr port ++ ",family=ipv4"
          | AddressFamily.QCC_AF_INET6 => "tcp:addr=0::0,port=" ++ Nat.repr port ++ ",family=ipv6") := by
  have hlen : (Nat.repr port).length ≤ 5 :=
    Nat.repr_length port 5 (by decide) (lt_of_lt_of_le h (by norm_num))
  have h4 : ("tcp:addr=0.0.0.0,port=" ++ Nat.repr port ++ ",family=ipv4").length ≤ 39 := by
    rw [String.length_append, String.length_append]
    have a : "tcp:addr=0.0.0.0,port=".length = 22 := by decide
    have b : ",family=ipv4".length = 12 := by decide
    omega
  have h6 : ("tcp:addr=0::0,port=" ++ Nat.repr port ++ ",family=ipv6").length ≤ 39 := by
    rw [String.length_append, String.length_append]
    have a : "tcp:addr=0::0,port=".length = 19 := by decide
    have b : ",family=ipv6".length = 12 := by decide
    omega
  have hfull : ∀ s : String, s.length ≤ 39 → String.mk (s.data.take 39) = s := by
    intro s hs
    rw [List.take_of_length_le hs]
  cases family with
  | QCC_AF_INET =>
    have e : Connect.anyspec AddressFamily.QCC_AF_INET port =
        "tcp:addr=0.0.0.0,port=" ++ Nat.repr port ++ ",family=ipv4" := by
      unfold Connect.anyspec
      exact hfull _ h4
    exact ⟨h4, by rw [e]; exact h4, e⟩
  | QCC_AF_INET6 =>
    have e : Connect.anyspec AddressFamily.QCC_AF_INET6 port =
        "tcp:addr=0::0,port=" ++ Nat.repr port ++ ",family=ipv6" := by
      unfold Connect.anyspec
      exact hfull _ h6
    exact ⟨h6, by rw [e]; exact h6, e⟩

/-- C30 at the port 65535, where the IPv4 text has exactly 39 characters. -/
theorem Connect_anyspec_fits_witness :
    (Connect.anyspec AddressFamily.QCC_AF_INET 65535).length = 39 ∧
      Connect.anyspec AddressFamily.QCC_AF_INET 65535 =
        "tcp:addr=0.0.0.0,port=" ++ Nat.repr 65535 ++ ",family=ipv4" ∧
      Connect.anyspec AddressFamily.QCC_AF_INET6 65535 = "tcp:addr=0::0,port=65535,family=ipv6" :=
  ⟨by decide, (Connect_anyspec_fits AddressFamily.QCC_AF_INET 65535 (by decide)).2.2, by decide⟩

end ajn
